import Mathlib

/-!
# nuntium MMS codec: a shallow embedding of `mms/` and its checked properties

Go strings and byte slices are sequences of octets (`List Nat`, every octet below 256);
`uint64` values are natural numbers reduced modulo `2 ^ 64` where the source can overflow;
the cursor `Decoder.Offset` is a Go `int`, modelled as `Int` (`int` and `uint` are taken to
be 64 bits wide).  An index out of range, a nil dereference and a failing `reflect` call are
run-time panics: the `panic` outcome.  The diagnostic trace (`dec.log`, `enc.log`,
`log.Println`) is not modelled.
-/

namespace Mms

/-! ## Constants (`mms.go`, `parameters.go`) -/

/-- A Go `string` or `[]byte`: its octets. -/
abbrev GoString := List Nat

/-- The octets of an ASCII literal of the source. -/
def lit (s : String) : GoString := s.data.map Char.toNat

def HeaderBCC : Nat := 0x01
def HeaderCC : Nat := 0x02
def HeaderXMmsContentLocation : Nat := 0x03
def HeaderContentType : Nat := 0x04
def HeaderDate : Nat := 0x05
def HeaderXMmsDeliveryReport : Nat := 0x06
def HeaderXMmsDeliveryTime : Nat := 0x07
def HeaderXMmsExpiry : Nat := 0x08
def HeaderFrom : Nat := 0x09
def HeaderXMmsMessageClass : Nat := 0x0A
def HeaderMessageID : Nat := 0x0B
def HeaderXMmsMessageType : Nat := 0x0C
def HeaderXMmsMmsVersion : Nat := 0x0D
def HeaderXMmsMessageSize : Nat := 0x0E
def HeaderxMmsPriority : Nat := 0x0F
def HeaderXMmsReadReport : Nat := 0x10
def HeaderXMmsReportAllowed : Nat := 0x11
def HeaderXMmsResponseStatus : Nat := 0x12
def HeaderXMmsResponseText : Nat := 0x13
def HeaderXMmsSenderVisibility : Nat := 0x14
def HeaderXMmsStatus : Nat := 0x15
def HeaderSubject : Nat := 0x16
def HeaderTo : Nat := 0x17
def HeaderXMmsTransactionID : Nat := 0x18
def HeaderXMmsRetrieveStatus : Nat := 0x19
def HeaderXMmsRetrieveText : Nat := 0x1A
def HeaderXMmsReadStatus : Nat := 0x1B
def HeaderXMmsReplyCharging : Nat := 0x1C
def HeaderXMmsReplyChargingDeadline : Nat := 0x1D
def HeaderXMmsReplyChargingID : Nat := 0x1E
def HeaderXMmsReplyChargingSize : Nat := 0x1F
def HeaderXMmsPreviouslySentBy : Nat := 0x20
def HeaderXMmsPreviouslySentDate : Nat := 0x21

def typeSendReq : Nat := 0x80
def typeSendConf : Nat := 0x81
def typeNotificationInd : Nat := 0x82
def typeNotifyrespInd : Nat := 0x83
def typeRetrieveConf : Nat := 0x84
def typeAcknowledgeInd : Nat := 0x85
def typeDeliveryInd : Nat := 0x86

def mmsMessageVersion1_0 : Nat := 0x90
def mmsMessageVersion1_1 : Nat := 0x91
def mmsMessageVersion1_2 : Nat := 0x92
def mmsMessageVersion1_3 : Nat := 0x93

def DeliveryReportYes : Nat := 128
def DeliveryReportNo : Nat := 129
def ExpiryTokenAbsolute : Nat := 128
def ExpiryTokenRelative : Nat := 129
def tokenAddressPresent : Nat := 0x80
def tokenInsertAddress : Nat := 0x81
def ClassPersonal : Nat := 128
def ClassAdvertisement : Nat := 129
def ClassInformational : Nat := 130
def ClassAuto : Nat := 131
def ReadReportYes : Nat := 128
def ReadReportNo : Nat := 129
def ReportAllowedYes : Nat := 128
def ReportAllowedNo : Nat := 129

def ResponseStatusOk : Nat := 128
def ResponseStatusErrorUnspecified : Nat := 129
def ResponseStatusErrorServiceDenied : Nat := 130
def ResponseStatusErrorMessageFormatCorrupt : Nat := 131
def ResponseStatusErrorSendingAddressUnresolved : Nat := 132
def ResponseStatusErrorMessageNotFound : Nat := 133
def ResponseStatusErrorNetworkProblem : Nat := 134
def ResponseStatusErrorContentNotAccepted : Nat := 135
def ResponseStatusErrorUnsupportedMessage : Nat := 136
def ResponseStatusErrorTransientFailure : Nat := 192
def ResponseStatusErrorTransientAddressUnresolved : Nat := 193
def ResponseStatusErrorTransientMessageNotFound : Nat := 194
def ResponseStatusErrorTransientNetworkProblem : Nat := 195
def ResponseStatusErrorTransientMaxReserved : Nat := 223
def ResponseStatusErrorPermanentFailure : Nat := 224
def ResponseStatusErrorPermamentMaxReserved : Nat := 255

def statusExpired : Nat := 128
def statusRetrieved : Nat := 129
def statusRejected : Nat := 130
def statusDeferred : Nat := 131
def statusUnrecognized : Nat := 132

def wspParameterTypeQ : Nat := 0x00
def wspParameterTypeCharset : Nat := 0x01
def wspParameterTypeLevel : Nat := 0x02
def wspParameterTypeType : Nat := 0x03
def wspParameterTypeNameDefunct : Nat := 0x05
def wspParameterTypeFilenameDefunct : Nat := 0x06
def wspParameterTypeDifferences : Nat := 0x07
def wspParameterTypePadding : Nat := 0x08
def wspParameterTypeContentType : Nat := 0x09
def wspParameterTypeStartDefunct : Nat := 0x0A
def wspParameterTypeStartInfoDefunct : Nat := 0x0B
def wspParameterTypeCommentDefunct : Nat := 0x0C
def wspParameterTypeDomainDefunct : Nat := 0x0D
def wspParameterTypeMaxAge : Nat := 0x0E
def wspParameterTypePathDefunct : Nat := 0x0F
def wspParameterTypeSecure : Nat := 0x10
def wspParameterTypeSec : Nat := 0x11
def wspParameterTypeMac : Nat := 0x12
def wspParameterTypeCreationDate : Nat := 0x13
def wspParameterTypeModificationDate : Nat := 0x14
def wspParameterTypeReadDate : Nat := 0x15
def wspParameterTypeSize : Nat := 0x16
def wspParameterTypeName : Nat := 0x17
def wspParameterTypeFilename : Nat := 0x18
def wspParameterTypeStart : Nat := 0x19
def wspParameterTypeStartInfo : Nat := 0x1A
def wspParameterTypeComment : Nat := 0x1B
def wspParameterTypeDomain : Nat := 0x1C
def wspParameterTypePath : Nat := 0x1D
def wspParameterTypeUntyped : Nat := 0xFF

def mmsPartContentLocation : Nat := 0x0E
def mmsPartContentID : Nat := 0x40

def textMax : Nat := 127
def textMin : Nat := 32
def shortLengthMax : Nat := 30
def lengthQuote : Nat := 31
def stringQuote : Nat := 34
def shortFilter : Nat := 0x80
def anyCharset : Nat := 128

/-- The well-known content types, indexed by their binary code. -/
def contentTypes : List GoString :=
  [ "*/*", "text/*", "text/html", "text/plain",
    "text/x-hdml", "text/x-ttml", "text/x-vCalendar",
    "text/x-vCard", "text/vnd.wap.wml",
    "text/vnd.wap.wmlscript", "text/vnd.wap.wta-event",
    "multipart/*", "multipart/mixed", "multipart/form-data",
    "multipart/byterantes", "multipart/alternative",
    "application/*", "application/java-vm",
    "application/x-www-form-urlencoded",
    "application/x-hdmlc", "application/vnd.wap.wmlc",
    "application/vnd.wap.wmlscriptc",
    "application/vnd.wap.wta-eventc",
    "application/vnd.wap.uaprof",
    "application/vnd.wap.wtls-ca-certificate",
    "application/vnd.wap.wtls-user-certificate",
    "application/x-x509-ca-cert",
    "application/x-x509-user-cert",
    "image/*", "image/gif", "image/jpeg", "image/tiff",
    "image/png", "image/vnd.wap.wbmp",
    "application/vnd.wap.multipart.*",
    "application/vnd.wap.multipart.mixed",
    "application/vnd.wap.multipart.form-data",
    "application/vnd.wap.multipart.byteranges",
    "application/vnd.wap.multipart.alternative",
    "application/xml", "text/xml",
    "application/vnd.wap.wbxml",
    "application/x-x968-cross-cert",
    "application/x-x968-ca-cert",
    "application/x-x968-user-cert",
    "text/vnd.wap.si",
    "application/vnd.wap.sic",
    "text/vnd.wap.sl",
    "application/vnd.wap.slc",
    "text/vnd.wap.co",
    "application/vnd.wap.coc",
    "application/vnd.wap.multipart.related",
    "application/vnd.wap.sia",
    "text/vnd.wap.connectivity-xml",
    "application/vnd.wap.connectivity-wbxml",
    "application/pkcs7-mime",
    "application/vnd.wap.hashed-certificate",
    "application/vnd.wap.signed-certificate",
    "application/vnd.wap.cert-response",
    "application/xhtml+xml",
    "application/wml+xml",
    "text/css",
    "application/vnd.wap.mms-message",
    "application/vnd.wap.rollover-certificate",
    "application/vnd.wap.locc+wbxml",
    "application/vnd.wap.loc+xml",
    "application/vnd.syncml.dm+wbxml",
    "application/vnd.syncml.dm+xml",
    "application/vnd.syncml.notification",
    "application/vnd.wap.xhtml+xml",
    "application/vnd.wv.csp.cir",
    "application/vnd.oma.dd+xml",
    "application/vnd.oma.drm.message",
    "application/vnd.oma.drm.content",
    "application/vnd.oma.drm.rights+xml",
    "application/vnd.oma.drm.rights+wbxml" ].map lit

/-- The table `CHARSETS`: charset code to charset name. -/
def CHARSETS : List (Nat × GoString) :=
  [ (0x07EA, lit "big5"), (0x03E8, lit "iso-10646-ucs-2"),
    (0x04, lit "iso-8859-1"), (0x05, lit "iso-8859-2"), (0x06, lit "iso-8859-3"),
    (0x07, lit "iso-8859-4"), (0x08, lit "iso-8859-5"), (0x09, lit "iso-8859-6"),
    (0x0A, lit "iso-8859-7"), (0x0B, lit "iso-8859-8"), (0x0C, lit "iso-8859-9"),
    (0x11, lit "shift_JIS"), (0x03, lit "us-ascii"), (0x6A, lit "utf-8") ]

/-- The map lookup `CHARSETS[code]`. -/
def lookupCharset (code : Nat) : Option GoString :=
  (CHARSETS.find? (fun p => p.1 == code)).map Prod.snd

/-! ## Records and reflection

`Encode` and `Decode` walk the Go records through `reflect`: a record is modelled by its
type name and the list of its fields (name, `encode` tag, value) in declaration order. -/

/-- The record `Attachment` of `attachments.go`.  `Q` (a `float64`) is kept as the exact
fraction `numerator / denominator` that `ReadQ` computes.  The Go field `Type` is
named `Type_` in the typed records (`Type` is reserved); its reflected name is `"Type"`. -/
structure Attachment where
  MediaType : GoString := []
  Type_ : GoString := []
  Name : GoString := []
  FileName : GoString := []
  Charset : GoString := []
  Start : GoString := []
  StartInfo : GoString := []
  Domain : GoString := []
  Path : GoString := []
  Comment : GoString := []
  ContentLocation : GoString := []
  ContentID : GoString := []
  Level : Nat := 0
  Length : Nat := 0
  Size : Nat := 0
  CreationDate : Nat := 0
  ModificationDate : Nat := 0
  ReadDate : Nat := 0
  Offset : Int := 0
  Secure : Bool := false
  Q : Int × Nat := (0, 1)
  Data : List Nat := []
deriving DecidableEq, Repr

/-- A field value as `reflect` sees it, by kind. -/
inductive Value where
  | string (s : GoString)
  | uint8 (v : Nat)
  | uint64 (v : Nat)
  | int (v : Int)
  | bool (b : Bool)
  | float64 (num : Int) (den : Nat)
  | bytes (b : List Nat)
  | strings (l : List GoString)
  | attachment (a : Attachment)
  | attachments (l : List Attachment)
  | attachmentPtrs (l : List Attachment)
  | iface
deriving DecidableEq, Repr

/-- One field of a record: its name, the value of its `encode` tag, its value. -/
structure Field where
  name : String
  tag : String
  val : Value
deriving DecidableEq, Repr

/-- A record seen through `reflect.ValueOf(pdu).Elem()`. -/
structure Struct where
  typ : String
  fields : List Field
deriving DecidableEq, Repr

/-- The call `FieldByName(name)` on a struct value: `none` is the invalid (zero) value. -/
def Struct.FieldByName (s : Struct) (name : String) : Option Value :=
  (s.fields.find? (fun f => f.name == name)).map Field.val

/-- Store `v` in the field `name`. -/
def Struct.setField (s : Struct) (name : String) (v : Value) : Struct :=
  { s with fields := s.fields.map (fun f => if f.name == name then { f with val := v } else f) }

/-- The argument `reflectedPdu *reflect.Value` of the readers: the nil pointer, a pointer to
the zero `reflect.Value` (what `FieldByName` returns for a missing field), or a record. -/
inductive Target where
  | nil
  | invalid
  | struct (s : Struct)
deriving DecidableEq, Repr

def setterString : Value → Value → Option Value
  | .string _, .string s => some (.string s)
  | _, _ => none

def setterUint64 : Value → Value → Option Value
  | .uint8 _, .uint64 x => some (.uint8 (x % 256))
  | .uint64 _, .uint64 x => some (.uint64 x)
  | _, _ => none

def setterSlice : Value → Value → Option Value
  | .bytes _, .bytes b => some (.bytes b)
  | _, _ => none

/-- The method `setPduField`: with a non-empty name, set the field when the record has it
and leave the record alone otherwise.  `none` is a panic (nil or zero `reflect.Value`,
or a setter applied to a field of another kind). -/
def setPduField (pdu : Target) (name : String) (v : Value)
    (setter : Value → Value → Option Value) : Option Target :=
  if name = "" then some pdu
  else
    match pdu with
    | .nil => none
    | .invalid => none
    | .struct s =>
      match s.FieldByName name with
      | none => some pdu
      | some field =>
        match setter field v with
        | none => none
        | some field' => some (.struct (s.setField name field'))

/-- The reflected `Attachment`. -/
def Attachment.reflect (a : Attachment) : Struct :=
  { typ := "Attachment"
    fields :=
      [ ⟨"MediaType", "", .string a.MediaType⟩,
        ⟨"Type", "no", .string a.Type_⟩,
        ⟨"Name", "no", .string a.Name⟩,
        ⟨"FileName", "no", .string a.FileName⟩,
        ⟨"Charset", "no", .string a.Charset⟩,
        ⟨"Start", "no", .string a.Start⟩,
        ⟨"StartInfo", "no", .string a.StartInfo⟩,
        ⟨"Domain", "no", .string a.Domain⟩,
        ⟨"Path", "no", .string a.Path⟩,
        ⟨"Comment", "no", .string a.Comment⟩,
        ⟨"ContentLocation", "", .string a.ContentLocation⟩,
        ⟨"ContentID", "", .string a.ContentID⟩,
        ⟨"Level", "no", .uint8 a.Level⟩,
        ⟨"Length", "no", .uint64 a.Length⟩,
        ⟨"Size", "no", .uint64 a.Size⟩,
        ⟨"CreationDate", "no", .uint64 a.CreationDate⟩,
        ⟨"ModificationDate", "no", .uint64 a.ModificationDate⟩,
        ⟨"ReadDate", "no", .uint64 a.ReadDate⟩,
        ⟨"Offset", "no", .int a.Offset⟩,
        ⟨"Secure", "no", .bool a.Secure⟩,
        ⟨"Q", "no", .float64 a.Q.1 a.Q.2⟩,
        ⟨"Data", "no", .bytes a.Data⟩ ] }

def Struct.getString (s : Struct) (name : String) : GoString :=
  match s.FieldByName name with
  | some (.string v) => v
  | _ => []

def Struct.getUint (s : Struct) (name : String) : Nat :=
  match s.FieldByName name with
  | some (.uint8 v) => v
  | some (.uint64 v) => v
  | _ => 0

/-- The `Attachment` behind a reflected attachment (inverse of `Attachment.reflect`). -/
def Attachment.ofStruct (s : Struct) : Attachment :=
  { MediaType := s.getString "MediaType"
    Type_ := s.getString "Type"
    Name := s.getString "Name"
    FileName := s.getString "FileName"
    Charset := s.getString "Charset"
    Start := s.getString "Start"
    StartInfo := s.getString "StartInfo"
    Domain := s.getString "Domain"
    Path := s.getString "Path"
    Comment := s.getString "Comment"
    ContentLocation := s.getString "ContentLocation"
    ContentID := s.getString "ContentID"
    Level := s.getUint "Level"
    Length := s.getUint "Length"
    Size := s.getUint "Size"
    CreationDate := s.getUint "CreationDate"
    ModificationDate := s.getUint "ModificationDate"
    ReadDate := s.getUint "ReadDate"
    Offset := match s.FieldByName "Offset" with
      | some (.int v) => v
      | _ => 0
    Secure := match s.FieldByName "Secure" with
      | some (.bool v) => v
      | _ => false
    Q := match s.FieldByName "Q" with
      | some (.float64 n d) => (n, d)
      | _ => (0, 1)
    Data := match s.FieldByName "Data" with
      | some (.bytes v) => v
      | _ => [] }

/-- The record `MNotifyRespInd` (m-notifyresp.ind). -/
structure MNotifyRespInd where
  UUID : GoString := []
  Type_ : Nat := 0
  TransactionID : GoString := []
  Version : Nat := 0
  Status : Nat := 0
  ReportAllowed : Nat := 0
deriving DecidableEq, Repr

def MNotifyRespInd.reflect (p : MNotifyRespInd) : Struct :=
  { typ := "MNotifyRespInd"
    fields :=
      [ ⟨"UUID", "no", .string p.UUID⟩,
        ⟨"Type", "", .uint8 p.Type_⟩,
        ⟨"TransactionID", "", .string p.TransactionID⟩,
        ⟨"Version", "", .uint8 p.Version⟩,
        ⟨"Status", "", .uint8 p.Status⟩,
        ⟨"ReportAllowed", "optional", .uint8 p.ReportAllowed⟩ ] }

/-- The function `NewMNotifyRespInd()`. -/
def NewMNotifyRespInd : MNotifyRespInd := { Type_ := typeNotifyrespInd }

/-- The record `MSendConf` (m-send.conf). -/
structure MSendConf where
  Type_ : Nat := 0
  TransactionID : GoString := []
  Version : Nat := 0
  ResponseStatus : Nat := 0
  ResponseText : GoString := []
  MessageID : GoString := []
deriving DecidableEq, Repr

def MSendConf.reflect (p : MSendConf) : Struct :=
  { typ := "MSendConf"
    fields :=
      [ ⟨"Type", "", .uint8 p.Type_⟩,
        ⟨"TransactionID", "", .string p.TransactionID⟩,
        ⟨"Version", "", .uint8 p.Version⟩,
        ⟨"ResponseStatus", "", .uint8 p.ResponseStatus⟩,
        ⟨"ResponseText", "", .string p.ResponseText⟩,
        ⟨"MessageID", "", .string p.MessageID⟩ ] }

/-- The function `NewMSendConf()`. -/
def NewMSendConf : MSendConf := { Type_ := typeSendConf }

/-- The record `MSendReq` (m-send.req); `Attachments` is a slice of non-nil pointers. -/
structure MSendReq where
  UUID : GoString := []
  Type_ : Nat := 0
  TransactionID : GoString := []
  Version : Nat := 0
  Date : Nat := 0
  From : GoString := []
  To : List GoString := []
  Cc : GoString := []
  Bcc : GoString := []
  Subject : GoString := []
  Class : Nat := 0
  Expiry : Nat := 0
  DeliveryTime : Nat := 0
  Priority : Nat := 0
  SenderVisibility : Nat := 0
  DeliveryReport : Nat := 0
  ReadReport : Nat := 0
  ContentTypeStart : GoString := []
  ContentTypeType : GoString := []
  ContentType : GoString := []
  Attachments : List Attachment := []
deriving DecidableEq, Repr

def MSendReq.reflect (p : MSendReq) : Struct :=
  { typ := "MSendReq"
    fields :=
      [ ⟨"UUID", "no", .string p.UUID⟩,
        ⟨"Type", "", .uint8 p.Type_⟩,
        ⟨"TransactionID", "", .string p.TransactionID⟩,
        ⟨"Version", "", .uint8 p.Version⟩,
        ⟨"Date", "optional", .uint64 p.Date⟩,
        ⟨"From", "", .string p.From⟩,
        ⟨"To", "", .strings p.To⟩,
        ⟨"Cc", "no", .string p.Cc⟩,
        ⟨"Bcc", "no", .string p.Bcc⟩,
        ⟨"Subject", "optional", .string p.Subject⟩,
        ⟨"Class", "optional", .uint8 p.Class⟩,
        ⟨"Expiry", "optional", .uint64 p.Expiry⟩,
        ⟨"DeliveryTime", "optional", .uint64 p.DeliveryTime⟩,
        ⟨"Priority", "optional", .uint8 p.Priority⟩,
        ⟨"SenderVisibility", "optional", .uint8 p.SenderVisibility⟩,
        ⟨"DeliveryReport", "optional", .uint8 p.DeliveryReport⟩,
        ⟨"ReadReport", "optional", .uint8 p.ReadReport⟩,
        ⟨"ContentTypeStart", "no", .string p.ContentTypeStart⟩,
        ⟨"ContentTypeType", "no", .string p.ContentTypeType⟩,
        ⟨"ContentType", "", .string p.ContentType⟩,
        ⟨"Attachments", "no", .attachmentPtrs p.Attachments⟩ ] }

/-- The record `MNotificationInd` (m-notification.ind); its first field is the embedded
interface `Reader`, which is nil. -/
structure MNotificationInd where
  UUID : GoString := []
  Type_ : Nat := 0
  Version : Nat := 0
  Class : Nat := 0
  DeliveryReport : Nat := 0
  ReplyCharging : Nat := 0
  ReplyChargingDeadline : Nat := 0
  Priority : Nat := 0
  ReplyChargingID : GoString := []
  TransactionID : GoString := []
  ContentLocation : GoString := []
  From : GoString := []
  Subject : GoString := []
  Expiry : Nat := 0
  Size : Nat := 0
deriving DecidableEq, Repr

def MNotificationInd.reflect (p : MNotificationInd) : Struct :=
  { typ := "MNotificationInd"
    fields :=
      [ ⟨"Reader", "", .iface⟩,
        ⟨"UUID", "", .string p.UUID⟩,
        ⟨"Type", "", .uint8 p.Type_⟩,
        ⟨"Version", "", .uint8 p.Version⟩,
        ⟨"Class", "", .uint8 p.Class⟩,
        ⟨"DeliveryReport", "", .uint8 p.DeliveryReport⟩,
        ⟨"ReplyCharging", "", .uint8 p.ReplyCharging⟩,
        ⟨"ReplyChargingDeadline", "", .uint8 p.ReplyChargingDeadline⟩,
        ⟨"Priority", "", .uint8 p.Priority⟩,
        ⟨"ReplyChargingID", "", .string p.ReplyChargingID⟩,
        ⟨"TransactionID", "", .string p.TransactionID⟩,
        ⟨"ContentLocation", "", .string p.ContentLocation⟩,
        ⟨"From", "", .string p.From⟩,
        ⟨"Subject", "", .string p.Subject⟩,
        ⟨"Expiry", "", .uint64 p.Expiry⟩,
        ⟨"Size", "", .uint64 p.Size⟩ ] }

/-- The function `NewMNotificationInd()`; `uuid` is the identifier drawn by `genUUID`. -/
def NewMNotificationInd (uuid : GoString) : MNotificationInd :=
  { Type_ := typeNotificationInd, UUID := uuid }

/-- The record `MRetrieveConf` (m-retrieve.conf); its first field is the embedded
interface `Reader`, which is nil. -/
structure MRetrieveConf where
  UUID : GoString := []
  Type_ : Nat := 0
  Version : Nat := 0
  Status : Nat := 0
  Class : Nat := 0
  Priority : Nat := 0
  ReplyCharging : Nat := 0
  ReplyChargingDeadline : Nat := 0
  ReplyChargingID : GoString := []
  ReadReport : Nat := 0
  RetrieveStatus : Nat := 0
  DeliveryReport : Nat := 0
  TransactionID : GoString := []
  MessageID : GoString := []
  RetrieveText : GoString := []
  From : GoString := []
  Cc : GoString := []
  Subject : GoString := []
  To : List GoString := []
  ReportAllowed : Nat := 0
  Date : Nat := 0
  Content : Attachment := {}
  Attachments : List Attachment := []
  Data : List Nat := []
deriving DecidableEq, Repr

def MRetrieveConf.reflect (p : MRetrieveConf) : Struct :=
  { typ := "MRetrieveConf"
    fields :=
      [ ⟨"Reader", "", .iface⟩,
        ⟨"UUID", "", .string p.UUID⟩,
        ⟨"Type", "", .uint8 p.Type_⟩,
        ⟨"Version", "", .uint8 p.Version⟩,
        ⟨"Status", "", .uint8 p.Status⟩,
        ⟨"Class", "", .uint8 p.Class⟩,
        ⟨"Priority", "", .uint8 p.Priority⟩,
        ⟨"ReplyCharging", "", .uint8 p.ReplyCharging⟩,
        ⟨"ReplyChargingDeadline", "", .uint8 p.ReplyChargingDeadline⟩,
        ⟨"ReplyChargingID", "", .string p.ReplyChargingID⟩,
        ⟨"ReadReport", "", .uint8 p.ReadReport⟩,
        ⟨"RetrieveStatus", "", .uint8 p.RetrieveStatus⟩,
        ⟨"DeliveryReport", "", .uint8 p.DeliveryReport⟩,
        ⟨"TransactionID", "", .string p.TransactionID⟩,
        ⟨"MessageID", "", .string p.MessageID⟩,
        ⟨"RetrieveText", "", .string p.RetrieveText⟩,
        ⟨"From", "", .string p.From⟩,
        ⟨"Cc", "", .string p.Cc⟩,
        ⟨"Subject", "", .string p.Subject⟩,
        ⟨"To", "", .strings p.To⟩,
        ⟨"ReportAllowed", "", .uint8 p.ReportAllowed⟩,
        ⟨"Date", "", .uint64 p.Date⟩,
        ⟨"Content", "", .attachment p.Content⟩,
        ⟨"Attachments", "", .attachments p.Attachments⟩,
        ⟨"Data", "", .bytes p.Data⟩ ] }

/-- The function `NewMRetrieveConf(uuid)`. -/
def NewMRetrieveConf (uuid : GoString) : MRetrieveConf :=
  { Type_ := typeRetrieveConf, UUID := uuid }

/-- The value of Go type `error` returned by `MSendConf.Status`. -/
inductive StatusError where
  | nil
  | ErrTransient
  | ErrPermanent
deriving DecidableEq, Repr

/-- The method `MSendConf.Status`. -/
def MSendConf.Status (mSendConf : MSendConf) : StatusError :=
  let s := mSendConf.ResponseStatus
  if s = ResponseStatusOk then .nil
  else if s = ResponseStatusErrorUnspecified then .ErrTransient
  else if s = ResponseStatusErrorServiceDenied then .ErrTransient
  else if s = ResponseStatusErrorMessageFormatCorrupt then .ErrPermanent
  else if s = ResponseStatusErrorSendingAddressUnresolved then .ErrPermanent
  else if s = ResponseStatusErrorMessageNotFound then .ErrPermanent
  else if s = ResponseStatusErrorNetworkProblem then .ErrTransient
  else if s = ResponseStatusErrorContentNotAccepted then .ErrPermanent
  else if s = ResponseStatusErrorUnsupportedMessage then .ErrPermanent
  else if s ≥ ResponseStatusErrorTransientFailure ∧ s ≤ ResponseStatusErrorTransientMaxReserved then
    .ErrTransient
  else if s ≥ ResponseStatusErrorPermanentFailure ∧ s ≤ ResponseStatusErrorPermamentMaxReserved then
    .ErrPermanent
  else .ErrPermanent

/-! ## A new send request (`mms.go`, `attachments.go`) -/

/-- The function `strings.HasPrefix`. -/
def HasPrefix (s pre : GoString) : Bool := pre.isPrefixOf s

/-- The function `getSmilStart`: the text up to and with the first `>`; `none` is the
error returned when there is none. -/
def getSmilStart (smilData : List Nat) : Option GoString :=
  match smilData.findIdx? (fun b => b == 62) with
  | none => none
  | some i => if i + 1 > smilData.length then none else some (smilData.take (i + 1))

/-- The loop of `processAttachments` over `a[i:]`, from the values of `oa`, `smilStart` and
`smilType` reached so far.  When `getSmilStart` fails, `smilStart` is assigned the empty
string it returns with the error, which is only logged. -/
def processAttachmentsLoop :
    List Attachment → List Attachment × GoString × GoString →
      List Attachment × GoString × GoString
  | [], acc => acc
  | ai :: rest, (oa, smilStart, smilType) =>
    if HasPrefix ai.MediaType (lit "application/smil") then
      processAttachmentsLoop rest
        (ai :: oa, (getSmilStart ai.Data).getD [], lit "application/smil")
    else processAttachmentsLoop rest (oa ++ [ai], smilStart, smilType)

/-- The function `processAttachments`: `(oa, smilStart, smilType)`. -/
def processAttachments (a : List Attachment) : List Attachment × GoString × GoString :=
  processAttachmentsLoop a ([], [], [])

/-- The function `getDeliveryReport`. -/
def getDeliveryReport (v : Bool) : Nat := if v then DeliveryReportYes else DeliveryReportNo

/-- The function `getDate`, for the Unix time `d` (an `int64`) given by the clock. -/
def getDate (d : Int) : Nat := if d > 0 then d.toNat else 0

/-- The function `NewMSendReq`; `uuid` is the identifier drawn by `genUUID` and `now` the
Unix time of the clock.  The expiry is `uint64(time.Duration(time.Hour * 24 * 7).Seconds())`,
seven days in seconds. -/
def NewMSendReq (recipients : List GoString) (attachments : List Attachment)
    (deliveryReport : Bool) (uuid : GoString) (now : Int) : MSendReq :=
  let recipients := recipients.map fun r => r ++ lit "/TYPE=PLMN"
  let (orderedAttachments, smilStart, smilType) := processAttachments attachments
  { Type_ := typeSendReq
    To := recipients
    TransactionID := uuid
    Version := mmsMessageVersion1_1
    UUID := uuid
    Date := getDate now
    Expiry := 604800
    DeliveryReport := getDeliveryReport deliveryReport
    ReadReport := ReadReportNo
    Class := ClassPersonal
    ContentType := lit "application/vnd.wap.multipart.mixed"
    ContentTypeStart := smilStart
    ContentTypeType := smilType
    Attachments := orderedAttachments }

/-! ## Attachments and responses built by the program (`attachments.go`, `mms.go`) -/

/-- The function `getReportAllowed`. -/
def getReportAllowed (v : Bool) : Nat := if v then ReportAllowedYes else ReportAllowedNo

/-- The method `NewMNotifyRespInd` of `MNotificationInd`. -/
def MNotificationInd.NewMNotifyRespInd (mNotificationInd : MNotificationInd) (status : Nat)
    (deliveryReport : Bool) : MNotifyRespInd :=
  { Type_ := typeNotifyrespInd
    UUID := mNotificationInd.UUID
    TransactionID := mNotificationInd.TransactionID
    Version := mNotificationInd.Version
    Status := status
    ReportAllowed := getReportAllowed deliveryReport }

/-- The method `NewMNotifyRespInd` of `MRetrieveConf`. -/
def MRetrieveConf.NewMNotifyRespInd (mRetrieveConf : MRetrieveConf) (deliveryReport : Bool) :
    MNotifyRespInd :=
  { Type_ := typeNotifyrespInd
    UUID := mRetrieveConf.UUID
    TransactionID := mRetrieveConf.TransactionID
    Version := mRetrieveConf.Version
    Status := statusRetrieved
    ReportAllowed := getReportAllowed deliveryReport }

/-- The loop of `GetSmil` over `pdu.Attachments[i:]`; `none` is the error returned when no
part is a SMIL part. -/
def getSmilLoop : List Attachment → Option GoString
  | [] => none
  | a :: rest =>
    if HasPrefix a.MediaType (lit "application/smil") then some a.Data else getSmilLoop rest

/-- The method `GetSmil`. -/
def MRetrieveConf.GetSmil (pdu : MRetrieveConf) : Option GoString := getSmilLoop pdu.Attachments

/-- The loop of `GetDataParts` over `pdu.Attachments[i:]`, from the `dataParts` so far. -/
def getDataPartsLoop : List Attachment → List Attachment → List Attachment
  | [], dataParts => dataParts
  | a :: rest, dataParts =>
    if a.MediaType = lit "application/smil" then getDataPartsLoop rest dataParts
    else getDataPartsLoop rest (dataParts ++ [a])

/-- The method `GetDataParts`. -/
def MRetrieveConf.GetDataParts (pdu : MRetrieveConf) : List Attachment :=
  getDataPartsLoop pdu.Attachments []

/-- The loop of Go's `strings.Split(s, sep)` for a separator `sep` of one octet, from the
octets `cur` of the piece begun. -/
def splitLoop (sep : Nat) : List Nat → List Nat → List GoString
  | [], cur => [cur]
  | b :: rest, cur => if b = sep then cur :: splitLoop sep rest [] else splitLoop sep rest (cur ++ [b])

/-- Go's `strings.Split(s, sep)` for a separator of one octet: the pieces of `s` between
the separators, at least one piece. -/
def Split (s : GoString) (sep : Nat) : List GoString := splitLoop sep s []

/-- The UTF-8 encodings of the code points that Go's `unicode.IsSpace` accepts: tab to
carriage return, space, U+0085, U+00A0, U+1680, U+2000 to U+200A, U+2028, U+2029, U+202F,
U+205F and U+3000. -/
def spaceRunes : List (List Nat) :=
  [[9], [10], [11], [12], [13], [32], [0xC2, 0x85], [0xC2, 0xA0], [0xE1, 0x9A, 0x80],
   [0xE2, 0x80, 0x80], [0xE2, 0x80, 0x81], [0xE2, 0x80, 0x82], [0xE2, 0x80, 0x83],
   [0xE2, 0x80, 0x84], [0xE2, 0x80, 0x85], [0xE2, 0x80, 0x86], [0xE2, 0x80, 0x87],
   [0xE2, 0x80, 0x88], [0xE2, 0x80, 0x89], [0xE2, 0x80, 0x8A], [0xE2, 0x80, 0xA8],
   [0xE2, 0x80, 0xA9], [0xE2, 0x80, 0xAF], [0xE2, 0x81, 0x9F], [0xE3, 0x80, 0x80]]

/-- Drop the white space that a string begins with (`runes` lists the encodings to drop);
every turn drops at least one octet, so `fuel = len(s)` turns are enough. -/
def trimLoop (runes : List (List Nat)) : Nat → List Nat → List Nat
  | 0, s => s
  | fuel + 1, s =>
    match runes.find? (fun r => r.isPrefixOf s) with
    | some r => trimLoop runes fuel (s.drop r.length)
    | none => s

/-- Go's `strings.TrimSpace`: `s` without the white space at its two ends. -/
def TrimSpace (s : GoString) : GoString :=
  let s := trimLoop spaceRunes s.length s
  (trimLoop (spaceRunes.map List.reverse) s.length s.reverse).reverse

/-- The loop of `NewAttachmentFromBuffer` over `parts[i:]` for `i ≥ 1`: the value of
`ct.Charset` after it, from the value `charset` so far. -/
def attachmentCharset : List GoString → GoString → GoString
  | [], charset => charset
  | part :: rest, charset =>
    let field := Split (TrimSpace part) 61
    if field.length > 1 then
      if TrimSpace (field.getD 0 []) = lit "charset" then
        attachmentCharset rest (TrimSpace (field.getD 1 []))
      else attachmentCharset rest charset
    else attachmentCharset rest charset

/-- The function `NewAttachmentFromBuffer`; `none` is the error of `getSmilStart`, returned
with a nil attachment. -/
def NewAttachmentFromBuffer (id contentType : GoString) (buffer : List Nat) : Option Attachment :=
  let ct : Attachment := { ContentID := id, ContentLocation := id, Name := id, Data := buffer }
  let parts := Split contentType 59
  let ct := { ct with MediaType := TrimSpace (parts.headD []) }
  let ct := { ct with Charset := attachmentCharset parts.tail ct.Charset }
  if contentType = lit "application/smil" then
    match getSmilStart buffer with
    | none => none
    | some start => some { ct with ContentID := start }
  else some ct

/-- The function `NewAttachment`; `file` is what `ioutil.ReadFile(filePath)` returns, `none`
when it fails, and the result `none` is an error returned with a nil attachment.  After the
file is read, its statements are those of `NewAttachmentFromBuffer` on the data read. -/
def NewAttachment (id contentType : GoString) (file : Option (List Nat)) : Option Attachment :=
  match file with
  | none => none
  | some data => NewAttachmentFromBuffer id contentType data

/-! ## Decoder primitives (`decoder.go`) -/

/-- The struct `Decoder`: the input and the cursor. -/
structure Decoder where
  Data : List Nat
  Offset : Int
deriving DecidableEq, Repr

/-- The function `NewDecoder`. -/
def NewDecoder (data : List Nat) : Decoder := { Data := data, Offset := 0 }

/-- The index expression `dec.Data[i]`: `none` when `i` is out of range (a panic). -/
def Decoder.byteAt (dec : Decoder) (i : Int) : Option Nat :=
  if i < 0 then none else dec.Data[i.toNat]?

/-- The conversion `int(x)` of a `uint64` (`int` is 64 bits wide). -/
def toInt (x : Nat) : Int := if x < 2 ^ 63 then (x : Int) else (x : Int) - 2 ^ 64

/-- A sum of Go `int`s with an operand read from the input, wrapped to 64 bits. -/
def wrapInt (i : Int) : Int := (i + 2 ^ 63) % 2 ^ 64 - 2 ^ 63

/-- What a reader does: it returns `(v, nil)`, returns a non-nil error (always with the
zero value of its result type), or panics.  The cursor and the record reached through
`reflectedPdu` are given as the call leaves them.  `outOfFuel` is not an outcome of the
program: a loop of the model used up its fuel. -/
inductive Result (α : Type) where
  | ok (v : α) (dec : Decoder) (pdu : Target)
  | error (dec : Decoder) (pdu : Target)
  | panic
  | outOfFuel
deriving DecidableEq, Repr

/-- Continue after a call that returned without error; pass an error or a panic on. -/
def Result.andThen {α β : Type} (r : Result α) (f : α → Decoder → Target → Result β) :
    Result β :=
  match r with
  | .ok v dec pdu => f v dec pdu
  | .error dec pdu => .error dec pdu
  | .panic => .panic
  | .outOfFuel => .outOfFuel

/-- Return `v` after `setPduField(reflectedPdu, hdr, fieldValue, setter)`. -/
def returnSet {α : Type} (v : α) (dec : Decoder) (reflectedPdu : Target) (hdr : String)
    (fieldValue : Value) (setter : Value → Value → Option Value) : Result α :=
  match setPduField reflectedPdu hdr fieldValue setter with
  | none => .panic
  | some pdu => .ok v dec pdu

/-- The method `ReadShortInteger`. -/
def ReadShortInteger (dec : Decoder) (reflectedPdu : Target) (hdr : String) : Result Nat :=
  let dec := { dec with Offset := dec.Offset + 1 }
  match dec.byteAt dec.Offset with
  | none => .panic
  | some b =>
    let v := b &&& 0x7F
    returnSet v dec reflectedPdu hdr (.uint64 v) setterUint64

/-- The method `ReadByte`. -/
def ReadByte (dec : Decoder) (reflectedPdu : Target) (hdr : String) : Result Nat :=
  let dec := { dec with Offset := dec.Offset + 1 }
  match dec.byteAt dec.Offset with
  | none => .panic
  | some v => returnSet v dec reflectedPdu hdr (.uint64 v) setterUint64

/-- The method `ReadBoundedBytes`: the slice expression `dec.Data[dec.Offset:end]` panics
unless `0 ≤ Offset ≤ end ≤ len(Data)` (the capacity of `Data` is taken to be its length). -/
def ReadBoundedBytes (dec : Decoder) (reflectedPdu : Target) (hdr : String) (end_ : Int) :
    Result (List Nat) :=
  if dec.Offset < 0 ∨ end_ < dec.Offset ∨ (dec.Data.length : Int) < end_ then .panic
  else
    let v := (dec.Data.drop dec.Offset.toNat).take (end_ - dec.Offset).toNat
    match setPduField reflectedPdu hdr (.bytes v) setterSlice with
    | none => .panic
    | some pdu => .ok v { dec with Offset := end_ - 1 } pdu

/-- The loop and the last octet of `ReadUintVar`, run over `Data[Offset:]`: the value and
the final cursor, `none` when the cursor leaves the input (a panic). -/
def readUintVarLoop : List Nat → Nat → Int → Option (Nat × Int)
  | [], _, _ => none
  | b :: rest, value, off =>
    if b >>> 7 = 0x01 then
      readUintVarLoop rest (((value <<< 7) % 2 ^ 64) ||| (b &&& 0x7F)) (off + 1)
    else
      some (((value <<< 7) % 2 ^ 64) ||| (b &&& 0x7F), off)

/-- The method `ReadUintVar`. -/
def ReadUintVar (dec : Decoder) (reflectedPdu : Target) (hdr : String) : Result Nat :=
  let off := dec.Offset + 1
  if off < 0 then .panic
  else
    match readUintVarLoop (dec.Data.drop off.toNat) 0 off with
    | none => .panic
    | some (value, off') =>
      returnSet value { dec with Offset := off' } reflectedPdu hdr (.uint64 value) setterUint64

/-- The loop of `ReadLongInteger` (and of the Expiry header) over `size` octets of
`Data[Offset:]`: `none` when the cursor leaves the input (a panic). -/
def readLongLoop : Nat → List Nat → Nat → Option Nat
  | 0, _, v => some v
  | _ + 1, [], _ => none
  | n + 1, b :: rest, v => readLongLoop n rest (((v <<< 8) % 2 ^ 64) ||| b)

/-- The method `ReadLongInteger`. -/
def ReadLongInteger (dec : Decoder) (reflectedPdu : Target) (hdr : String) : Result Nat :=
  let off := dec.Offset + 1
  match dec.byteAt off with
  | none => .panic
  | some size =>
    if size > shortLengthMax then .error { dec with Offset := off } reflectedPdu
    else
      match readLongLoop size (dec.Data.drop (off + 1).toNat) 0 with
      | none => .panic
      | some v =>
        returnSet v { dec with Offset := off + 1 + size - 1 } reflectedPdu hdr (.uint64 v)
          setterUint64

/-- The method `ReadInteger`.  The field is set also when the long integer is refused (to
the zero value returned with the error). -/
def ReadInteger (dec : Decoder) (reflectedPdu : Target) (hdr : String) : Result Nat :=
  match dec.byteAt (dec.Offset + 1) with
  | none => .panic
  | some param =>
    let r := if param &&& 0x80 ≠ 0 then ReadShortInteger dec .nil "" else ReadLongInteger dec .nil ""
    match r with
    | .ok v dec _ => returnSet v dec reflectedPdu hdr (.uint64 v) setterUint64
    | .error dec _ =>
      match setPduField reflectedPdu hdr (.uint64 0) setterUint64 with
      | none => .panic
      | some pdu => .error dec pdu
    | .panic => .panic
    | .outOfFuel => .outOfFuel

/-- The scan of `ReadString` over `Data[begin:]`: the octets before the first zero octet,
`none` when there is no zero octet. -/
def readStringLoop : List Nat → Option (List Nat)
  | [] => none
  | b :: rest => if b = 0 then some [] else (readStringLoop rest).map (fun v => b :: v)

/-- The method `ReadString`. -/
def ReadString (dec : Decoder) (reflectedPdu : Target) (hdr : String) : Result GoString :=
  let off := dec.Offset + 1
  match dec.byteAt off with
  | none => .panic
  | some b =>
    let begin_ := if b = 34 then off + 1 else off
    match readStringLoop (dec.Data.drop begin_.toNat) with
    | none => .error { dec with Offset := dec.Data.length } reflectedPdu
    | some v =>
      returnSet v { dec with Offset := begin_ + v.length } reflectedPdu hdr (.string v)
        setterString

/-- The statement `reflectedPdu.FieldByName(name).SetUint(v)`; `none` is a panic. -/
def setUintField (s : Struct) (name : String) (v : Nat) : Option Struct :=
  match s.FieldByName name with
  | some field => (setterUint64 field (.uint64 v)).map (fun field' => s.setField name field')
  | none => none

/-- The method `ReadLength`. -/
def ReadLength (dec : Decoder) (reflectedPdu : Target) : Result Nat :=
  match dec.byteAt (dec.Offset + 1) with
  | none => .panic
  | some next =>
    if next &&& 0x7f ≤ shortLengthMax then
      (ReadShortInteger dec .nil "").andThen fun v dec _ =>
        match reflectedPdu with
        | .nil => .ok v dec reflectedPdu
        | .invalid => .panic
        | .struct s =>
          match setUintField s "Length" v with
          | none => .panic
          | some s' => .ok v dec (.struct s')
    else if next = lengthQuote then
      ReadUintVar { dec with Offset := dec.Offset + 1 } reflectedPdu
        (if reflectedPdu = .nil then "" else "Length")
    else .error dec reflectedPdu

/-- The method `ReadCharset`.  It tests `dec.Data[dec.Offset]`, the octet under the
cursor, for the any-charset token. -/
def ReadCharset (dec : Decoder) (reflectedPdu : Target) (hdr : String) : Result GoString :=
  match dec.byteAt dec.Offset with
  | none => .panic
  | some cur =>
    let r : Result GoString :=
      if cur = anyCharset then .ok (lit "*") { dec with Offset := dec.Offset + 1 } reflectedPdu
      else
        match ReadInteger dec .nil "" with
        | .ok charCode dec _ =>
          match lookupCharset charCode with
          | some charset => .ok charset dec reflectedPdu
          | none => .error dec reflectedPdu
        | .error dec _ => .error dec reflectedPdu
        | .panic => .panic
        | .outOfFuel => .outOfFuel
    r.andThen fun charset dec pdu =>
      if hdr ≠ "" then
        match pdu with
        | .struct s =>
          match s.FieldByName "Charset" with
          | some (.string _) => .ok charset dec (.struct (s.setField "Charset" (.string charset)))
          | _ => .panic
        | _ => .panic
      else .ok charset dec pdu

/-- The method `ReadEncodedString`. -/
def ReadEncodedString (dec : Decoder) (reflectedPdu : Target) (hdr : String) :
    Result GoString :=
  match dec.byteAt (dec.Offset + 1) with
  | none => .panic
  | some next =>
    let r : Result Nat :=
      if next < shortLengthMax then ReadShortInteger dec .nil ""
      else if next = lengthQuote then ReadUintVar { dec with Offset := dec.Offset + 1 } .nil ""
      else .ok 0 dec .nil
    match r with
    | .ok length dec _ =>
      if length ≠ 0 then
        match ReadCharset dec .nil "" with
        | .ok _ dec _ => ReadString dec reflectedPdu hdr
        | .error dec _ => .error dec reflectedPdu
        | .panic => .panic
        | .outOfFuel => .outOfFuel
      else ReadString dec reflectedPdu hdr
    | .error dec _ => .error dec reflectedPdu
    | .panic => .panic
    | .outOfFuel => .outOfFuel

/-- The method `ReadQ`; the quotient is kept as the fraction it is computed from. -/
def ReadQ (dec : Decoder) (reflectedPdu : Target) : Result Unit :=
  match ReadUintVar dec .nil "" with
  | .ok v dec _ =>
    let q : Int × Nat := if v > 100 then ((v : Int) - 100, 1000) else ((v : Int) - 1, 100)
    match reflectedPdu with
    | .struct s =>
      match s.FieldByName "Q" with
      | some (.float64 _ _) => .ok () dec (.struct (s.setField "Q" (.float64 q.1 q.2)))
      | _ => .panic
    | _ => .panic
  | .error dec _ => .error dec reflectedPdu
  | .panic => .panic
  | .outOfFuel => .outOfFuel

/-- The method `ReadMediaType`. -/
def ReadMediaType (dec : Decoder) (reflectedPdu : Target) (hdr : String) : Result Unit :=
  let origOffset := dec.Offset
  match dec.byteAt (dec.Offset + 1) with
  | none => .panic
  | some next =>
    let r : Result Int :=
      if next ≤ shortLengthMax ∨ next = lengthQuote then
        match ReadLength dec .nil with
        | .ok length dec _ => .ok (wrapInt (toInt length + dec.Offset)) dec reflectedPdu
        | .error dec _ => .error dec reflectedPdu
        | .panic => .panic
        | .outOfFuel => .outOfFuel
      else .ok 0 dec reflectedPdu
    r.andThen fun endOffset dec _ =>
      match dec.byteAt (dec.Offset + 1) with
      | none => .panic
      | some next =>
        let m : Result GoString :=
          if next ≥ textMin ∧ next ≤ textMax then
            match ReadString dec .nil "" with
            | .ok mediaType dec _ => .ok mediaType dec reflectedPdu
            | .error dec _ => .error dec reflectedPdu
            | .panic => .panic
            | .outOfFuel => .outOfFuel
          else
            match ReadInteger dec .nil "" with
            | .ok mt dec _ =>
              if (contentTypes.length : Int) > toInt mt then
                match contentTypes[mt]? with
                | some mediaType => .ok mediaType dec reflectedPdu
                | none => .panic
              else if (dec.byteAt origOffset).isSome then .error dec reflectedPdu else .panic
            | .error dec _ =>
              if (dec.byteAt origOffset).isSome then .error dec reflectedPdu else .panic
            | .panic => .panic
            | .outOfFuel => .outOfFuel
        m.andThen fun mediaType dec _ =>
          let dec := if endOffset > 0 then { dec with Offset := endOffset } else dec
          match reflectedPdu with
          | .struct s =>
            match s.FieldByName hdr with
            | some (.string _) => .ok () dec (.struct (s.setField hdr (.string mediaType)))
            | _ => .panic
          | _ => .panic

/-- The method `ReadTo`. -/
def ReadTo (dec : Decoder) (reflectedPdu : Target) : Result Unit :=
  (ReadEncodedString dec reflectedPdu "").andThen fun toField dec pdu =>
    match pdu with
    | .struct s =>
      match s.FieldByName "To" with
      | some (.strings tos) =>
        .ok () dec (.struct (s.setField "To" (.strings (tos ++ [toField]))))
      | _ => .panic
    | _ => .panic

/-- The method `getParam`: the identifier and whether it needs decoding. -/
def getParam (dec : Decoder) : Result (Nat × Bool) :=
  match dec.byteAt dec.Offset with
  | none => .panic
  | some b =>
    if b &&& 0x80 ≠ 0 then .ok (b &&& 0x7f, true) dec .nil
    else
      (ReadString { dec with Offset := dec.Offset - 1 } .nil "").andThen fun _ dec _ =>
        (ReadString dec .nil "").andThen fun _ dec _ => .ok (0, false) dec .nil

/-- The method `skipFieldValue`. -/
def skipFieldValue (dec : Decoder) : Result Unit :=
  match dec.byteAt (dec.Offset + 1) with
  | none => .panic
  | some next =>
    if next < lengthQuote then
      (ReadByte dec .nil "").andThen fun l dec _ =>
        let length : Int := l
        if dec.Offset + length ≥ (dec.Data.length : Int) then .error dec .nil
        else .ok () { dec with Offset := dec.Offset + length } .nil
    else if next = lengthQuote then
      let dec := { dec with Offset := dec.Offset + 1 }
      if dec.Offset + 1 ≥ (dec.Data.length : Int) then .error dec .nil
      else
        (ReadUintVar dec .nil "").andThen fun l dec _ =>
          let length := toInt l
          if wrapInt (dec.Offset + length) ≥ (dec.Data.length : Int) then .error dec .nil
          else .ok () { dec with Offset := wrapInt (dec.Offset + length) } .nil
    else if next ≤ textMax then
      (ReadString dec .nil "").andThen fun _ dec _ => .ok () dec .nil
    else
      (ReadShortInteger dec .nil "").andThen fun _ dec _ => .ok () dec .nil

/-! ## Attachments of a decoded message (`attachments.go`) -/

/-- One turn of the parameter loop of `ReadAttachment`, after `ReadInteger` gave `param`. -/
def readAttachmentParam (param : Nat) (dec : Decoder) (ctMember : Target) : Result Unit :=
  let done {α : Type} (r : Result α) : Result Unit := r.andThen fun _ dec pdu => .ok () dec pdu
  let ignored {α : Type} (r : Result α) : Result Unit :=
    match r with
    | .ok _ dec _ => .ok () dec ctMember
    | .error dec _ => .ok () dec ctMember
    | .panic => .panic
    | .outOfFuel => .outOfFuel
  if param = wspParameterTypeQ then ReadQ dec ctMember
  else if param = wspParameterTypeCharset then done (ReadCharset dec ctMember "Charset")
  else if param = wspParameterTypeLevel then done (ReadShortInteger dec ctMember "Level")
  else if param = wspParameterTypeType then done (ReadInteger dec ctMember "Type")
  else if param = wspParameterTypeNameDefunct then done (ReadString dec ctMember "Name")
  else if param = wspParameterTypeFilenameDefunct then done (ReadString dec ctMember "FileName")
  else if param = wspParameterTypeDifferences then .error dec ctMember
  else if param = wspParameterTypePadding then ignored (ReadShortInteger dec .nil "")
  else if param = wspParameterTypeContentType then done (ReadString dec ctMember "Type")
  else if param = wspParameterTypeStartDefunct then done (ReadString dec ctMember "Start")
  else if param = wspParameterTypeStartInfoDefunct then done (ReadString dec ctMember "StartInfo")
  else if param = wspParameterTypeCommentDefunct then done (ReadString dec ctMember "Comment")
  else if param = wspParameterTypeDomainDefunct then done (ReadString dec ctMember "Domain")
  else if param = wspParameterTypeMaxAge then .error dec ctMember
  else if param = wspParameterTypePathDefunct then done (ReadString dec ctMember "Path")
  else if param = wspParameterTypeSecure then .ok () dec ctMember
  else if param = wspParameterTypeSec then ignored (ReadShortInteger dec .nil "")
  else if param = wspParameterTypeMac then .error dec ctMember
  else if param = wspParameterTypeCreationDate then .ok () dec ctMember
  else if param = wspParameterTypeModificationDate then .ok () dec ctMember
  else if param = wspParameterTypeReadDate then .error dec ctMember
  else if param = wspParameterTypeSize then done (ReadInteger dec ctMember "Size")
  else if param = wspParameterTypeName then done (ReadString dec ctMember "Name")
  else if param = wspParameterTypeFilename then done (ReadString dec ctMember "FileName")
  else if param = wspParameterTypeStart then done (ReadString dec ctMember "Start")
  else if param = wspParameterTypeStartInfo then done (ReadString dec ctMember "StartInfo")
  else if param = wspParameterTypeComment then done (ReadString dec ctMember "Comment")
  else if param = wspParameterTypeDomain then done (ReadString dec ctMember "Domain")
  else if param = wspParameterTypePath then done (ReadString dec ctMember "Path")
  else if param = wspParameterTypeUntyped then ignored (ReadString dec .nil "")
  else .error dec ctMember

/-- The parameter loop of `ReadAttachment`.  Every turn moves the cursor forward, so the
fuel `len(Data) + 1` given by `ReadAttachment` is never used up. -/
def readAttachmentLoop : Nat → Int → Decoder → Target → Result Unit
  | 0, _, _, _ => .outOfFuel
  | fuel + 1, endOffset, dec, ctMember =>
    if dec.Offset < (dec.Data.length : Int) ∧ dec.Offset < endOffset then
      let r : Result Nat :=
        match ReadInteger dec .nil "" with
        | .ok param dec _ => .ok param dec ctMember
        | .error dec _ => .ok 0 dec ctMember
        | .panic => .panic
        | .outOfFuel => .outOfFuel
      r.andThen fun param dec _ =>
        (readAttachmentParam param dec ctMember).andThen fun _ dec ctMember =>
          readAttachmentLoop fuel endOffset dec ctMember
    else .ok () dec ctMember

/-- The method `ReadAttachment`. -/
def ReadAttachment (dec : Decoder) (ctMember : Target) : Result Unit :=
  if dec.Offset + 1 ≥ (dec.Data.length : Int) then .error dec ctMember
  else
    match dec.byteAt (dec.Offset + 1) with
    | none => .panic
    | some next =>
      if next &&& shortFilter ≠ 0 then ReadMediaType dec ctMember "MediaType"
      else if next ≥ textMin ∧ next ≤ textMax then ReadMediaType dec ctMember "MediaType"
      else
        (ReadLength dec ctMember).andThen fun length dec ctMember =>
          let endOffset := wrapInt (toInt length + dec.Offset)
          (ReadMediaType dec ctMember "MediaType").andThen fun _ dec ctMember =>
            readAttachmentLoop (dec.Data.length + 1) endOffset dec ctMember

/-- The loop of `ReadMMSHeaders`; the fuel is as for `readAttachmentLoop`. -/
def readMMSHeadersLoop : Nat → Int → Decoder → Target → Result Unit
  | 0, _, _, _ => .outOfFuel
  | fuel + 1, headerEnd, dec, ctMember =>
    if dec.Offset < headerEnd then
      let r : Result Nat :=
        match ReadInteger dec .nil "" with
        | .ok param dec _ => .ok param dec ctMember
        | .error dec _ => .ok 0 dec ctMember
        | .panic => .panic
        | .outOfFuel => .outOfFuel
      r.andThen fun param dec _ =>
        let h : Result GoString :=
          if param = mmsPartContentLocation then ReadString dec ctMember "ContentLocation"
          else if param = mmsPartContentID then ReadString dec ctMember "ContentID"
          else .ok [] dec ctMember
        h.andThen fun _ dec ctMember => readMMSHeadersLoop fuel headerEnd dec ctMember
    else .ok () dec ctMember

/-- The method `ReadMMSHeaders`. -/
def ReadMMSHeaders (dec : Decoder) (ctMember : Target) (headerEnd : Int) : Result Unit :=
  readMMSHeadersLoop (dec.Data.length + 1) headerEnd dec ctMember

/-- The record behind a target that was passed as a record. -/
def Target.structOr (t : Target) (s : Struct) : Struct :=
  match t with
  | .struct s' => s'
  | _ => s

/-- The body of the loop of `ReadAttachmentParts` for one part: the decoded part.  No
error of `ReadAttachment` has the text "WAP message", so each of them is returned. -/
def readAttachmentPart (dec : Decoder) : Result Attachment :=
  (ReadUintVar dec .nil "").andThen fun headerLen dec _ =>
    (ReadUintVar dec .nil "").andThen fun dataLen dec _ =>
      let headerEnd := wrapInt (dec.Offset + toInt headerLen)
      let ct : Attachment := { Offset := wrapInt (headerEnd + 1) }
      (ReadAttachment dec (.struct ct.reflect)).andThen fun _ dec ctReflected =>
        (ReadMMSHeaders dec ctReflected headerEnd).andThen fun _ dec ctReflected =>
          let dec := { dec with Offset := wrapInt (headerEnd + 1) }
          (ReadBoundedBytes dec ctReflected "Data" (wrapInt (dec.Offset + toInt dataLen))).andThen
            fun _ dec ctReflected =>
              let ct := Attachment.ofStruct (ctReflected.structOr ct.reflect)
              let ct :=
                if ct.Charset ≠ [] then
                  { ct with MediaType := ct.MediaType ++ lit ";charset=" ++ ct.Charset }
                else ct
              .ok ct dec .nil

/-- The loop of `ReadAttachmentParts` over the `parts` announced by the part count. -/
def readAttachmentPartsLoop : Nat → Decoder → List Attachment → Result (List Attachment)
  | 0, dec, dataParts => .ok dataParts dec .nil
  | parts + 1, dec, dataParts =>
    (readAttachmentPart dec).andThen fun ct dec _ =>
      readAttachmentPartsLoop parts dec (dataParts ++ [ct])

/-- The method `ReadAttachmentParts`; setting `Attachments` panics unless the record has
that field with type `[]Attachment`. -/
def ReadAttachmentParts (dec : Decoder) (reflectedPdu : Struct) : Result Unit :=
  match ReadUintVar dec .nil "" with
  | .ok parts dec _ =>
    match readAttachmentPartsLoop parts dec [] with
    | .ok dataParts dec _ =>
      match reflectedPdu.FieldByName "Attachments" with
      | some (.attachments _) =>
        .ok () dec (.struct (reflectedPdu.setField "Attachments" (.attachments dataParts)))
      | _ => .panic
    | .error dec _ => .error dec (.struct reflectedPdu)
    | .panic => .panic
    | .outOfFuel => .outOfFuel
  | .error dec _ => .error dec (.struct reflectedPdu)
  | .panic => .panic
  | .outOfFuel => .outOfFuel

/-! ## `Decode` -/

/-- What one turn of the header loop of `Decode` does: it goes on (with the new value of
`moreHdrToRead`), makes `Decode` return an error, or panics. -/
inductive Step where
  | next (moreHdrToRead : Bool) (dec : Decoder) (pdu : Struct)
  | error (dec : Decoder) (pdu : Struct)
  | panic
  | outOfFuel
deriving DecidableEq, Repr

/-- The end of a `case` of `Decode` whose reader was given the record `pdu`. -/
def Result.toStep {α : Type} (r : Result α) (pdu : Struct) (moreHdrToRead : Bool) : Step :=
  match r with
  | .ok _ dec t => .next moreHdrToRead dec (t.structOr pdu)
  | .error dec t => .error dec (t.structOr pdu)
  | .panic => .panic
  | .outOfFuel => .outOfFuel

/-- The case `HeaderXMmsMessageType` of `Decode`. -/
def decodeMessageType (dec : Decoder) (pdu : Struct) : Step :=
  let dec := { dec with Offset := dec.Offset + 1 }
  let expected : Option Nat :=
    match pdu.FieldByName "Type" with
    | some (.uint8 t) => some (t % 256)
    | some (.uint64 t) => some (t % 256)
    | _ => none
  match expected, dec.byteAt dec.Offset with
  | some expectedType, some parsedType =>
    if parsedType ≠ expectedType then .error dec pdu else .next true dec pdu
  | _, _ => .panic

/-- The case `HeaderFrom` of `Decode`. -/
def decodeFrom (dec : Decoder) (pdu : Struct) : Step :=
  let dec := { dec with Offset := dec.Offset + 1 }
  match dec.byteAt dec.Offset with
  | none => .panic
  | some size =>
    let valStart := dec.Offset
    let dec := { dec with Offset := dec.Offset + 1 }
    match dec.byteAt dec.Offset with
    | none => .panic
    | some token =>
      if token = tokenInsertAddress then .next true dec pdu
      else if token = tokenAddressPresent then
        match ReadEncodedString dec (.struct pdu) "From" with
        | .ok _ dec t =>
          if valStart + (size : Int) ≠ dec.Offset then .error dec (t.structOr pdu)
          else .next true dec (t.structOr pdu)
        | .error dec t => .error dec (t.structOr pdu)
        | .panic => .panic
        | .outOfFuel => .outOfFuel
      else .error dec pdu

/-- The case `HeaderXMmsExpiry` of `Decode` (`uint` is 64 bits wide).  The octet under
the cursor after the loop is read for the trace, which panics when there is none. -/
def decodeExpiry (dec : Decoder) (pdu : Struct) : Step :=
  let dec := { dec with Offset := dec.Offset + 1 }
  match dec.byteAt dec.Offset with
  | none => .panic
  | some size =>
    let dec := { dec with Offset := dec.Offset + 1 }
    match dec.byteAt dec.Offset with
    | none => .panic
    | some _token =>
      let dec := { dec with Offset := dec.Offset + 1 }
      let endOffset := dec.Offset + (size : Int) - 2
      let count := (endOffset - dec.Offset).toNat
      match readLongLoop count (dec.Data.drop dec.Offset.toNat) 0 with
      | none => .panic
      | some val =>
        let dec := { dec with Offset := dec.Offset + (count : Int) }
        match setUintField pdu "Expiry" val, dec.byteAt dec.Offset with
        | some pdu', some _ => .next true dec pdu'
        | _, _ => .panic

/-- The case `HeaderContentType` of `Decode`.  `ctMember` refers to the field `Content` of
the record, so what `ReadAttachment` stores is stored in the record. -/
def decodeContentType (dec : Decoder) (pdu : Struct) : Step :=
  let ctMember : Target :=
    match pdu.FieldByName "Content" with
    | some (.attachment a) => .struct a.reflect
    | _ => .invalid
  let store (t : Target) : Struct :=
    match t with
    | .struct s => pdu.setField "Content" (.attachment (Attachment.ofStruct s))
    | _ => pdu
  match ReadAttachment dec ctMember with
  | .ok _ dec t =>
    let pdu := store t
    match t with
    | .struct s =>
      match s.FieldByName "MediaType" with
      | some (.string mediaType) =>
        if mediaType ≠ lit "text/plain" then (ReadAttachmentParts dec pdu).toStep pdu false
        else
          let dec := { dec with Offset := dec.Offset + 1 }
          (ReadBoundedBytes dec (.struct pdu) "Data" dec.Data.length).toStep pdu false
      | _ => .panic
    | _ => .panic
  | .error dec t => .error dec (store t)
  | .panic => .panic
  | .outOfFuel => .outOfFuel

/-- The `switch param` of `Decode`: the reader of each header. -/
def decodeHeader (param : Nat) (dec : Decoder) (pdu : Struct) : Step :=
  let reflectedPdu := Target.struct pdu
  if param = HeaderXMmsMessageType then decodeMessageType dec pdu
  else if param = HeaderFrom then decodeFrom dec pdu
  else if param = HeaderXMmsExpiry then decodeExpiry dec pdu
  else if param = HeaderXMmsTransactionID then
    (ReadString dec reflectedPdu "TransactionID").toStep pdu true
  else if param = HeaderContentType then decodeContentType dec pdu
  else if param = HeaderXMmsContentLocation then
    (ReadString dec reflectedPdu "ContentLocation").toStep pdu false
  else if param = HeaderMessageID then (ReadString dec reflectedPdu "MessageId").toStep pdu true
  else if param = HeaderSubject then
    (ReadEncodedString dec reflectedPdu "Subject").toStep pdu true
  else if param = HeaderTo then (ReadTo dec reflectedPdu).toStep pdu true
  else if param = HeaderCC then (ReadEncodedString dec reflectedPdu "Cc").toStep pdu true
  else if param = HeaderXMmsReplyChargingID then
    (ReadString dec reflectedPdu "ReplyChargingId").toStep pdu true
  else if param = HeaderXMmsRetrieveText then
    (ReadString dec reflectedPdu "RetrieveText").toStep pdu true
  else if param = HeaderXMmsMmsVersion then (ReadByte dec reflectedPdu "Version").toStep pdu true
  else if param = HeaderXMmsMessageClass then (ReadByte dec reflectedPdu "Class").toStep pdu true
  else if param = HeaderXMmsReplyCharging then
    (ReadByte dec reflectedPdu "ReplyCharging").toStep pdu true
  else if param = HeaderXMmsReplyChargingDeadline then
    (ReadByte dec reflectedPdu "ReplyChargingDeadLine").toStep pdu true
  else if param = HeaderxMmsPriority then (ReadByte dec reflectedPdu "Priority").toStep pdu true
  else if param = HeaderXMmsRetrieveStatus then
    (ReadByte dec reflectedPdu "RetrieveStatus").toStep pdu true
  else if param = HeaderXMmsResponseStatus then
    (ReadByte dec reflectedPdu "ResponseStatus").toStep pdu true
  else if param = HeaderXMmsResponseText then
    (ReadString dec reflectedPdu "ResponseText").toStep pdu true
  else if param = HeaderXMmsDeliveryReport then
    (ReadByte dec reflectedPdu "DeliveryReport").toStep pdu true
  else if param = HeaderXMmsReadReport then
    (ReadByte dec reflectedPdu "ReadReport").toStep pdu true
  else if param = HeaderXMmsMessageSize then
    (ReadLongInteger dec reflectedPdu "Size").toStep pdu true
  else if param = HeaderDate then (ReadLongInteger dec reflectedPdu "Date").toStep pdu true
  else (skipFieldValue dec).toStep pdu true

/-- One turn of the header loop of `Decode`: `getParam`, then the `switch` on the header
unless the parameter was an application header, read and dropped by `getParam`. -/
def decodeStep (dec : Decoder) (pdu : Struct) : Step :=
  match getParam dec with
  | .panic => .panic
  | .outOfFuel => .outOfFuel
  | .error dec _ => .error dec pdu
  | .ok (param, needsDecoding) dec _ =>
    if !needsDecoding then .next true dec pdu else decodeHeader param dec pdu

/-- What `Decode` does: it returns nil or an error, leaving the cursor and the record as
given, or panics; `outOfFuel` when the header loop is not over after `fuel` turns. -/
inductive DecodeResult where
  | ok (dec : Decoder) (pdu : Struct)
  | error (dec : Decoder) (pdu : Struct)
  | panic
  | outOfFuel
deriving DecidableEq, Repr

/-- The header loop of `Decode`: `for ; Offset < len(Data) && moreHdrToRead; Offset++`. -/
def decodeLoop : Nat → Decoder → Struct → Bool → DecodeResult
  | 0, _, _, _ => .outOfFuel
  | fuel + 1, dec, pdu, moreHdrToRead =>
    if dec.Offset < (dec.Data.length : Int) ∧ moreHdrToRead = true then
      match decodeStep dec pdu with
      | .next more dec pdu => decodeLoop fuel { dec with Offset := dec.Offset + 1 } pdu more
      | .error dec pdu => .error dec pdu
      | .panic => .panic
      | .outOfFuel => .outOfFuel
    else .ok dec pdu

/-- The method `Decode`, run for at most `fuel` turns of its header loop. -/
def Decode (fuel : Nat) (dec : Decoder) (pdu : Struct) : DecodeResult :=
  decodeLoop fuel dec pdu true

/-! ## Encoder (`encoder.go`)

The writer `enc.w` is an in-memory buffer that accepts every write. -/

/-- The struct `Encoder`: the octets written so far. -/
structure Encoder where
  w : List Nat
deriving DecidableEq, Repr

/-- The function `NewEncoder` on an empty buffer. -/
def NewEncoder : Encoder := { w := [] }

/-- What a writer does: it returns nil or an error, or panics. -/
inductive WriteResult where
  | ok (enc : Encoder)
  | error (enc : Encoder)
  | panic
deriving DecidableEq, Repr

/-- Continue after a write that returned nil; pass an error or a panic on. -/
def WriteResult.andThen (r : WriteResult) (f : Encoder → WriteResult) : WriteResult :=
  match r with
  | .ok enc => f enc
  | .error enc => .error enc
  | .panic => .panic

/-- The method `writeBytes`: the buffer takes all of `b`, so the write count is `len(b)`. -/
def Encoder.writeBytes (enc : Encoder) (b : List Nat) (count : Int) : WriteResult :=
  if (b.length : Int) ≠ count then .error { w := enc.w ++ b } else .ok { w := enc.w ++ b }

/-- The method `writeByte`. -/
def Encoder.writeByte (enc : Encoder) (b : Nat) : WriteResult := enc.writeBytes [b] 1

/-- The method `setParam`. -/
def Encoder.setParam (enc : Encoder) (param : Nat) : WriteResult :=
  enc.writeByte ((param ||| 0x80) % 256)

/-- The method `writeString`. -/
def Encoder.writeString (enc : Encoder) (s : GoString) : WriteResult :=
  .ok { w := enc.w ++ (s ++ [0]) }

/-- The method `writeShortInteger`. -/
def Encoder.writeShortInteger (enc : Encoder) (i : Nat) : WriteResult :=
  enc.writeByte ((i ||| 0x80) % 256)

/-- The loop of `encodeLong`; it runs at most `i` times, the fuel `encodeLong` gives it. -/
def encodeLongLoop : Nat → Nat → List Nat → List Nat
  | 0, _, encodedLong => encodedLong
  | fuel + 1, i, encodedLong =>
    if i > 0 then encodeLongLoop fuel (i >>> 8) (((0xff &&& i) % 256) :: encodedLong)
    else encodedLong

/-- The function `encodeLong`. -/
def encodeLong (i : Nat) : List Nat := encodeLongLoop i i []

/-- The method `writeLongInteger`. -/
def Encoder.writeLongInteger (enc : Encoder) (i : Nat) : WriteResult :=
  let encodedLong := encodeLong i
  let encLength := encodedLong.length
  if encLength > shortLengthMax then .error enc
  else
    (enc.writeByte (encLength % 256)).andThen fun enc =>
      enc.writeBytes encodedLong encodedLong.length

/-- The method `writeInteger`. -/
def Encoder.writeInteger (enc : Encoder) (i : Nat) : WriteResult :=
  if i < 0x80 then enc.writeShortInteger i else enc.writeLongInteger i

/-- The loop of `writeUintVar`; it runs at most `v` times, the fuel `uintVarOctets` gives. -/
def writeUintVarLoop : Nat → Nat → List Nat → List Nat
  | 0, _, uintVar => uintVar
  | fuel + 1, v, uintVar =>
    if v > 0 then writeUintVarLoop fuel (v >>> 7) (((0x80 ||| (v &&& 0x7f)) % 256) :: uintVar)
    else uintVar

/-- The slice `uintVar` that `writeUintVar` builds before it writes it. -/
def uintVarOctets (v : Nat) : List Nat :=
  writeUintVarLoop v (v >>> 7) [(v &&& 0x7f) % 256]

/-- The method `writeUintVar`. -/
def Encoder.writeUintVar (enc : Encoder) (v : Nat) : WriteResult :=
  enc.writeBytes (uintVarOctets v) (uintVarOctets v).length

/-- The method `writeLength`. -/
def Encoder.writeLength (enc : Encoder) (length : Nat) : WriteResult :=
  if length ≤ shortLengthMax then enc.writeByte (length % 256)
  else (enc.writeByte lengthQuote).andThen fun enc => enc.writeUintVar length

/-- The method `writeLongIntegerParam`. -/
def Encoder.writeLongIntegerParam (enc : Encoder) (param i : Nat) : WriteResult :=
  (enc.setParam param).andThen fun enc => enc.writeLongInteger i

/-- The method `writeIntegerParam`. -/
def Encoder.writeIntegerParam (enc : Encoder) (param i : Nat) : WriteResult :=
  (enc.setParam param).andThen fun enc => enc.writeInteger i

/-- The method `writeQuotedStringParam`. -/
def Encoder.writeQuotedStringParam (enc : Encoder) (param : Nat) (s : GoString) : WriteResult :=
  (enc.setParam param).andThen fun enc =>
    (enc.writeByte stringQuote).andThen fun enc => enc.writeString s

/-- The method `writeStringParam`. -/
def Encoder.writeStringParam (enc : Encoder) (param : Nat) (s : GoString) : WriteResult :=
  if s = [] then .ok enc
  else (enc.setParam param).andThen fun enc => enc.writeString s

/-- The method `writeByteParam`. -/
def Encoder.writeByteParam (enc : Encoder) (param b : Nat) : WriteResult :=
  (enc.setParam param).andThen fun enc => enc.writeByte b

/-- The method `writeFrom`. -/
def Encoder.writeFrom (enc : Encoder) : WriteResult :=
  (enc.setParam HeaderFrom).andThen fun enc =>
    (enc.writeByte 1).andThen fun enc => enc.writeByte tokenInsertAddress

/-- The method `writeCharset`. -/
def Encoder.writeCharset (enc : Encoder) (charset : GoString) : WriteResult :=
  if charset = [] then .ok enc
  else
    let charsetCode :=
      match CHARSETS.find? (fun p => p.2 == charset) with
      | some p => p.1
      | none => anyCharset
    enc.writeIntegerParam wspParameterTypeCharset charsetCode

/-- The function `encodeContentType`: the code of a well-known media type. -/
def encodeContentType (media : GoString) : Option Nat :=
  let mt := contentTypes.indexOf media
  if mt < contentTypes.length then some mt else none

/-- The method `writeMediaType`. -/
def Encoder.writeMediaType (enc : Encoder) (media : GoString) : WriteResult :=
  match encodeContentType media with
  | some mt => enc.writeInteger mt
  | none =>
    (enc.writeByte ((media.length + 1) % 256)).andThen fun enc => enc.writeString media

/-- The method `writeContentType`. -/
def Encoder.writeContentType (enc : Encoder) (media start ctype name : GoString) :
    WriteResult :=
  if start = [] ∧ ctype = [] ∧ name = [] then enc.writeMediaType media
  else
    let contentType : List Nat := []
    let contentType :=
      if start ≠ [] then
        contentType ++ [wspParameterTypeStartDefunct ||| shortFilter] ++ start ++ [0]
      else contentType
    let contentType :=
      if ctype ≠ [] then
        contentType ++ [wspParameterTypeContentType ||| shortFilter] ++ ctype ++ [0]
      else contentType
    let contentType :=
      if name ≠ [] then
        contentType ++ [wspParameterTypeNameDefunct ||| shortFilter] ++ name ++ [0]
      else contentType
    match encodeContentType media with
    | some mt =>
      (enc.writeLength (contentType.length + 1)).andThen fun enc =>
        (enc.writeInteger mt).andThen fun enc => enc.writeBytes contentType contentType.length
    | none =>
      let contentType := (media ++ [0]) ++ contentType
      (enc.writeLength contentType.length).andThen fun enc =>
        enc.writeBytes contentType contentType.length

/-- The method `writeRelativeExpiry`. -/
def Encoder.writeRelativeExpiry (enc : Encoder) (expiry : Nat) : WriteResult :=
  (enc.setParam HeaderXMmsExpiry).andThen fun enc =>
    let encodedLong := encodeLong expiry
    let b : List Nat :=
      [(encodedLong.length + 2) % 256, ExpiryTokenRelative, encodedLong.length % 256]
        ++ encodedLong
    enc.writeBytes b b.length

/-- The method `Uint` of `reflect.Value`; `none` is a panic. -/
def Value.Uint : Value → Option Nat
  | .uint8 v => some v
  | .uint64 v => some v
  | _ => none

/-- The method `String` of `reflect.Value`, which does not panic on another kind. -/
def Value.String : Value → GoString
  | .string s => s
  | .uint8 _ => lit "<uint8 Value>"
  | .uint64 _ => lit "<uint64 Value>"
  | .int _ => lit "<int Value>"
  | .bool _ => lit "<bool Value>"
  | .float64 _ _ => lit "<float64 Value>"
  | .bytes _ => lit "<[]uint8 Value>"
  | .strings _ => lit "<[]string Value>"
  | .attachment _ => lit "<mms.Attachment Value>"
  | .attachments _ => lit "<[]mms.Attachment Value>"
  | .attachmentPtrs _ => lit "<[]*mms.Attachment Value>"
  | .iface => lit "<mms.Reader Value>"

/-- The strings `f.Index(i).String()` for `i < f.Len()`; `none` when `Len` panics. -/
def Value.indexStrings : Value → Option (List GoString)
  | .strings l => some l
  | .string s => some (s.map fun _ => lit "<uint8 Value>")
  | .bytes b => some (b.map fun _ => lit "<uint8 Value>")
  | .attachments l => some (l.map fun _ => lit "<mms.Attachment Value>")
  | .attachmentPtrs l => some (l.map fun _ => lit "<*mms.Attachment Value>")
  | _ => none

/-- The loop of the case `To` of `Encode`. -/
def writeTo : Encoder → List GoString → WriteResult
  | enc, [] => .ok enc
  | enc, s :: rest => (enc.writeStringParam HeaderTo s).andThen fun enc => writeTo enc rest

/-- A `writeByteParam` of the field value `byte(f.Uint())`. -/
def writeUintParam (enc : Encoder) (param : Nat) (f : Value) : WriteResult :=
  match f.Uint with
  | some v => enc.writeByteParam param (v % 256)
  | none => .panic

/-- The body of the loop of `Encode` for one field.  `writeAttachments` is the method of
that name, used by the case `ContentType` of a record of type `MSendReq` only. -/
def encodeField (writeAttachments : Encoder → List Attachment → WriteResult) (enc : Encoder)
    (pdu : Struct) (field : Field) : WriteResult :=
  let fieldName := field.name
  let encodeTag := field.tag
  let f := field.val
  if encodeTag = "no" then .ok enc
  else if fieldName = "Type" then writeUintParam enc HeaderXMmsMessageType f
  else if fieldName = "Version" then writeUintParam enc HeaderXMmsMmsVersion f
  else if fieldName = "TransactionID" then enc.writeStringParam HeaderXMmsTransactionID f.String
  else if fieldName = "Status" then writeUintParam enc HeaderXMmsStatus f
  else if fieldName = "From" then enc.writeFrom
  else if fieldName = "Name" then enc.writeStringParam wspParameterTypeNameDefunct f.String
  else if fieldName = "Start" then enc.writeStringParam wspParameterTypeStartDefunct f.String
  else if fieldName = "To" then
    match f.indexStrings with
    | some l => writeTo enc l
    | none => .panic
  else if fieldName = "ContentType" then
    if pdu.typ = "MSendReq" then
      (enc.setParam HeaderContentType).andThen fun enc =>
        (enc.writeContentType (pdu.getString "ContentType") (pdu.getString "ContentTypeStart")
            (pdu.getString "ContentTypeType") []).andThen fun enc =>
          match pdu.FieldByName "Attachments" with
          | some (.attachmentPtrs l) => writeAttachments enc l
          | _ => writeAttachments enc []
    else .error enc
  else if fieldName = "MediaType" then
    if pdu.typ = "Attachment" then
      enc.writeContentType (pdu.getString "MediaType") [] [] (pdu.getString "Name")
    else enc.writeMediaType f.String
  else if fieldName = "Charset" then enc.writeCharset f.String
  else if fieldName = "ContentLocation" then enc.writeStringParam mmsPartContentLocation f.String
  else if fieldName = "ContentID" then enc.writeQuotedStringParam mmsPartContentID f.String
  else if fieldName = "Date" then
    match f.Uint with
    | some dateTime => if dateTime > 0 then enc.writeLongIntegerParam HeaderDate dateTime else .ok enc
    | none => .panic
  else if fieldName = "Class" then writeUintParam enc HeaderXMmsMessageClass f
  else if fieldName = "ReportAllowed" then writeUintParam enc HeaderXMmsReportAllowed f
  else if fieldName = "DeliveryReport" then writeUintParam enc HeaderXMmsDeliveryReport f
  else if fieldName = "ReadReport" then writeUintParam enc HeaderXMmsReadReport f
  else if fieldName = "Expiry" then
    match f.Uint with
    | some expiry => if expiry > 0 then enc.writeRelativeExpiry expiry else .ok enc
    | none => .panic
  else if encodeTag = "optional" then .ok enc
  else .error enc

/-- The loop of `Encode` over the fields of the record, in declaration order. -/
def encodeFields (writeAttachments : Encoder → List Attachment → WriteResult) :
    Encoder → Struct → List Field → WriteResult
  | enc, _, [] => .ok enc
  | enc, pdu, field :: rest =>
    (encodeField writeAttachments enc pdu field).andThen fun enc =>
      encodeFields writeAttachments enc pdu rest

/-- The function `encodeAttachment`: `Encode` of an `Attachment` into a buffer of its own.
An `Attachment` has no field `ContentType`, so `writeAttachments` is not called. -/
def encodeAttachment (attachment : Attachment) : WriteResult :=
  encodeFields (fun enc _ => .error enc) NewEncoder attachment.reflect attachment.reflect.fields

/-- The loop of `writeAttachments`, after the part count has been written. -/
def writeAttachmentList : Encoder → List Attachment → WriteResult
  | enc, [] => .ok enc
  | enc, attachment :: rest =>
    match encodeAttachment attachment with
    | .panic => .panic
    | .error _ => .error enc
    | .ok b =>
      let attachmentHeader := b.w
      let headerLength := attachmentHeader.length
      let dataLength := attachment.Data.length
      (enc.writeUintVar headerLength).andThen fun enc =>
        (enc.writeUintVar dataLength).andThen fun enc =>
          (enc.writeBytes attachmentHeader headerLength).andThen fun enc =>
            (enc.writeBytes attachment.Data dataLength).andThen fun enc =>
              writeAttachmentList enc rest

/-- The method `writeAttachments`. -/
def Encoder.writeAttachments (enc : Encoder) (attachments : List Attachment) : WriteResult :=
  (enc.writeUintVar attachments.length).andThen fun enc => writeAttachmentList enc attachments

/-- The method `Encode` on the reflected record `pdu`. -/
def Encoder.Encode (enc : Encoder) (pdu : Struct) : WriteResult :=
  encodeFields Encoder.writeAttachments enc pdu pdu.fields

/-! ## Contexts of the modem (`ofono/modem.go`)

The calls of the Go library (`reflect`, `strings`, `net.SplitHostPort`,
`strconv.ParseUint`) are modelled by what the library does (Go 1.13 and later). -/

/-- The `Value` of a `dbus.Variant` as `reflect.ValueOf` sees it: a string, a bool, a value
of another type (given by the name of the type), or the nil interface. -/
inductive Variant where
  | str (s : GoString)
  | bool (b : Bool)
  | other (typeName : GoString)
  | nil
deriving DecidableEq, Repr

/-- The call `reflect.ValueOf(v.Value).String()`: the string itself, and for a value that
is no string the text `<T Value>` with the name `T` of its type (`invalid` for nil). -/
def Variant.String : Variant → GoString
  | .str s => s
  | .bool _ => lit "<bool Value>"
  | .other typeName => lit "<" ++ typeName ++ lit " Value>"
  | .nil => lit "<invalid Value>"

/-- The call `reflect.ValueOf(v.Value).Bool()`; `none` is the panic on a value that is no
bool. -/
def Variant.Bool : Variant → Option Bool
  | .bool b => some b
  | _ => none

/-- Modelled from the spec: the type `PropertiesType` of the field `Properties` is declared
outside the source files at hand.  A context is `identified by an object-path` and carries
named properties (`type=mms`, `MessageCenter`, ...); `modem.go` indexes `Properties` by a
property name and reads the field `Value` of the entry.  It is kept as the list of the
entries of the map, each name at most once, read by name. -/
structure OfonoContext where
  ObjectPath : GoString := []
  Properties : List (String × Variant) := []
deriving DecidableEq, Repr

/-- The index expression `v, ok := oContext.Properties[key]`; `none` when `ok` is false. -/
def OfonoContext.property (oContext : OfonoContext) (key : String) : Option Variant :=
  (oContext.Properties.find? fun p => p.1 == key).map fun p => p.2

/-- The method `isTypeInternet`. -/
def OfonoContext.isTypeInternet (oContext : OfonoContext) : Bool :=
  match oContext.property "Type" with
  | some v => v.String == lit "internet"
  | none => false

/-- The method `isTypeMMS`. -/
def OfonoContext.isTypeMMS (oContext : OfonoContext) : Bool :=
  match oContext.property "Type" with
  | some v => v.String == lit "mms"
  | none => false

/-- The method `isActive`: a missing property reads as the zero `Variant`, whose `Value` is
nil; `none` is the panic of `Bool()`. -/
def OfonoContext.isActive (oContext : OfonoContext) : Option Bool :=
  ((oContext.property "Active").getD .nil).Bool

/-- The method `isPreferred`; `none` is the panic of `Bool()`. -/
def OfonoContext.isPreferred (oContext : OfonoContext) : Option Bool :=
  ((oContext.property "Preferred").getD .nil).Bool

/-- The method `messageCenter`. -/
def OfonoContext.messageCenter (oContext : OfonoContext) : GoString :=
  match oContext.property "MessageCenter" with
  | some v => v.String
  | none => []

/-- The method `hasMessageCenter`. -/
def OfonoContext.hasMessageCenter (oContext : OfonoContext) : Bool :=
  oContext.messageCenter != []

/-- The method `messageProxy`. -/
def OfonoContext.messageProxy (oContext : OfonoContext) : GoString :=
  match oContext.property "MessageProxy" with
  | some v => v.String
  | none => []

/-- The struct `ProxyInfo`. -/
structure ProxyInfo where
  Host : GoString := []
  Port : Nat := 0
deriving DecidableEq, Repr

/-- The function `last` of package `net`: the index of the last octet `b` of `s`; `none` is
the result `-1`. -/
def last : List Nat → Nat → Option Nat
  | [], _ => none
  | c :: rest, b =>
    match last rest b with
    | some i => some (i + 1)
    | none => if c = b then some 0 else none

/-- Go's `IndexByteString`: the index of the first octet `b` of `s`; `none` is the result
`-1`. -/
def IndexByteString : List Nat → Nat → Option Nat
  | [], _ => none
  | c :: rest, b => if c = b then some 0 else (IndexByteString rest b).map fun i => i + 1

/-- Go's `net.SplitHostPort`: the host and the port of `host:port` or `[host]:port`; `none`
is an error (missing port, too many colons, a missing or unexpected bracket). -/
def SplitHostPort (hostport : GoString) : Option (GoString × GoString) :=
  match last hostport 58 with
  | none => none
  | some i =>
    let bracketed : Option (GoString × Nat × Nat) :=
      if hostport.head? = some 91 then
        match IndexByteString hostport 93 with
        | none => none
        | some end_ =>
          if end_ + 1 = hostport.length then none
          else if end_ + 1 = i then some ((hostport.take end_).drop 1, 1, end_ + 1)
          else none
      else
        let host := hostport.take i
        if (IndexByteString host 58).isSome then none else some (host, 0, 0)
    match bracketed with
    | none => none
    | some (host, j, k) =>
      if (IndexByteString (hostport.drop j) 91).isSome then none
      else if (IndexByteString (hostport.drop k) 93).isSome then none
      else some (host, hostport.drop (i + 1))

/-- The function `lower` of package `strconv`: `c | ('x' - 'X')`. -/
def lower (c : Nat) : Nat := c ||| 0x20

/-- How the digit loop of `strconv.ParseUint` ends. -/
inductive ParseLoop where
  | done (n : Nat) (underscores : Bool)
  | syntaxError
  | rangeError
deriving DecidableEq, Repr

/-- The digit loop of `strconv.ParseUint` over the octets left, from the value `n` read so
far (a `uint64`, so products and sums wrap). -/
def parseUintLoop (base : Nat) (base0 : Bool) (cutoff maxVal : Nat) :
    List Nat → Nat → Bool → ParseLoop
  | [], n, underscores => .done n underscores
  | c :: rest, n, underscores =>
    if c = 95 ∧ base0 = true then parseUintLoop base base0 cutoff maxVal rest n true
    else
      let digit : Option Nat :=
        if 48 ≤ c ∧ c ≤ 57 then some (c - 48)
        else if 97 ≤ lower c ∧ lower c ≤ 122 then some (lower c - 97 + 10)
        else none
      match digit with
      | none => .syntaxError
      | some d =>
        if d ≥ base then .syntaxError
        else if n ≥ cutoff then .rangeError
        else
          let n := (n * base) % 2 ^ 64
          let n1 := (n + d) % 2 ^ 64
          if n1 < n ∨ n1 > maxVal then .rangeError
          else parseUintLoop base base0 cutoff maxVal rest n1 underscores

/-- The loop of the function `underscoreOK` of package `strconv` over the number proper;
`i` is what was seen before: `48` a digit, `95` an underscore, `33` something else. -/
def underscoreLoop (hex : Bool) : List Nat → Nat → Bool
  | [], i => i != 95
  | c :: rest, i =>
    if (48 ≤ c ∧ c ≤ 57) ∨ (hex = true ∧ 97 ≤ lower c ∧ lower c ≤ 102) then
      underscoreLoop hex rest 48
    else if c = 95 then
      if i ≠ 48 then false else underscoreLoop hex rest 95
    else if i = 95 then false
    else underscoreLoop hex rest 33

/-- The function `underscoreOK` of package `strconv`: an underscore may stand only between
digits or between a base prefix and a digit. -/
def underscoreOK (s : GoString) : Bool :=
  let s := if s.head? = some 45 ∨ s.head? = some 43 then s.drop 1 else s
  if s.length ≥ 2 ∧ s.head? = some 48 ∧
      (lower (s.getD 1 0) = 98 ∨ lower (s.getD 1 0) = 111 ∨ lower (s.getD 1 0) = 120) then
    underscoreLoop (lower (s.getD 1 0) == 120) (s.drop 2) 48
  else underscoreLoop false s 94

/-- Go's `strconv.ParseUint(s, base, bitSize)`: the value and whether an error is returned
with it (`0` with a syntax, base or bit size error, the largest value with a range
error). -/
def ParseUint (s : GoString) (base bitSize : Nat) : Nat × Bool :=
  if s = [] then (0, true)
  else
    let base0 := base == 0
    let prefixed : Option (Nat × GoString) :=
      if 2 ≤ base ∧ base ≤ 36 then some (base, s)
      else if base = 0 then
        if s.head? = some 48 then
          if s.length ≥ 3 ∧ lower (s.getD 1 0) = 98 then some (2, s.drop 2)
          else if s.length ≥ 3 ∧ lower (s.getD 1 0) = 111 then some (8, s.drop 2)
          else if s.length ≥ 3 ∧ lower (s.getD 1 0) = 120 then some (16, s.drop 2)
          else some (8, s.drop 1)
        else some (10, s)
      else none
    match prefixed with
    | none => (0, true)
    | some (base, digits) =>
      let bitSize := if bitSize = 0 then 64 else bitSize
      if bitSize > 64 then (0, true)
      else
        let cutoff := (2 ^ 64 - 1) / base + 1
        let maxVal := 2 ^ bitSize - 1
        match parseUintLoop base base0 cutoff maxVal digits 0 false with
        | .syntaxError => (0, true)
        | .rangeError => (maxVal, true)
        | .done n underscores =>
          if underscores = true ∧ underscoreOK s = false then (0, true) else (n, false)

/-- What `GetProxy` returns: `proxyInfo` with a nil error or with an error. -/
inductive ProxyResult where
  | ok (proxyInfo : ProxyInfo)
  | error (proxyInfo : ProxyInfo)
deriving DecidableEq, Repr

/-- The method `GetProxy`. -/
def OfonoContext.GetProxy (oContext : OfonoContext) : ProxyResult :=
  let proxy := oContext.messageProxy
  if proxy = [] then .ok {}
  else
    let proxy := if HasPrefix proxy (lit "http://") then proxy.drop 7 else proxy
    match SplitHostPort proxy with
    | none => .ok { Host := proxy, Port := 80 }
    | some (host, portString) =>
      match ParseUint portString 0 64 with
      | (port, true) => .error { Host := host, Port := port }
      | (port, false) => .ok { Host := host, Port := port }

/-- What `GetMMSContexts` does: it returns `mmsContexts` with a nil error or with an error,
or panics. -/
inductive ContextsResult where
  | ok (mmsContexts : List OfonoContext)
  | error (mmsContexts : List OfonoContext)
  | panic
deriving DecidableEq, Repr

/-- The loop of `GetMMSContexts` over the contexts left, from the `mmsContexts` so far;
`none` is a panic of `isPreferred` or `isActive`. -/
def getMMSContextsLoop (preferredContext : GoString) :
    List OfonoContext → List OfonoContext → Option (List OfonoContext)
  | [], mmsContexts => some mmsContexts
  | context :: rest, mmsContexts =>
    if (context.isTypeInternet && context.hasMessageCenter) || context.isTypeMMS then
      match context.isPreferred with
      | none => none
      | some true => some [context]
      | some false =>
        if context.ObjectPath = preferredContext then
          getMMSContextsLoop preferredContext rest (context :: mmsContexts)
        else
          match context.isActive with
          | none => none
          | some true => getMMSContextsLoop preferredContext rest (context :: mmsContexts)
          | some false => getMMSContextsLoop preferredContext rest (mmsContexts ++ [context])
    else getMMSContextsLoop preferredContext rest mmsContexts

/-- The method `GetMMSContexts`; `contexts` is what the call `getOfonoProps(..., "GetContexts")`
on the bus returns, `none` when it returns an error. -/
def GetMMSContexts (contexts : Option (List OfonoContext)) (preferredContext : GoString) :
    ContextsResult :=
  match contexts with
  | none => .error []
  | some contexts =>
    match getMMSContextsLoop preferredContext contexts [] with
    | none => .panic
    | some mmsContexts => if mmsContexts.length = 0 then .error mmsContexts else .ok mmsContexts

/-! ## Notions of the specification -/

/-- The number that an octet sequence denotes when read as a big-endian unsigned integer
(the `big-endian representation` of the specification). -/
def bigEndianValue (l : List Nat) : Nat := l.foldl (fun v b => v * 256 + b) 0

/-- The octets of a value-length `n` (WSP 8.4.2.2): the octet `n` itself when `n ≤ 30`,
otherwise the length-quote 31 followed by the uintvar of `n`. -/
def valueLengthOctets (n : Nat) : List Nat := if n ≤ 30 then [n] else 31 :: uintVarOctets n

/-- The media-type block of a part header, for the media type `media` and the name `name`
of the part.  Without a name it is the well-known code `0x80 | i` of the media type, or for
a media type that is not in the table the octet `len + 1` and the zero-terminated text.
With a name it is a value-length, the code or the zero-terminated text, and the parameter
`85` + name + `00`. -/
def mediaTypeBlock (media name : GoString) : List Nat :=
  let params : List Nat := if name = [] then [] else 0x85 :: (name ++ [0])
  match encodeContentType media with
  | some mt =>
    if name = [] then [128 + mt]
    else valueLengthOctets (params.length + 1) ++ (128 + mt) :: params
  | none =>
    if name = [] then ((media.length + 1) % 256) :: (media ++ [0])
    else valueLengthOctets (media.length + 1 + params.length) ++ (media ++ 0 :: params)

/-- The header of a part of a multipart body: the media-type block, the content-location
parameter `8E` + text + `00` (left out when the location is empty) and the content-id
parameter `C0 22` + text + `00`. -/
def partHeader (a : Attachment) : List Nat :=
  mediaTypeBlock a.MediaType a.Name ++
    ((if a.ContentLocation = [] then [] else 0x8E :: (a.ContentLocation ++ [0])) ++
      0xC0 :: 0x22 :: (a.ContentID ++ [0]))

/-- One part of a multipart body: the uintvar of the header length, the uintvar of the data
length, the header, the data. -/
def partOctets (a : Attachment) : List Nat :=
  uintVarOctets (partHeader a).length ++
    (uintVarOctets a.Data.length ++ (partHeader a ++ a.Data))

/-- The parts of a multipart body one after the other, in list order. -/
def partsOctets : List Attachment → List Nat
  | [] => []
  | a :: rest => partOctets a ++ partsOctets rest

/-- A multipart body: the uintvar of the number of parts, then the parts. -/
def multipartBody (l : List Attachment) : List Nat := uintVarOctets l.length ++ partsOctets l

/-- A context qualifies for MMS (activation algorithm of the specification): it is of type
mms, or of type internet with a non-empty `MessageCenter`. -/
def qualifies (c : OfonoContext) : Bool :=
  c.isTypeMMS || (c.isTypeInternet && c.hasMessageCenter)

/-- A context carries boolean `Active` and `Preferred` properties. -/
def hasFlags (c : OfonoContext) : Prop :=
  (∃ b, c.property "Active" = some (.bool b)) ∧ (∃ b, c.property "Preferred" = some (.bool b))

/-- The octets `ds` are a number written in decimal without leading zeros: at least one
digit `0` to `9`, and a first digit `0` only in the numeral `0`. -/
def isDecimal (ds : List Nat) : Prop :=
  ds ≠ [] ∧ (∀ c ∈ ds, 48 ≤ c ∧ c ≤ 57) ∧ (ds.head? = some 48 → ds = [48])

/-- The number that a decimal numeral denotes. -/
def decimalValue (ds : List Nat) : Nat := ds.foldl (fun v c => 10 * v + (c - 48)) 0

instance (c : OfonoContext) : Decidable (hasFlags c) := by unfold hasFlags; infer_instance

instance (ds : List Nat) : Decidable (isDecimal ds) := by unfold isDecimal; infer_instance

/-! # Properties

## Arithmetic of the bit operations -/

theorem and_7f (v : Nat) : v &&& 0x7f = v % 128 := by
  have h := Nat.and_pow_two_sub_one_eq_mod v 7
  simpa using h

theorem and_ff (v : Nat) : 0xff &&& v = v % 256 := by
  have h := Nat.and_pow_two_sub_one_eq_mod v 8
  rw [Nat.land_comm]
  simpa using h

theorem shr_7 (v : Nat) : v >>> 7 = v / 128 := by
  simpa using Nat.shiftRight_eq_div_pow v 7

theorem shr_8 (v : Nat) : v >>> 8 = v / 256 := by
  simpa using Nat.shiftRight_eq_div_pow v 8

theorem or_80 (x : Nat) (h : x < 128) : 0x80 ||| x = 128 + x := by
  have h' := @Nat.mul_add_lt_is_or 7 x (by simpa using h) 1
  simpa using h'.symm

theorem shl_7_or (a b : Nat) (h : b < 128) : (a <<< 7) ||| b = a * 128 + b := by
  have h' := @Nat.mul_add_lt_is_or 7 b (by simpa using h) a
  rw [Nat.shiftLeft_eq]
  simpa [Nat.mul_comm] using h'.symm

theorem shl_8_or (a b : Nat) (h : b < 256) : (a <<< 8) ||| b = a * 256 + b := by
  have h' := @Nat.mul_add_lt_is_or 8 b (by simpa using h) a
  rw [Nat.shiftLeft_eq]
  simpa [Nat.mul_comm] using h'.symm

/-- Dropping `k` low bits drops `k` from the number of significant bits. -/
theorem size_shr (v k : Nat) : Nat.size (v / 2 ^ k) = Nat.size v - k := by
  apply le_antisymm
  · rw [Nat.size_le]
    have h := Nat.lt_size_self v
    rw [Nat.div_lt_iff_lt_mul (by positivity)]
    calc v < 2 ^ Nat.size v := h
      _ ≤ 2 ^ (Nat.size v - k + k) := Nat.pow_le_pow_right (by norm_num) (by omega)
      _ = 2 ^ (Nat.size v - k) * 2 ^ k := by rw [pow_add]
  · by_cases hk : Nat.size v ≤ k
    · omega
    · have h1 : Nat.size v - k - 1 < Nat.size (v / 2 ^ k) := by
        rw [Nat.lt_size, Nat.le_div_iff_mul_le (by positivity), ← pow_add]
        have h2 : Nat.size v - 1 < Nat.size v := by omega
        rw [Nat.lt_size] at h2
        have : Nat.size v - k - 1 + k = Nat.size v - 1 := by omega
        rw [this]; exact h2
      omega

theorem short_octet (i : Nat) (hi : i < 128) :
    i ||| 0x80 = 128 + i ∧ (128 + i) &&& 0x80 ≠ 0 ∧ (128 + i) &&& 0x7F = i := by
  have h1 : i ||| 0x80 = 128 + i := by rw [Nat.lor_comm]; exact or_80 i hi
  refine ⟨h1, ?_, ?_⟩
  · revert i; decide
  · rw [and_7f]; omega

theorem small_and_80 : ∀ n : Nat, n ≤ 30 → n &&& 0x80 = 0 := by decide

theorem and_7f_le_30 : ∀ n : Nat, n ≤ 30 → n &&& 0x7f = n := by decide

/-! ## The octets of a uintvar -/

/-- The octets that the loop of `writeUintVar` puts in front of `uintVar`: they all have
the continuation bit, the first is not `0x80`, and reading them shifts `v` into the value. -/
theorem writeUintVarLoop_spec (fuel : Nat) :
    ∀ (v : Nat) (uintVar : List Nat), v ≤ fuel → v < 2 ^ 57 →
      ∃ p, writeUintVarLoop fuel v uintVar = p ++ uintVar ∧
        p.length = (Nat.size v + 6) / 7 ∧
        (∀ b ∈ p, 128 ≤ b ∧ b < 256) ∧
        (p.head? ≠ some 0x80) ∧
        ∀ (rest : List Nat) (off : Int),
          readUintVarLoop (p ++ rest) 0 off = readUintVarLoop rest v (off + p.length) := by
  induction fuel with
  | zero =>
    intro v uintVar hv _
    have hv0 : v = 0 := by omega
    subst hv0
    exact ⟨[], by simp [writeUintVarLoop], by simp, by simp, by simp, by simp⟩
  | succ fuel ih =>
    intro v uintVar hv h57
    by_cases h0 : v = 0
    · subst h0
      exact ⟨[], by simp [writeUintVarLoop], by simp, by simp, by simp, by simp⟩
    · have hpos : v > 0 := Nat.pos_of_ne_zero h0
      have hlt : v / 128 < v := Nat.div_lt_self hpos (by norm_num)
      have hmod : v % 128 < 128 := Nat.mod_lt _ (by norm_num)
      obtain ⟨p, hp, hlen, hhi, hhead, hread⟩ :=
        ih (v / 128) (((0x80 ||| (v &&& 0x7f)) % 256) :: uintVar) (by omega) (by omega)
      have hb : (0x80 ||| (v &&& 0x7f)) % 256 = 128 + v % 128 := by
        rw [and_7f, or_80 _ hmod]; omega
      have hsz : Nat.size (v / 128) = Nat.size v - 7 := by
        have := size_shr v 7
        simpa using this
      have hszpos : 0 < Nat.size v := Nat.size_pos.mpr hpos
      refine ⟨p ++ [128 + v % 128], ?_, ?_, ?_, ?_, ?_⟩
      · simp only [writeUintVarLoop, hpos, if_true, shr_7]
        rw [hp, hb]; simp
      · simp only [List.length_append, List.length_singleton, hlen, hsz]
        omega
      · intro b hbm
        rcases List.mem_append.mp hbm with h | h
        · exact hhi b h
        · simp only [List.mem_singleton] at h
          omega
      · cases p with
        | nil =>
          simp only [List.nil_append, List.head?_cons, ne_eq, Option.some.injEq]
          have hsz0 : Nat.size (v / 128) = 0 := by
            simp only [List.length_nil] at hlen
            omega
          have hv128 : v / 128 = 0 := Nat.size_eq_zero.mp hsz0
          have : v < 128 := by omega
          have : v % 128 = v := Nat.mod_eq_of_lt this
          omega
        | cons a p' => simpa using hhead
      · intro rest off
        rw [List.append_assoc, hread]
        have hsh : (128 + v % 128) >>> 7 = 1 := by
          rw [shr_7]; omega
        have hval : ((v / 128) <<< 7) % 2 ^ 64 ||| ((128 + v % 128) &&& 0x7F) = v := by
          have e1 : (v / 128) <<< 7 = v / 128 * 128 := by rw [Nat.shiftLeft_eq]
          have e2 : (v / 128 * 128) % 2 ^ 64 = v / 128 * 128 := by
            apply Nat.mod_eq_of_lt
            have := Nat.div_mul_le_self v 128
            omega
          have e3 : (128 + v % 128) &&& 0x7F = v % 128 := by
            have := and_7f (128 + v % 128)
            rw [this]; omega
          rw [e1, e2, e3, ← e1, shl_7_or _ _ hmod]
          have := Nat.div_add_mod v 128
          omega
        simp only [List.singleton_append, readUintVarLoop, hsh, if_true, hval,
          List.length_append, List.length_singleton]
        congr 1
        push_cast
        ring

/-- The slice built by `writeUintVar`: continuation octets, then the low seven bits. -/
theorem uintVarOctets_spec (v : Nat) (hv : v < 2 ^ 64) :
    ∃ p, uintVarOctets v = p ++ [v % 128] ∧
      p.length = (Nat.size v - 7 + 6) / 7 ∧
      (∀ b ∈ p, 128 ≤ b ∧ b < 256) ∧
      (p.head? ≠ some 0x80) ∧
      ∀ (rest : List Nat) (off : Int),
        readUintVarLoop (p ++ rest) 0 off = readUintVarLoop rest (v / 128) (off + p.length) := by
  obtain ⟨p, hp, hlen, hhi, hhead, hread⟩ :=
    writeUintVarLoop_spec v (v / 128) [(v &&& 0x7f) % 256] (Nat.div_le_self v 128)
      (by omega)
  have hmod : v % 128 < 128 := Nat.mod_lt _ (by norm_num)
  have hsz : Nat.size (v / 128) = Nat.size v - 7 := by
    have := size_shr v 7
    simpa using this
  refine ⟨p, ?_, ?_, hhi, hhead, hread⟩
  · unfold uintVarOctets
    rw [shr_7, hp, and_7f]
    congr 2
    omega
  · rw [hlen, hsz]

/-- The loop of `ReadUintVar` on the octets of `writeUintVar(v)` gives `v` and stops on
the last of them. -/
theorem readUintVarLoop_uintVarOctets (v : Nat) (hv : v < 2 ^ 64) (post : List Nat)
    (off : Int) :
    readUintVarLoop (uintVarOctets v ++ post) 0 off =
      some (v, off + ((uintVarOctets v).length : Int) - 1) := by
  obtain ⟨p, hp, _, _, _, hread⟩ := uintVarOctets_spec v hv
  have hmod : v % 128 < 128 := Nat.mod_lt _ (by norm_num)
  rw [hp, List.append_assoc, hread]
  have hsh : ¬ (v % 128) >>> 7 = 1 := by
    rw [shr_7]; omega
  have hval : ((v / 128) <<< 7) % 2 ^ 64 ||| ((v % 128) &&& 0x7F) = v := by
    have e1 : (v / 128) <<< 7 = v / 128 * 128 := by rw [Nat.shiftLeft_eq]
    have e2 : (v / 128 * 128) % 2 ^ 64 = v / 128 * 128 := by
      apply Nat.mod_eq_of_lt
      have := Nat.div_mul_le_self v 128
      omega
    have e3 : (v % 128) &&& 0x7F = v % 128 := by
      rw [and_7f]; omega
    rw [e1, e2, e3, ← e1, shl_7_or _ _ hmod]
    have := Nat.div_add_mod v 128
    omega
  simp only [List.singleton_append, readUintVarLoop, hsh, if_false, hval,
    List.length_append, List.length_singleton]
  congr 2
  push_cast
  ring

/-! ## The octets of a long integer -/

theorem foldl_bigEndian_append (p : List Nat) (b v0 : Nat) :
    (p ++ [b]).foldl (fun v b => v * 256 + b) v0 =
      (p.foldl (fun v b => v * 256 + b) v0) * 256 + b := by
  simp [List.foldl_append]

/-- The octets that the loop of `encodeLong` puts in front of `encodedLong`: the
big-endian digits of `i`, the first of them not zero. -/
theorem encodeLongLoop_spec (fuel : Nat) :
    ∀ (i : Nat) (acc : List Nat), i ≤ fuel → i < 2 ^ 64 →
      ∃ p, encodeLongLoop fuel i acc = p ++ acc ∧
        p.length = (Nat.size i + 7) / 8 ∧
        (∀ b ∈ p, b < 256) ∧
        (p.head? ≠ some 0) ∧
        p.foldl (fun v b => v * 256 + b) 0 = i ∧
        ∀ (n : Nat) (rest : List Nat),
          readLongLoop (p.length + n) (p ++ rest) 0 = readLongLoop n rest i := by
  induction fuel with
  | zero =>
    intro i acc hi _
    have hi0 : i = 0 := by omega
    subst hi0
    exact ⟨[], by simp [encodeLongLoop], by simp, by simp, by simp, by simp, by simp⟩
  | succ fuel ih =>
    intro i acc hi h64
    by_cases h0 : i = 0
    · subst h0
      exact ⟨[], by simp [encodeLongLoop], by simp, by simp, by simp, by simp, by simp⟩
    · have hpos : i > 0 := Nat.pos_of_ne_zero h0
      have hlt : i / 256 < i := Nat.div_lt_self hpos (by norm_num)
      have hmod : i % 256 < 256 := Nat.mod_lt _ (by norm_num)
      obtain ⟨p, hp, hlen, hlt256, hhead, hval, hread⟩ :=
        ih (i / 256) (((0xff &&& i) % 256) :: acc) (by omega) (by omega)
      have hb : (0xff &&& i) % 256 = i % 256 := by
        rw [and_ff]; omega
      have hsz : Nat.size (i / 256) = Nat.size i - 8 := by
        have := size_shr i 8
        simpa using this
      have hszpos : 0 < Nat.size i := Nat.size_pos.mpr hpos
      refine ⟨p ++ [i % 256], ?_, ?_, ?_, ?_, ?_, ?_⟩
      · simp only [encodeLongLoop, hpos, if_true, shr_8]
        rw [hp, hb]; simp
      · simp only [List.length_append, List.length_singleton, hlen, hsz]
        omega
      · intro b hbm
        rcases List.mem_append.mp hbm with h | h
        · exact hlt256 b h
        · simp only [List.mem_singleton] at h
          omega
      · cases p with
        | nil =>
          simp only [List.nil_append, List.head?_cons, ne_eq, Option.some.injEq]
          have hsz0 : Nat.size (i / 256) = 0 := by
            simp only [List.length_nil] at hlen
            omega
          have h256 : i / 256 = 0 := Nat.size_eq_zero.mp hsz0
          have : i < 256 := by omega
          have : i % 256 = i := Nat.mod_eq_of_lt this
          omega
        | cons a p' => simpa using hhead
      · rw [foldl_bigEndian_append, hval]
        have := Nat.div_add_mod i 256
        omega
      · intro n rest
        have e : (p ++ [i % 256]).length + n = p.length + (n + 1) := by
          simp only [List.length_append, List.length_singleton]; omega
        rw [e, List.append_assoc, hread]
        have hv : ((i / 256) <<< 8) % 2 ^ 64 ||| i % 256 = i := by
          have e1 : (i / 256) <<< 8 = i / 256 * 256 := by rw [Nat.shiftLeft_eq]
          have e2 : (i / 256 * 256) % 2 ^ 64 = i / 256 * 256 := by
            apply Nat.mod_eq_of_lt
            have := Nat.div_mul_le_self i 256
            omega
          rw [e1, e2, ← e1, shl_8_or _ _ hmod]
          have := Nat.div_add_mod i 256
          omega
        simp only [List.singleton_append, readLongLoop, hv]
        rfl

/-- The slice returned by `encodeLong`, and the loop of `ReadLongInteger` on it. -/
theorem encodeLong_spec (i : Nat) (hi : i < 2 ^ 64) :
    (encodeLong i).length = (Nat.size i + 7) / 8 ∧
      (∀ b ∈ encodeLong i, b < 256) ∧
      ((encodeLong i).head? ≠ some 0) ∧
      bigEndianValue (encodeLong i) = i ∧
      ∀ (rest : List Nat),
        readLongLoop (encodeLong i).length (encodeLong i ++ rest) 0 = some i := by
  obtain ⟨p, hp, hlen, hlt256, hhead, hval, hread⟩ :=
    encodeLongLoop_spec i i [] (le_refl i) hi
  have hp' : encodeLong i = p := by
    unfold encodeLong
    rw [hp]; simp
  rw [hp']
  refine ⟨hlen, hlt256, hhead, hval, ?_⟩
  intro rest
  have := hread 0 rest
  simpa [readLongLoop] using this

theorem encodeLong_length_le (i : Nat) (hi : i < 2 ^ 64) : (encodeLong i).length ≤ 8 := by
  have h := (encodeLong_spec i hi).1
  have hs : Nat.size i ≤ 64 := Nat.size_le.mpr hi
  omega

/-- What `writeLongInteger` writes: the length octet, then the octets of `encodeLong`. -/
theorem writeLongInteger_eq (i : Nat) (hi : i < 2 ^ 64) (enc : Encoder) :
    enc.writeLongInteger i = .ok { w := enc.w ++ (encodeLong i).length :: encodeLong i } := by
  have h8 := encodeLong_length_le i hi
  have h30 : ¬ (encodeLong i).length > shortLengthMax := by
    unfold shortLengthMax; omega
  have hm : (encodeLong i).length % 256 = (encodeLong i).length := Nat.mod_eq_of_lt (by omega)
  simp [Encoder.writeLongInteger, h30, Encoder.writeByte, Encoder.writeBytes,
    WriteResult.andThen, hm]

/-! ## Reading at the cursor -/

theorem byteAt_append (pre rest : List Nat) (b : Nat) (o i : Int) (hi : i = pre.length) :
    Decoder.byteAt { Data := pre ++ b :: rest, Offset := o } i = some b := by
  subst hi
  have h : (pre ++ b :: rest)[pre.length]? = some b := by
    rw [List.getElem?_append_right (le_refl _)]
    simp
  simpa [Decoder.byteAt] using h

theorem drop_append_of_eq (pre rest : List Nat) (i : Int) (hi : i = pre.length) :
    (pre ++ rest).drop i.toNat = rest := by
  subst hi
  simp

theorem readStringLoop_append (s post : List Nat) (hs : 0 ∉ s) :
    readStringLoop (s ++ 0 :: post) = some s := by
  induction s with
  | nil => simp [readStringLoop]
  | cons a s ih =>
    have ha : a ≠ 0 := fun h => hs (by simp [h])
    have hs' : 0 ∉ s := fun h => hs (by simp [h])
    simp [readStringLoop, ha, ih hs']

theorem ReadShortInteger_at (pre post : List Nat) (b : Nat) (o : Int)
    (ho : o + 1 = pre.length) (pdu : Target) (hdr : String) :
    ReadShortInteger { Data := pre ++ b :: post, Offset := o } pdu hdr =
      returnSet (b &&& 0x7F) { Data := pre ++ b :: post, Offset := o + 1 } pdu hdr
        (.uint64 (b &&& 0x7F)) setterUint64 := by
  have h1 := byteAt_append pre post b (o + 1) (o + 1) ho
  unfold ReadShortInteger
  dsimp only
  rw [h1]

theorem ReadByte_at (pre post : List Nat) (b : Nat) (o : Int) (ho : o + 1 = pre.length)
    (pdu : Target) (hdr : String) :
    ReadByte { Data := pre ++ b :: post, Offset := o } pdu hdr =
      returnSet b { Data := pre ++ b :: post, Offset := o + 1 } pdu hdr (.uint64 b)
        setterUint64 := by
  have h1 := byteAt_append pre post b (o + 1) (o + 1) ho
  unfold ReadByte
  dsimp only
  rw [h1]

theorem ReadUintVar_at (pre post : List Nat) (v : Nat) (hv : v < 2 ^ 64) (o : Int)
    (ho : o + 1 = pre.length) (pdu : Target) (hdr : String) :
    ReadUintVar { Data := pre ++ (uintVarOctets v ++ post), Offset := o } pdu hdr =
      returnSet v { Data := pre ++ (uintVarOctets v ++ post),
                    Offset := o + (uintVarOctets v).length } pdu hdr (.uint64 v)
        setterUint64 := by
  unfold ReadUintVar
  dsimp only
  rw [if_neg (by omega), drop_append_of_eq _ _ _ ho, readUintVarLoop_uintVarOctets v hv]
  dsimp only
  have e : o + 1 + ((uintVarOctets v).length : Int) - 1 = o + (uintVarOctets v).length := by
    ring
  rw [e]

theorem ReadLongInteger_at (pre post : List Nat) (i : Nat) (hi : i < 2 ^ 64) (o : Int)
    (ho : o + 1 = pre.length) (pdu : Target) (hdr : String) :
    ReadLongInteger
        { Data := pre ++ (encodeLong i).length :: (encodeLong i ++ post), Offset := o }
        pdu hdr =
      returnSet i { Data := pre ++ (encodeLong i).length :: (encodeLong i ++ post),
                    Offset := o + 1 + (encodeLong i).length } pdu hdr (.uint64 i)
        setterUint64 := by
  have h8 := encodeLong_length_le i hi
  have hread := (encodeLong_spec i hi).2.2.2.2 post
  have h1 := byteAt_append pre (encodeLong i ++ post) (encodeLong i).length o (o + 1) ho
  have h30 : ¬ (encodeLong i).length > shortLengthMax := by unfold shortLengthMax; omega
  have hd : (pre ++ (encodeLong i).length :: (encodeLong i ++ post)).drop (o + 1 + 1).toNat =
      encodeLong i ++ post := by
    have := drop_append_of_eq (pre ++ [(encodeLong i).length]) (encodeLong i ++ post)
      (o + 1 + 1) (by simp; omega)
    simpa using this
  unfold ReadLongInteger
  dsimp only
  rw [h1]
  dsimp only
  rw [if_neg h30, hd, hread]
  dsimp only
  have e : o + 1 + 1 + ((encodeLong i).length : Int) - 1 = o + 1 + (encodeLong i).length := by
    ring
  rw [e]

theorem ReadString_at (pre s post : List Nat) (o : Int) (ho : o + 1 = pre.length)
    (hs : 0 ∉ s) (hq : s.head? ≠ some 34) (pdu : Target) (hdr : String) :
    ReadString { Data := pre ++ (s ++ 0 :: post), Offset := o } pdu hdr =
      returnSet s { Data := pre ++ (s ++ 0 :: post), Offset := o + 1 + s.length } pdu hdr
        (.string s) setterString := by
  obtain ⟨b, rest, hbr, hb34⟩ : ∃ b rest, s ++ 0 :: post = b :: rest ∧ b ≠ 34 := by
    cases s with
    | nil => exact ⟨0, post, rfl, by norm_num⟩
    | cons a t => exact ⟨a, t ++ 0 :: post, rfl, by simpa using hq⟩
  have h1 : Decoder.byteAt { Data := pre ++ (s ++ 0 :: post), Offset := o } (o + 1) = some b := by
    rw [hbr]; exact byteAt_append pre rest b o (o + 1) ho
  unfold ReadString
  dsimp only
  rw [h1]
  dsimp only
  rw [if_neg hb34, drop_append_of_eq _ _ _ ho, readStringLoop_append s post hs]

theorem ReadString_quoted_at (pre s post : List Nat) (o : Int) (ho : o + 1 = pre.length)
    (hs : 0 ∉ s) (pdu : Target) (hdr : String) :
    ReadString { Data := pre ++ 34 :: (s ++ 0 :: post), Offset := o } pdu hdr =
      returnSet s { Data := pre ++ 34 :: (s ++ 0 :: post), Offset := o + 1 + 1 + s.length }
        pdu hdr (.string s) setterString := by
  have h1 := byteAt_append pre (s ++ 0 :: post) 34 o (o + 1) ho
  have hd : (pre ++ 34 :: (s ++ 0 :: post)).drop (o + 1 + 1).toNat = s ++ 0 :: post := by
    have := drop_append_of_eq (pre ++ [34]) (s ++ 0 :: post) (o + 1 + 1) (by simp; omega)
    simpa using this
  unfold ReadString
  dsimp only
  rw [h1]
  dsimp only
  rw [if_pos rfl, hd, readStringLoop_append s post hs]

theorem returnSet_nil {α : Type} (v : α) (dec : Decoder) (pdu : Target) (fieldValue : Value)
    (setter : Value → Value → Option Value) :
    returnSet v dec pdu "" fieldValue setter = .ok v dec pdu := rfl

/-- Two results of a reader that differ in the way the final cursor is written. -/
theorem Result.ok_congr {α : Type} (v : α) (d : List Nat) (o1 o2 : Int) (t : Target)
    (h : o1 = o2) : Result.ok v { Data := d, Offset := o1 } t = .ok v { Data := d, Offset := o2 } t := by
  rw [h]

/-! ## Response status of a send confirmation -/

set_option maxRecDepth 100000 in
/-- The result of `Status` for each of the 256 values of the response-status octet. -/
theorem status_byte : ∀ s : Nat, s < 256 →
    ((MSendConf.Status { ResponseStatus := s } = .nil ↔ s = 128) ∧
     (192 ≤ s ∧ s ≤ 223 → MSendConf.Status { ResponseStatus := s } = .ErrTransient) ∧
     (224 ≤ s ∧ s ≤ 255 → MSendConf.Status { ResponseStatus := s } = .ErrPermanent) ∧
     (s = 129 ∨ s = 130 ∨ s = 134 → MSendConf.Status { ResponseStatus := s } = .ErrTransient) ∧
     (s ≠ 128 ∧ ¬ (192 ≤ s ∧ s ≤ 255) ∧ s ≠ 129 ∧ s ≠ 130 ∧ s ≠ 134 →
        MSendConf.Status { ResponseStatus := s } = .ErrPermanent)) := by
  decide

theorem status_depends_on_responseStatus (mSendConf : MSendConf) :
    mSendConf.Status = MSendConf.Status { ResponseStatus := mSendConf.ResponseStatus } := rfl

/-- C2: `MSendConf.Status` returns nil exactly when the response status is 128, the
transient error for every status in 192..223 and the permanent error for every status in
224..255 (the response status is an octet). -/
theorem status_classification (mSendConf : MSendConf) (hbyte : mSendConf.ResponseStatus < 256) :
    (mSendConf.Status = .nil ↔ mSendConf.ResponseStatus = 128) ∧
    (192 ≤ mSendConf.ResponseStatus ∧ mSendConf.ResponseStatus ≤ 223 →
      mSendConf.Status = .ErrTransient) ∧
    (224 ≤ mSendConf.ResponseStatus ∧ mSendConf.ResponseStatus ≤ 255 →
      mSendConf.Status = .ErrPermanent) := by
  rw [status_depends_on_responseStatus]
  have h := status_byte mSendConf.ResponseStatus hbyte
  exact ⟨h.1, h.2.1, h.2.2.1⟩

/-- C2 at the response status 195 (Error-transient-network-problem). -/
theorem status_classification_witness :
    (MSendConf.Status { ResponseStatus := 195 } = .nil ↔ 195 = 128) ∧
    (192 ≤ 195 ∧ 195 ≤ 223 → MSendConf.Status { ResponseStatus := 195 } = .ErrTransient) ∧
    (224 ≤ 195 ∧ 195 ≤ 255 → MSendConf.Status { ResponseStatus := 195 } = .ErrPermanent) :=
  status_classification { ResponseStatus := 195 } (by decide)

/-- C3, as stated, fails at the response status 129 (the obsolete Error-unspecified): it
is neither 128 nor in 192..255, and `Status` returns the transient error for it. -/
theorem status_unspecified_is_transient :
    (129 : Nat) ≠ 128 ∧ ¬ (192 ≤ 129 ∧ 129 ≤ 255) ∧
    MSendConf.Status { ResponseStatus := 129 } = .ErrTransient ∧
    MSendConf.Status { ResponseStatus := 129 } ≠ .ErrPermanent := by
  decide

/-- C3 (amended): for a response-status octet that is neither 128 nor in 192..255,
`MSendConf.Status` returns the transient error when the status is 129, 130 or 134 (three
obsolete codes with a case of their own) and the permanent error for every other value. -/
theorem status_other_values (mSendConf : MSendConf) (hbyte : mSendConf.ResponseStatus < 256)
    (h128 : mSendConf.ResponseStatus ≠ 128)
    (hrange : ¬ (192 ≤ mSendConf.ResponseStatus ∧ mSendConf.ResponseStatus ≤ 255)) :
    (mSendConf.ResponseStatus = 129 ∨ mSendConf.ResponseStatus = 130 ∨
        mSendConf.ResponseStatus = 134 → mSendConf.Status = .ErrTransient) ∧
    (mSendConf.ResponseStatus ≠ 129 → mSendConf.ResponseStatus ≠ 130 →
        mSendConf.ResponseStatus ≠ 134 → mSendConf.Status = .ErrPermanent) := by
  rw [status_depends_on_responseStatus]
  have h := status_byte mSendConf.ResponseStatus hbyte
  exact ⟨h.2.2.2.1, fun h1 h2 h3 => h.2.2.2.2 ⟨h128, hrange, h1, h2, h3⟩⟩

/-- C3 (amended) at the response status 170. -/
theorem status_other_values_witness :
    (170 = 129 ∨ 170 = 130 ∨ 170 = 134 →
      MSendConf.Status { ResponseStatus := 170 } = .ErrTransient) ∧
    (170 ≠ 129 → 170 ≠ 130 → 170 ≠ 134 →
      MSendConf.Status { ResponseStatus := 170 } = .ErrPermanent) :=
  status_other_values { ResponseStatus := 170 } (by decide) (by decide) (by decide)

/-! ## Round trips of the wire primitives -/

/-- C4: for every `uint64` `v`, `writeUintVar(v)` writes the octets `uintVarOctets v`, and
`ReadUintVar` on these octets placed right after the cursor (after any octets `pre`, before
any octets `post`) returns `v` without error and leaves the cursor on the last of them: it
moves the cursor by the number of octets written. -/
theorem readUintVar_writeUintVar (v : Nat) (hv : v < 2 ^ 64) (enc : Encoder)
    (pre post : List Nat) :
    enc.writeUintVar v = .ok { w := enc.w ++ uintVarOctets v } ∧
    ReadUintVar { Data := pre ++ uintVarOctets v ++ post, Offset := (pre.length : Int) - 1 }
        .nil "" =
      .ok v { Data := pre ++ uintVarOctets v ++ post,
              Offset := (pre.length : Int) - 1 + (uintVarOctets v).length } .nil := by
  constructor
  · simp [Encoder.writeUintVar, Encoder.writeBytes]
  · rw [List.append_assoc, ReadUintVar_at pre post v hv _ (by omega), returnSet_nil]

/-- C4 at `v = 300`, written `0x82 0x2C`, read back after one octet. -/
theorem readUintVar_writeUintVar_witness :
    NewEncoder.writeUintVar 300 = .ok ⟨[130, 44]⟩ ∧
    ReadUintVar ⟨[140, 130, 44, 7], 0⟩ .nil "" = .ok 300 ⟨[140, 130, 44, 7], 2⟩ .nil :=
  readUintVar_writeUintVar 300 (by norm_num) NewEncoder [140] [7]

/-- C5, as stated, fails at `n = 0`: `writeUintVar(0)` writes the one octet `0x00`, while
zero has no significant bit, so that `⌈bits(0)/7⌉ = 0`. -/
theorem uintVarOctets_zero_length :
    uintVarOctets 0 = [0] ∧ (uintVarOctets 0).length ≠ (Nat.size 0 + 6) / 7 := by
  simp [uintVarOctets, writeUintVarLoop]

/-- C5 (amended): for every `uint64` `n`, the octets written by `writeUintVar(n)` do not
begin with `0x80`; there are `⌈bits(n)/7⌉` of them when `n > 0` and one when `n = 0`
(`max 1 ⌈bits(n)/7⌉`, with `bits(n) = Nat.size n`); every octet but the last has its high
bit set and the last has it clear. -/
theorem uintVarOctets_minimal (n : Nat) (hn : n < 2 ^ 64) :
    (uintVarOctets n).head? ≠ some 0x80 ∧
    (uintVarOctets n).length = max 1 ((Nat.size n + 6) / 7) ∧
    (∀ b ∈ (uintVarOctets n).dropLast, 128 ≤ b ∧ b < 256) ∧
    (∃ l, (uintVarOctets n).getLast? = some l ∧ l < 128) := by
  obtain ⟨p, hp, hlen, hhi, hhead, _⟩ := uintVarOctets_spec n hn
  have hmod : n % 128 < 128 := Nat.mod_lt _ (by norm_num)
  rw [hp]
  refine ⟨?_, ?_, ?_, ?_⟩
  · cases p with
    | nil =>
      simp only [List.nil_append, List.head?_cons, ne_eq, Option.some.injEq]
      omega
    | cons a p' => simpa using hhead
  · simp only [List.length_append, List.length_singleton, hlen]
    by_cases h0 : n = 0
    · subst h0; simp
    · have : 0 < Nat.size n := Nat.size_pos.mpr (Nat.pos_of_ne_zero h0)
      omega
  · simpa using hhi
  · exact ⟨n % 128, by simp, hmod⟩

/-- C5 (amended) at `n = 300`. -/
theorem uintVarOctets_minimal_witness :
    (uintVarOctets 300).head? ≠ some 0x80 ∧
    (uintVarOctets 300).length = max 1 ((Nat.size 300 + 6) / 7) ∧
    (∀ b ∈ (uintVarOctets 300).dropLast, 128 ≤ b ∧ b < 256) ∧
    (∃ l, (uintVarOctets 300).getLast? = some l ∧ l < 128) :=
  uintVarOctets_minimal 300 (by norm_num)

/-- C6: for every `uint64` `i`, `encodeLong(i)` is the big-endian representation of `i`
(octets below 256 whose big-endian value is `i`) with no leading zero octet, its length is
the number `⌈bits(i)/8⌉` of significant bytes of `i`, and `writeLongInteger(i)` succeeds
and writes that length as one octet followed by exactly those octets. -/
theorem encodeLong_minimal (i : Nat) (hi : i < 2 ^ 64) (enc : Encoder) :
    bigEndianValue (encodeLong i) = i ∧
    (∀ b ∈ encodeLong i, b < 256) ∧
    (encodeLong i).head? ≠ some 0 ∧
    (encodeLong i).length = (Nat.size i + 7) / 8 ∧
    enc.writeLongInteger i = .ok { w := enc.w ++ (encodeLong i).length :: encodeLong i } := by
  obtain ⟨hlen, hlt, hhead, hval, _⟩ := encodeLong_spec i hi
  exact ⟨hval, hlt, hhead, hlen, writeLongInteger_eq i hi enc⟩

/-- C6 at `i = 604800` (seven days in seconds), written `0x03 0x09 0x3A 0x80`. -/
theorem encodeLong_minimal_witness :
    bigEndianValue (encodeLong 604800) = 604800 ∧
    (∀ b ∈ encodeLong 604800, b < 256) ∧
    (encodeLong 604800).head? ≠ some 0 ∧
    (encodeLong 604800).length = (Nat.size 604800 + 7) / 8 ∧
    NewEncoder.writeLongInteger 604800 = .ok ⟨[3, 9, 58, 128]⟩ :=
  encodeLong_minimal 604800 (by norm_num) NewEncoder

/-- C7: for every `uint64` `i`, `ReadLongInteger` on the octets written by
`writeLongInteger(i)`, placed right after the cursor, returns `i` without error and leaves
the cursor on the last octet written. -/
theorem readLongInteger_writeLongInteger (i : Nat) (hi : i < 2 ^ 64) (enc : Encoder)
    (pre post : List Nat) :
    ∃ octets, enc.writeLongInteger i = .ok { w := enc.w ++ octets } ∧
      ReadLongInteger { Data := pre ++ octets ++ post, Offset := (pre.length : Int) - 1 }
          .nil "" =
        .ok i { Data := pre ++ octets ++ post,
                Offset := (pre.length : Int) - 1 + octets.length } .nil := by
  refine ⟨(encodeLong i).length :: encodeLong i, writeLongInteger_eq i hi enc, ?_⟩
  have e : pre ++ (encodeLong i).length :: encodeLong i ++ post =
      pre ++ (encodeLong i).length :: (encodeLong i ++ post) := by simp
  rw [e, ReadLongInteger_at pre post i hi _ (by omega), returnSet_nil]
  apply Result.ok_congr
  simp only [List.length_cons]
  push_cast
  ring

/-- C7 at `i = 604800`, read back after one octet. -/
theorem readLongInteger_writeLongInteger_witness :
    ∃ octets, NewEncoder.writeLongInteger 604800 = .ok ⟨octets⟩ ∧
      ReadLongInteger ⟨[133] ++ octets ++ [7], 0⟩ .nil "" =
        .ok 604800 ⟨[133] ++ octets ++ [7], 0 + octets.length⟩ .nil :=
  readLongInteger_writeLongInteger 604800 (by norm_num) NewEncoder [133] [7]

/-- C8: for every `uint64` `i`, `writeInteger(i)` writes the single octet `i|0x80` when
`i < 128` and the long-integer form of `i` (length octet, then `encodeLong(i)`) otherwise,
and `ReadInteger` on that output, placed right after the cursor, returns `i` and moves the
cursor by exactly the octets written. -/
theorem readInteger_writeInteger (i : Nat) (hi : i < 2 ^ 64) (enc : Encoder)
    (pre post : List Nat) :
    ∃ octets, enc.writeInteger i = .ok { w := enc.w ++ octets } ∧
      (i < 128 → octets = [i ||| 0x80]) ∧
      (128 ≤ i → octets = (encodeLong i).length :: encodeLong i) ∧
      ReadInteger { Data := pre ++ octets ++ post, Offset := (pre.length : Int) - 1 } .nil "" =
        .ok i { Data := pre ++ octets ++ post,
                Offset := (pre.length : Int) - 1 + octets.length } .nil := by
  by_cases h : i < 128
  · obtain ⟨hor, h2, h3⟩ := short_octet i h
    have h1 : (128 + i) % 256 = 128 + i := Nat.mod_eq_of_lt (by omega)
    refine ⟨[i ||| 0x80], ?_, fun _ => rfl, fun h' => absurd h' (by omega), ?_⟩
    · have h80 : i < 0x80 := h
      simp only [Encoder.writeInteger, h80, if_true, Encoder.writeShortInteger,
        Encoder.writeByte, Encoder.writeBytes, hor, h1]
      simp
    · rw [hor]
      have e : pre ++ [128 + i] ++ post = pre ++ (128 + i) :: post := by simp
      have hb := byteAt_append pre post (128 + i) ((pre.length : Int) - 1)
        ((pre.length : Int) - 1 + 1) (by omega)
      rw [e]
      unfold ReadInteger
      dsimp only
      rw [hb]
      dsimp only
      rw [if_pos h2, ReadShortInteger_at pre post (128 + i) _ (by omega), h3, returnSet_nil]
      exact Result.ok_congr _ _ _ _ _ (by simp)
  · have h128 : 128 ≤ i := by omega
    have h80 : ¬ i < 0x80 := by omega
    have hw := writeLongInteger_eq i hi enc
    refine ⟨(encodeLong i).length :: encodeLong i, ?_, fun h' => absurd h' h, fun _ => rfl, ?_⟩
    · simp only [Encoder.writeInteger, h80, if_false, hw]
    · have h8 := encodeLong_length_le i hi
      have hb := byteAt_append pre (encodeLong i ++ post) (encodeLong i).length
        ((pre.length : Int) - 1) ((pre.length : Int) - 1 + 1) (by omega)
      have e : pre ++ (encodeLong i).length :: encodeLong i ++ post =
          pre ++ (encodeLong i).length :: (encodeLong i ++ post) := by simp
      rw [e]
      unfold ReadInteger
      dsimp only
      rw [hb]
      dsimp only
      rw [if_neg (by rw [small_and_80 _ (by omega)]; simp),
        ReadLongInteger_at pre post i hi _ (by omega), returnSet_nil]
      refine Result.ok_congr _ _ _ _ _ ?_
      simp only [List.length_cons]
      push_cast
      ring

/-- C8 at `i = 100`, a short integer. -/
theorem readInteger_writeInteger_witness :
    ∃ octets, NewEncoder.writeInteger 100 = .ok ⟨octets⟩ ∧
      (100 < 128 → octets = [100 ||| 0x80]) ∧
      (128 ≤ 100 → octets = (encodeLong 100).length :: encodeLong 100) ∧
      ReadInteger ⟨[133] ++ octets ++ [7], 0⟩ .nil "" =
        .ok 100 ⟨[133] ++ octets ++ [7], 0 + octets.length⟩ .nil :=
  readInteger_writeInteger 100 (by norm_num) NewEncoder [133] [7]

/-- C9: for every string `s` without a zero octet, `writeString(s)` writes the octets of
`s` followed by one zero octet; `ReadString` on that output returns `s` when `s` does not
begin with the quote octet `0x22`; `writeQuotedStringParam` writes the parameter octet, the
quote `0x22`, `s` and a zero octet, and `ReadString` from the parameter octet on returns `s`
for every such `s`; in both cases the cursor is left on the terminating zero octet. -/
theorem readString_writeString (s : GoString) (hs : 0 ∉ s) (enc : Encoder) (param : Nat)
    (pre post : List Nat) :
    enc.writeString s = .ok { w := enc.w ++ (s ++ [0]) } ∧
    (s.head? ≠ some 0x22 →
      ReadString { Data := pre ++ (s ++ [0]) ++ post, Offset := (pre.length : Int) - 1 }
          .nil "" =
        .ok s { Data := pre ++ (s ++ [0]) ++ post,
                Offset := (pre.length : Int) - 1 + (s.length + 1 : Nat) } .nil) ∧
    enc.writeQuotedStringParam param s =
      .ok { w := enc.w ++ ([(param ||| 0x80) % 256, 0x22] ++ s ++ [0]) } ∧
    ReadString
        { Data := pre ++ ([(param ||| 0x80) % 256, 0x22] ++ s ++ [0]) ++ post,
          Offset := pre.length } .nil "" =
      .ok s { Data := pre ++ ([(param ||| 0x80) % 256, 0x22] ++ s ++ [0]) ++ post,
              Offset := (pre.length : Int) + (s.length + 2 : Nat) } .nil := by
  refine ⟨rfl, ?_, ?_, ?_⟩
  · intro hq
    have e : pre ++ (s ++ [0]) ++ post = pre ++ (s ++ 0 :: post) := by simp
    rw [e, ReadString_at pre s post _ (by omega) hs hq, returnSet_nil]
    apply Result.ok_congr
    push_cast
    ring
  · simp [Encoder.writeQuotedStringParam, Encoder.setParam, Encoder.writeByte,
      Encoder.writeBytes, Encoder.writeString, WriteResult.andThen, stringQuote]
  · have e : pre ++ ([(param ||| 0x80) % 256, 0x22] ++ s ++ [0]) ++ post =
        (pre ++ [(param ||| 0x80) % 256]) ++ 34 :: (s ++ 0 :: post) := by simp
    rw [e, ReadString_quoted_at (pre ++ [(param ||| 0x80) % 256]) s post _ (by simp) hs,
      returnSet_nil]
    apply Result.ok_congr
    push_cast
    ring

/-- C9 at the string `ab`, plain after a header octet and quoted as a Content-ID. -/
theorem readString_writeString_witness :
    NewEncoder.writeString [97, 98] = .ok ⟨[97, 98, 0]⟩ ∧
    (([97, 98] : List Nat).head? ≠ some 0x22 →
      ReadString ⟨[152, 97, 98, 0, 7], 0⟩ .nil "" = .ok [97, 98] ⟨[152, 97, 98, 0, 7], 3⟩ .nil) ∧
    NewEncoder.writeQuotedStringParam 0x40 [97, 98] = .ok ⟨[192, 34, 97, 98, 0]⟩ ∧
    ReadString ⟨[152, 192, 34, 97, 98, 0, 7], 1⟩ .nil "" =
      .ok [97, 98] ⟨[152, 192, 34, 97, 98, 0, 7], 5⟩ .nil :=
  readString_writeString [97, 98] (by decide) NewEncoder 0x40 [152] [7]

/-- C10, as stated, fails at the next octet `0x80`: it is neither a short-length (0..30)
nor the length-quote 31, and `ReadLength` returns the length 0 without error. -/
theorem readLength_accepts_0x80 :
    ¬ (0x80 ≤ 30) ∧ 0x80 ≠ 31 ∧
    ReadLength { Data := [0x8C, 0x80], Offset := 0 } .nil =
      .ok 0 { Data := [0x8C, 0x80], Offset := 1 } .nil := by
  decide

/-- C10 (amended): for every `uint64` `n`, `writeLength(n)` writes the single octet `n`
when `n ≤ 30` and otherwise the length-quote octet 31 followed by the uintvar of `n`, and
`ReadLength` on that output returns `n`; `ReadLength` masks the next octet with `0x7f`
before the short-length test, so it returns `b & 0x7f` without error for every next octet
`b` with `b & 0x7f ≤ 30` (0..30 and 128..158), and returns an error, the cursor unmoved,
for every other next octet except 31 (32..127 and 159..255). -/
theorem readLength_writeLength (n : Nat) (hn : n < 2 ^ 64) (enc : Encoder)
    (pre post : List Nat) :
    (∃ octets, enc.writeLength n = .ok { w := enc.w ++ octets } ∧
      (n ≤ 30 → octets = [n]) ∧
      (30 < n → octets = 31 :: uintVarOctets n) ∧
      ReadLength { Data := pre ++ octets ++ post, Offset := (pre.length : Int) - 1 } .nil =
        .ok n { Data := pre ++ octets ++ post,
                Offset := (pre.length : Int) - 1 + octets.length } .nil) ∧
    (∀ b : Nat, b &&& 0x7f ≤ 30 →
      ReadLength { Data := pre ++ b :: post, Offset := (pre.length : Int) - 1 } .nil =
        .ok (b &&& 0x7f) { Data := pre ++ b :: post, Offset := pre.length } .nil) ∧
    (∀ b : Nat, 30 < b &&& 0x7f → b ≠ 31 →
      ReadLength { Data := pre ++ b :: post, Offset := (pre.length : Int) - 1 } .nil =
        .error { Data := pre ++ b :: post, Offset := (pre.length : Int) - 1 } .nil) := by
  have hshort : ∀ b : Nat, b &&& 0x7f ≤ 30 →
      ReadLength { Data := pre ++ b :: post, Offset := (pre.length : Int) - 1 } .nil =
        .ok (b &&& 0x7f) { Data := pre ++ b :: post, Offset := pre.length } .nil := by
    intro b hb30
    have hb := byteAt_append pre post b ((pre.length : Int) - 1)
      ((pre.length : Int) - 1 + 1) (by omega)
    unfold ReadLength
    dsimp only
    rw [hb]
    dsimp only
    rw [if_pos (by unfold shortLengthMax; exact hb30),
      ReadShortInteger_at pre post b _ (by omega), returnSet_nil]
    exact Result.ok_congr _ _ _ _ _ (by omega)
  refine ⟨?_, hshort, ?_⟩
  · by_cases h : n ≤ 30
    · have hm : n % 256 = n := Nat.mod_eq_of_lt (by omega)
      have hand := and_7f_le_30 n h
      refine ⟨[n], ?_, fun _ => rfl, fun h' => absurd h' (by omega), ?_⟩
      · simp [Encoder.writeLength, h, shortLengthMax, Encoder.writeByte, Encoder.writeBytes, hm]
      · have e : pre ++ [n] ++ post = pre ++ n :: post := by simp
        rw [e, hshort n (by omega), hand]
        exact Result.ok_congr _ _ _ _ _ (by simp)
    · have h30 : 30 < n := by omega
      refine ⟨31 :: uintVarOctets n, ?_, fun h' => absurd h' h, fun _ => rfl, ?_⟩
      · simp [Encoder.writeLength, h, shortLengthMax, Encoder.writeByte, Encoder.writeBytes,
          lengthQuote, WriteResult.andThen, Encoder.writeUintVar]
      · have hb := byteAt_append pre (uintVarOctets n ++ post) 31 ((pre.length : Int) - 1)
          ((pre.length : Int) - 1 + 1) (by omega)
        have e : pre ++ 31 :: uintVarOctets n ++ post = pre ++ 31 :: (uintVarOctets n ++ post) := by
          simp
        have e2 : pre ++ 31 :: (uintVarOctets n ++ post) =
            (pre ++ [31]) ++ (uintVarOctets n ++ post) := by simp
        rw [e]
        unfold ReadLength
        dsimp only
        rw [hb]
        dsimp only
        rw [if_neg (by decide), if_pos (by rfl), if_pos (by rfl), e2,
          ReadUintVar_at (pre ++ [31]) post n hn _ (by simp), returnSet_nil]
        refine Result.ok_congr _ _ _ _ _ ?_
        simp only [List.length_cons]
        push_cast
        ring
  · intro b hb30 hb31
    have hb := byteAt_append pre post b ((pre.length : Int) - 1)
      ((pre.length : Int) - 1 + 1) (by omega)
    unfold ReadLength
    dsimp only
    rw [hb]
    dsimp only
    rw [if_neg (by unfold shortLengthMax; omega), if_neg (by unfold lengthQuote; exact hb31)]

/-- C10 (amended) at `n = 300`, read back after one octet. -/
theorem readLength_writeLength_witness :
    (∃ octets, NewEncoder.writeLength 300 = .ok ⟨octets⟩ ∧
      (300 ≤ 30 → octets = [300]) ∧
      (30 < 300 → octets = 31 :: uintVarOctets 300) ∧
      ReadLength ⟨[132] ++ octets ++ [7], 0⟩ .nil =
        .ok 300 ⟨[132] ++ octets ++ [7], 0 + octets.length⟩ .nil) ∧
    (∀ b : Nat, b &&& 0x7f ≤ 30 →
      ReadLength ⟨[132] ++ b :: [7], 0⟩ .nil = .ok (b &&& 0x7f) ⟨[132] ++ b :: [7], 1⟩ .nil) ∧
    (∀ b : Nat, 30 < b &&& 0x7f → b ≠ 31 →
      ReadLength ⟨[132] ++ b :: [7], 0⟩ .nil = .error ⟨[132] ++ b :: [7], 0⟩ .nil) :=
  readLength_writeLength 300 (by norm_num) NewEncoder [132] [7]

/-! ## Header loop of `Decode` -/

theorem getParam_wellKnown (d pre post : List Nat) (b : Nat) (o : Int)
    (hd : d = pre ++ b :: post) (ho : o = pre.length) (hb : b &&& 0x80 ≠ 0) :
    getParam { Data := d, Offset := o } = .ok (b &&& 0x7f, true) { Data := d, Offset := o } .nil := by
  subst hd
  have h1 := byteAt_append pre post b o o ho
  unfold getParam
  dsimp only
  rw [h1]
  dsimp only
  rw [if_pos hb]

theorem decodeStep_wellKnown (d pre post : List Nat) (b param : Nat) (o : Int)
    (hd : d = pre ++ b :: post) (ho : o = pre.length) (hb : b &&& 0x80 ≠ 0)
    (hp : b &&& 0x7f = param) (pdu : Struct) :
    decodeStep { Data := d, Offset := o } pdu = decodeHeader param { Data := d, Offset := o } pdu := by
  unfold decodeStep
  rw [getParam_wellKnown d pre post b o hd ho hb, hp]
  rfl

theorem decodeLoop_next (fuel : Nat) (d : List Nat) (o o' o'' : Int) (pdu pdu' : Struct)
    (more : Bool) (hc : o < d.length)
    (hs : decodeStep { Data := d, Offset := o } pdu = .next more { Data := d, Offset := o' } pdu')
    (ho : o' + 1 = o'') :
    decodeLoop (fuel + 1) { Data := d, Offset := o } pdu true =
      decodeLoop fuel { Data := d, Offset := o'' } pdu' more := by
  subst ho
  have hc' : o < (d.length : Int) ∧ true = true := ⟨hc, rfl⟩
  rw [decodeLoop]
  dsimp only
  rw [if_pos hc', hs]

theorem decodeLoop_done (fuel : Nat) (d : List Nat) (o : Int) (pdu : Struct) (more : Bool)
    (hc : ¬ o < d.length) :
    decodeLoop (fuel + 1) { Data := d, Offset := o } pdu more =
      .ok { Data := d, Offset := o } pdu := by
  have hc' : ¬ (o < (d.length : Int) ∧ more = true) := fun h => hc h.1
  rw [decodeLoop]
  dsimp only
  rw [if_neg hc']

/-- The header of a field that `Decode` does not know, followed by one octet with the
high bit set: `skipFieldValue` steps over that octet. -/
theorem skipFieldValue_short (d pre post : List Nat) (b : Nat) (o : Int)
    (hd : d = pre ++ b :: post) (ho : o + 1 = pre.length) (hb : 128 ≤ b) :
    skipFieldValue { Data := d, Offset := o } = .ok () { Data := d, Offset := o + 1 } .nil := by
  subst hd
  have h1 := byteAt_append pre post b o (o + 1) ho
  unfold skipFieldValue
  dsimp only
  rw [h1]
  dsimp only
  rw [if_neg (by unfold lengthQuote; omega), if_neg (by unfold lengthQuote; omega),
    if_neg (by unfold textMax; omega), ReadShortInteger_at pre post b o ho, returnSet_nil]
  rfl

theorem decodeHeader_messageType (dec : Decoder) (pdu : Struct) :
    decodeHeader 0x0C dec pdu = decodeMessageType dec pdu := rfl

theorem decodeHeader_transactionID (dec : Decoder) (pdu : Struct) :
    decodeHeader 0x18 dec pdu = (ReadString dec (.struct pdu) "TransactionID").toStep pdu true :=
  rfl

theorem decodeHeader_version (dec : Decoder) (pdu : Struct) :
    decodeHeader 0x0D dec pdu = (ReadByte dec (.struct pdu) "Version").toStep pdu true := rfl

theorem decodeHeader_status (dec : Decoder) (pdu : Struct) :
    decodeHeader 0x15 dec pdu = (skipFieldValue dec).toStep pdu true := rfl

theorem decodeHeader_reportAllowed (dec : Decoder) (pdu : Struct) :
    decodeHeader 0x11 dec pdu = (skipFieldValue dec).toStep pdu true := rfl

/-! ## Round trip of m-notifyresp.ind -/

/-- The octets of an encoded m-notifyresp.ind with a non-empty transaction identifier. -/
theorem Encode_MNotifyRespInd (P : MNotifyRespInd) (ht : P.TransactionID ≠ []) :
    NewEncoder.Encode P.reflect =
      .ok { w := [0x8C, P.Type_ % 256, 0x98] ++ P.TransactionID ++
              [0, 0x8D, P.Version % 256, 0x95, P.Status % 256, 0x91, P.ReportAllowed % 256] } := by
  simp [Encoder.Encode, MNotifyRespInd.reflect, encodeFields, encodeField, writeUintParam,
    Value.Uint, Value.String, Encoder.writeByteParam, Encoder.writeStringParam,
    Encoder.setParam, Encoder.writeByte, Encoder.writeBytes, Encoder.writeString,
    WriteResult.andThen, NewEncoder, ht, HeaderXMmsMessageType, HeaderXMmsMmsVersion,
    HeaderXMmsTransactionID, HeaderXMmsStatus, HeaderXMmsReportAllowed]

/-- `Decode` of the octets of an m-notifyresp.ind into a fresh record: the transaction
identifier and the version are stored, the Status and Report-Allowed headers are skipped. -/
theorem Decode_notifyRespOctets (tid : List Nat) (ver st ra : Nat) (hz : 0 ∉ tid)
    (hq : tid.head? ≠ some 34) (hst : 128 ≤ st) (hra : 128 ≤ ra) (fuel : Nat)
    (hfuel : 6 ≤ fuel) :
    Decode fuel (NewDecoder ([0x8C, 0x83, 0x98] ++ tid ++ [0, 0x8D, ver, 0x95, st, 0x91, ra]))
        NewMNotifyRespInd.reflect =
      .ok { Data := [0x8C, 0x83, 0x98] ++ tid ++ [0, 0x8D, ver, 0x95, st, 0x91, ra],
            Offset := (tid.length : Int) + 10 }
        (MNotifyRespInd.reflect
          { Type_ := 0x83, TransactionID := tid, Version := ver % 256 }) := by
  obtain ⟨n, rfl⟩ : ∃ n, fuel = n + 6 := ⟨fuel - 6, by omega⟩
  generalize hD : [0x8C, 0x83, 0x98] ++ tid ++ [0, 0x8D, ver, 0x95, st, 0x91, ra] = D
  have hlen : (D.length : Int) = tid.length + 10 := by
    rw [← hD]; simp; ring
  -- the message type
  have s1 : decodeStep { Data := D, Offset := 0 } NewMNotifyRespInd.reflect =
      .next true { Data := D, Offset := 1 } NewMNotifyRespInd.reflect := by
    rw [decodeStep_wellKnown D [] (0x83 :: 0x98 :: (tid ++ [0, 0x8D, ver, 0x95, st, 0x91, ra]))
      0x8C 12 0 (by rw [← hD]; simp) rfl (by decide) (by decide)]
    have hb : Decoder.byteAt { Data := D, Offset := 0 + 1 } (0 + 1) = some 0x83 := by
      rw [← hD]
      exact byteAt_append [0x8C] (0x98 :: (tid ++ [0, 0x8D, ver, 0x95, st, 0x91, ra])) 0x83 _ _
        rfl
    rw [decodeHeader_messageType]
    unfold decodeMessageType
    dsimp only
    rw [hb]
    rfl
  -- the transaction identifier
  have s2 : decodeStep { Data := D, Offset := 2 } NewMNotifyRespInd.reflect =
      .next true { Data := D, Offset := (tid.length : Int) + 3 }
        (MNotifyRespInd.reflect { Type_ := 0x83, TransactionID := tid }) := by
    rw [decodeStep_wellKnown D [0x8C, 0x83] (tid ++ [0, 0x8D, ver, 0x95, st, 0x91, ra])
      0x98 0x18 2 (by rw [← hD]; simp) rfl (by decide) (by decide)]
    rw [decodeHeader_transactionID]
    have hd : D = [0x8C, 0x83, 0x98] ++ (tid ++ 0 :: [0x8D, ver, 0x95, st, 0x91, ra]) := by
      rw [← hD]; simp
    rw [hd, ReadString_at [0x8C, 0x83, 0x98] tid [0x8D, ver, 0x95, st, 0x91, ra] 2 rfl hz hq]
    have e : (2 : Int) + 1 + tid.length = tid.length + 3 := by ring
    rw [e]
    rfl
  -- the version
  have s3 : decodeStep { Data := D, Offset := (tid.length : Int) + 4 }
        (MNotifyRespInd.reflect { Type_ := 0x83, TransactionID := tid }) =
      .next true { Data := D, Offset := (tid.length : Int) + 4 + 1 }
        (MNotifyRespInd.reflect { Type_ := 0x83, TransactionID := tid, Version := ver % 256 }) := by
    rw [decodeStep_wellKnown D ([0x8C, 0x83, 0x98] ++ tid ++ [0]) [ver, 0x95, st, 0x91, ra]
      0x8D 0x0D _ (by rw [← hD]; simp) (by simp; ring) (by decide) (by decide)]
    rw [decodeHeader_version]
    have hd : D = ([0x8C, 0x83, 0x98] ++ tid ++ [0, 0x8D]) ++ ver :: [0x95, st, 0x91, ra] := by
      rw [← hD]; simp
    rw [hd, ReadByte_at _ _ ver _ (by simp; ring)]
    rfl
  -- the status, a header that `Decode` does not know
  have s4 : decodeStep { Data := D, Offset := (tid.length : Int) + 6 }
        (MNotifyRespInd.reflect { Type_ := 0x83, TransactionID := tid, Version := ver % 256 }) =
      .next true { Data := D, Offset := (tid.length : Int) + 6 + 1 }
        (MNotifyRespInd.reflect { Type_ := 0x83, TransactionID := tid, Version := ver % 256 }) := by
    rw [decodeStep_wellKnown D ([0x8C, 0x83, 0x98] ++ tid ++ [0, 0x8D, ver]) [st, 0x91, ra]
      0x95 0x15 _ (by rw [← hD]; simp) (by simp; ring) (by decide) (by decide)]
    rw [decodeHeader_status]
    rw [skipFieldValue_short D ([0x8C, 0x83, 0x98] ++ tid ++ [0, 0x8D, ver, 0x95]) [0x91, ra] st _
      (by rw [← hD]; simp) (by simp; ring) hst]
    rfl
  -- the report-allowed flag, a header that `Decode` does not know
  have s5 : decodeStep { Data := D, Offset := (tid.length : Int) + 8 }
        (MNotifyRespInd.reflect { Type_ := 0x83, TransactionID := tid, Version := ver % 256 }) =
      .next true { Data := D, Offset := (tid.length : Int) + 8 + 1 }
        (MNotifyRespInd.reflect { Type_ := 0x83, TransactionID := tid, Version := ver % 256 }) := by
    rw [decodeStep_wellKnown D ([0x8C, 0x83, 0x98] ++ tid ++ [0, 0x8D, ver, 0x95, st]) [ra]
      0x91 0x11 _ (by rw [← hD]; simp) (by simp; ring) (by decide) (by decide)]
    rw [decodeHeader_reportAllowed]
    rw [skipFieldValue_short D ([0x8C, 0x83, 0x98] ++ tid ++ [0, 0x8D, ver, 0x95, st, 0x91]) [] ra _
      (by rw [← hD]; simp) (by simp; ring) hra]
    rfl
  unfold Decode NewDecoder
  rw [decodeLoop_next _ D 0 1 2 _ _ true (by omega) s1 (by norm_num),
    decodeLoop_next _ D 2 _ ((tid.length : Int) + 4) _ _ true (by omega) s2 (by ring),
    decodeLoop_next _ D _ _ ((tid.length : Int) + 6) _ _ true (by omega) s3 (by ring),
    decodeLoop_next _ D _ _ ((tid.length : Int) + 8) _ _ true (by omega) s4 (by ring),
    decodeLoop_next _ D _ _ ((tid.length : Int) + 10) _ _ true (by omega) s5 (by ring),
    decodeLoop_done _ D _ _ true (by omega)]

/-- A notify-response whose type octet is not `0x83` is refused by `Decode` into a fresh
record: the example has type `0x80`. -/
theorem Decode_notifyResp_other_type :
    NewEncoder.Encode
        (MNotifyRespInd.reflect
          { Type_ := 0x80, TransactionID := [97], Version := 0x91, Status := 129,
            ReportAllowed := 128 }) =
      .ok { w := [0x8C, 0x80, 0x98, 97, 0, 0x8D, 0x91, 0x95, 129, 0x91, 128] } ∧
    Decode 6 (NewDecoder [0x8C, 0x80, 0x98, 97, 0, 0x8D, 0x91, 0x95, 129, 0x91, 128])
        NewMNotifyRespInd.reflect =
      .error { Data := [0x8C, 0x80, 0x98, 97, 0, 0x8D, 0x91, 0x95, 129, 0x91, 128], Offset := 1 }
        NewMNotifyRespInd.reflect := by
  decide

/-- A transaction identifier that begins with the quote octet loses it in `Decode`: the
example has the identifier `"a`. -/
theorem Decode_notifyResp_quoted_transactionID :
    NewEncoder.Encode
        (MNotifyRespInd.reflect
          { Type_ := 0x83, TransactionID := [34, 97], Version := 0x91, Status := 129,
            ReportAllowed := 128 }) =
      .ok { w := [0x8C, 0x83, 0x98, 34, 97, 0, 0x8D, 0x91, 0x95, 129, 0x91, 128] } ∧
    Decode 6 (NewDecoder [0x8C, 0x83, 0x98, 34, 97, 0, 0x8D, 0x91, 0x95, 129, 0x91, 128])
        NewMNotifyRespInd.reflect =
      .ok { Data := [0x8C, 0x83, 0x98, 34, 97, 0, 0x8D, 0x91, 0x95, 129, 0x91, 128], Offset := 12 }
        (MNotifyRespInd.reflect { Type_ := 0x83, TransactionID := [97], Version := 0x91 }) := by
  decide

/-- A status octet below 31 is taken by `skipFieldValue` for the length of the field
value: with the status 5 the value would end after the input, and `Decode` returns an
error. -/
theorem Decode_notifyResp_small_status :
    Decode 6 (NewDecoder [0x8C, 0x83, 0x98, 97, 0, 0x8D, 0x91, 0x95, 5, 0x91, 128])
        NewMNotifyRespInd.reflect =
      .error { Data := [0x8C, 0x83, 0x98, 97, 0, 0x8D, 0x91, 0x95, 5, 0x91, 128], Offset := 8 }
        (MNotifyRespInd.reflect { Type_ := 0x83, TransactionID := [97], Version := 0x91 }) := by
  decide

/-- C1, as stated, fails for the notify-response with transaction identifier `a`, version
1.1, status Retrieved (129) and report-allowed Yes (128): `Encode` writes eleven octets,
`Decode` of them into a fresh record succeeds, and the decoded record has Status 0 and
ReportAllowed 0, so it differs from the encoded one in two transmitted fields. -/
theorem notifyResp_status_not_restored :
    NewEncoder.Encode
        (MNotifyRespInd.reflect
          { Type_ := 0x83, TransactionID := [97], Version := 0x91, Status := 129,
            ReportAllowed := 128 }) =
      .ok { w := [0x8C, 0x83, 0x98, 97, 0, 0x8D, 0x91, 0x95, 129, 0x91, 128] } ∧
    Decode 6 (NewDecoder [0x8C, 0x83, 0x98, 97, 0, 0x8D, 0x91, 0x95, 129, 0x91, 128])
        NewMNotifyRespInd.reflect =
      .ok { Data := [0x8C, 0x83, 0x98, 97, 0, 0x8D, 0x91, 0x95, 129, 0x91, 128], Offset := 11 }
        (MNotifyRespInd.reflect
          { Type_ := 0x83, TransactionID := [97], Version := 0x91, Status := 0,
            ReportAllowed := 0 }) ∧
    ({ Type_ := 0x83, TransactionID := [97], Version := 0x91, Status := 0,
       ReportAllowed := 0 } : MNotifyRespInd) ≠
      { Type_ := 0x83, TransactionID := [97], Version := 0x91, Status := 129,
        ReportAllowed := 128 } := by
  decide

/-- C1 (amended): for every MNotifyRespInd `P` of type `0x83` whose TransactionID is
non-empty, has no zero octet and does not begin with the quote octet `0x22`, and whose
Status and ReportAllowed octets have the high bit set, `Encode(P)` succeeds and `Decode` of
its octets into a fresh record from `NewMNotifyRespInd()` returns without error once it
is given six turns of its header loop, the cursor at the end of the input; the decoded
record equals `P` in Type, TransactionID and Version, and its Status and ReportAllowed are
zero: `Decode` has no case for these two headers and skips them. -/
theorem decode_encode_MNotifyRespInd (P : MNotifyRespInd)
    (hType : P.Type_ = typeNotifyrespInd) (hne : P.TransactionID ≠ [])
    (hz : 0 ∉ P.TransactionID) (hq : P.TransactionID.head? ≠ some 0x22)
    (hver : P.Version < 256) (hst : 128 ≤ P.Status ∧ P.Status < 256)
    (hra : 128 ≤ P.ReportAllowed ∧ P.ReportAllowed < 256) (fuel : Nat) (hfuel : 6 ≤ fuel) :
    ∃ octets, NewEncoder.Encode P.reflect = .ok { w := octets } ∧
      Decode fuel (NewDecoder octets) NewMNotifyRespInd.reflect =
        .ok { Data := octets, Offset := octets.length }
          (MNotifyRespInd.reflect
            { Type_ := P.Type_, TransactionID := P.TransactionID, Version := P.Version,
              Status := 0, ReportAllowed := 0 }) := by
  refine ⟨_, Encode_MNotifyRespInd P hne, ?_⟩
  have h1 : P.Type_ % 256 = 0x83 := by rw [hType]; rfl
  have h2 : P.Version % 256 = P.Version := Nat.mod_eq_of_lt hver
  have h3 : P.Status % 256 = P.Status := Nat.mod_eq_of_lt hst.2
  have h4 : P.ReportAllowed % 256 = P.ReportAllowed := Nat.mod_eq_of_lt hra.2
  have h5 : P.Type_ = 0x83 := hType
  rw [h1, h2, h3, h4, Decode_notifyRespOctets P.TransactionID P.Version P.Status P.ReportAllowed
    hz hq hst.1 hra.1 fuel hfuel, h2, h5]
  have e : (P.TransactionID.length : Int) + 10 =
      (([0x8C, 0x83, 0x98] ++ P.TransactionID ++
        [0, 0x8D, P.Version, 0x95, P.Status, 0x91, P.ReportAllowed]).length : Nat) := by
    simp only [List.length_append, List.length_cons, List.length_nil]
    push_cast
    ring
  rw [e]

/-- C1 (amended) at the notify-response with transaction identifier `a`, version 1.1,
status Retrieved and report-allowed Yes. -/
theorem decode_encode_MNotifyRespInd_witness :
    ∃ octets,
      NewEncoder.Encode
          (MNotifyRespInd.reflect
            { Type_ := 0x83, TransactionID := [97], Version := 0x91, Status := 129,
              ReportAllowed := 128 }) = .ok { w := octets } ∧
      Decode 6 (NewDecoder octets) NewMNotifyRespInd.reflect =
        .ok { Data := octets, Offset := octets.length }
          (MNotifyRespInd.reflect
            { Type_ := 0x83, TransactionID := [97], Version := 0x91, Status := 0,
              ReportAllowed := 0 }) :=
  decode_encode_MNotifyRespInd
    { Type_ := 0x83, TransactionID := [97], Version := 0x91, Status := 129, ReportAllowed := 128 }
    rfl (by decide) (by decide) (by decide) (by decide) (by decide) (by decide) 6 (le_refl 6)

/-! ## Integers and media types: what is written and how it is read back -/

/-- What `writeInteger` writes. -/
theorem writeInteger_eq (i : Nat) (hi : i < 2 ^ 64) (enc : Encoder) :
    enc.writeInteger i =
      .ok { w := enc.w ++
        (if i < 128 then [128 + i] else (encodeLong i).length :: encodeLong i) } := by
  by_cases h : i < 128
  · obtain ⟨hor, _, _⟩ := short_octet i h
    have h1 : (128 + i) % 256 = 128 + i := Nat.mod_eq_of_lt (by omega)
    have h80 : i < 0x80 := h
    simp only [Encoder.writeInteger, h80, if_true, Encoder.writeShortInteger,
      Encoder.writeByte, Encoder.writeBytes, hor, h1, h]
    simp
  · have h80 : ¬ i < 0x80 := h
    simp only [Encoder.writeInteger, h80, if_false, writeLongInteger_eq i hi enc, h]

/-- `ReadInteger` on a short integer. -/
theorem ReadInteger_short_at (pre post : List Nat) (c : Nat) (hc : c < 128) (o : Int)
    (ho : o + 1 = pre.length) (pdu : Target) (hdr : String) :
    ReadInteger { Data := pre ++ (128 + c) :: post, Offset := o } pdu hdr =
      returnSet c { Data := pre ++ (128 + c) :: post, Offset := o + 1 } pdu hdr (.uint64 c)
        setterUint64 := by
  obtain ⟨_, h2, h3⟩ := short_octet c hc
  have hb := byteAt_append pre post (128 + c) o (o + 1) ho
  unfold ReadInteger
  dsimp only
  rw [hb]
  dsimp only
  rw [if_pos h2, ReadShortInteger_at pre post (128 + c) o ho, h3, returnSet_nil]

/-- `ReadInteger` on a long integer. -/
theorem ReadInteger_long_at (pre post : List Nat) (i : Nat) (hi : i < 2 ^ 64) (o : Int)
    (ho : o + 1 = pre.length) (pdu : Target) (hdr : String) :
    ReadInteger { Data := pre ++ (encodeLong i).length :: (encodeLong i ++ post), Offset := o }
        pdu hdr =
      returnSet i
        { Data := pre ++ (encodeLong i).length :: (encodeLong i ++ post),
          Offset := o + 1 + (encodeLong i).length } pdu hdr (.uint64 i) setterUint64 := by
  have h8 := encodeLong_length_le i hi
  have hb := byteAt_append pre (encodeLong i ++ post) (encodeLong i).length o (o + 1) ho
  unfold ReadInteger
  dsimp only
  rw [hb]
  dsimp only
  rw [if_neg (by rw [small_and_80 _ (by omega)]; simp),
    ReadLongInteger_at pre post i hi o ho, returnSet_nil]

/-- `ReadInteger` on the octets written by `writeInteger`. -/
theorem ReadInteger_written_at (pre post : List Nat) (i : Nat) (hi : i < 2 ^ 64) (o : Int)
    (ho : o + 1 = pre.length) :
    ReadInteger
        { Data := pre ++
            ((if i < 128 then [128 + i] else (encodeLong i).length :: encodeLong i) ++ post),
          Offset := o } .nil "" =
      .ok i
        { Data := pre ++
            ((if i < 128 then [128 + i] else (encodeLong i).length :: encodeLong i) ++ post),
          Offset := o +
            ((if i < 128 then [128 + i] else (encodeLong i).length :: encodeLong i).length :
              Nat) } .nil := by
  by_cases h : i < 128
  · rw [if_pos h]
    have e : pre ++ ([128 + i] ++ post) = pre ++ (128 + i) :: post := by simp
    rw [e, ReadInteger_short_at pre post i h o ho, returnSet_nil]
    exact Result.ok_congr _ _ _ _ _ (by simp)
  · rw [if_neg h]
    have e : pre ++ ((encodeLong i).length :: encodeLong i ++ post) =
        pre ++ (encodeLong i).length :: (encodeLong i ++ post) := by simp
    rw [e, ReadInteger_long_at pre post i hi o ho, returnSet_nil]
    refine Result.ok_congr _ _ _ _ _ ?_
    simp only [List.length_cons]
    push_cast
    ring

/-- The conversion `int(x)` keeps a value below `2^63`. -/
theorem toInt_small (x : Nat) (hx : x < 2 ^ 63) : toInt x = x := by
  unfold toInt
  rw [if_pos hx]

/-- `ReadMediaType` on a well-known code octet `0x80|c`. -/
theorem ReadMediaType_code_at (pre post : List Nat) (c : Nat) (hc : c < 128) (o : Int)
    (ho : o + 1 = pre.length) (s : Struct) (hdr : String) (old : GoString)
    (hf : s.FieldByName hdr = some (.string old)) :
    ReadMediaType { Data := pre ++ (128 + c) :: post, Offset := o } (.struct s) hdr =
      match contentTypes[c]? with
      | some mediaType =>
        .ok () { Data := pre ++ (128 + c) :: post, Offset := o + 1 }
          (.struct (s.setField hdr (.string mediaType)))
      | none =>
        if (Decoder.byteAt { Data := pre ++ (128 + c) :: post, Offset := o + 1 } o).isSome then
          .error { Data := pre ++ (128 + c) :: post, Offset := o + 1 } (.struct s)
        else .panic := by
  have hb := byteAt_append pre post (128 + c) o (o + 1) ho
  have hb' := byteAt_append pre post (128 + c) (o + 1) (o + 1) ho
  unfold ReadMediaType
  dsimp only
  rw [hb]
  dsimp only
  rw [if_neg (by unfold shortLengthMax lengthQuote; omega)]
  dsimp only [Result.andThen]
  rw [hb]
  dsimp only
  rw [if_neg (by unfold textMax; omega), ReadInteger_short_at pre post c hc o ho, returnSet_nil]
  dsimp only
  rw [toInt_small c (by omega)]
  cases hct : contentTypes[c]? with
  | some mediaType =>
    have hlt : c < contentTypes.length := by
      by_contra hge
      rw [List.getElem?_eq_none (by omega)] at hct
      cases hct
    rw [if_pos (by exact_mod_cast hlt)]
    dsimp only [Result.andThen]
    rw [if_neg (by norm_num), hf]
  | none =>
    have hge : contentTypes.length ≤ c := by
      by_contra hlt
      rw [List.getElem?_eq_getElem (by omega)] at hct
      cases hct
    rw [if_neg (by omega)]
    split_ifs <;> rfl

/-! ## Primitive readers at the end of the input -/

/-- C11: the primitive readers index the input without a bounds check.  With the cursor on
the last octet `ReadByte`, `ReadShortInteger` and `ReadString` fault on `Data[Offset]`; a
uintvar whose last octet has the continuation bit, a long integer of declared length 3 with
one octet left (also through `ReadInteger`) and a length-quote followed by such a uintvar
fault the same way: none of them returns an error value. -/
theorem readers_fault_at_end_of_input :
    ReadByte { Data := [0x8C], Offset := 0 } .nil "" = .panic ∧
    ReadShortInteger { Data := [0x8C], Offset := 0 } .nil "" = .panic ∧
    ReadUintVar { Data := [0x8C, 0x81], Offset := 0 } .nil "" = .panic ∧
    ReadLongInteger { Data := [0x8C, 3, 1], Offset := 0 } .nil "" = .panic ∧
    ReadInteger { Data := [0x8C, 3, 1], Offset := 0 } .nil "" = .panic ∧
    ReadString { Data := [0x8C], Offset := 0 } .nil "" = .panic ∧
    ReadLength { Data := [0x8C, 31, 0x81], Offset := 0 } .nil = .panic := by
  decide

/-! ## Encoded strings and charsets -/

/-- C12: on the Subject value `1E EA` + `Quarterly report for October` + `00` (short-length
30, charset utf-8, a text of 28 octets) `ReadEncodedString` does not take the octet 30 as a
value-length (it compares with `< shortLengthMax`): no charset is read and the result is the
30 octets that start with `1E EA`, not the text.  The same value with the short-length 3
(`03 EA 61 00`) is read as the text `a`. -/
theorem readEncodedString_short_length_30 :
    ReadEncodedString
        { Data := [0x96, 30, 0xEA] ++ lit "Quarterly report for October" ++ [0], Offset := 0 }
        .nil "" =
      .ok ([30, 0xEA] ++ lit "Quarterly report for October")
        { Data := [0x96, 30, 0xEA] ++ lit "Quarterly report for October" ++ [0], Offset := 31 }
        .nil ∧
    ReadEncodedString { Data := [0x96, 3, 0xEA, 97, 0], Offset := 0 } .nil "" =
      .ok [97] { Data := [0x96, 3, 0xEA, 97, 0], Offset := 4 } .nil := by
  decide

/-- C13: `ReadCharset` compares the octet under the cursor, not the next unread one, with
the any-charset token.  In the encoded string `03 80 61 00` the cursor is on the
value-length `03` and the next octet is the token `80`: it is read as the integer 0, which
is no key of the table, and `ReadCharset`, hence `ReadEncodedString`, returns an error
instead of `*`.  With the cursor on an octet `80` it returns `*` and moves onto the next
octet `EA` without having read it. -/
theorem readCharset_tests_octet_under_cursor :
    ReadCharset { Data := [0x96, 3, 0x80, 97, 0], Offset := 1 } .nil "" =
      .error { Data := [0x96, 3, 0x80, 97, 0], Offset := 2 } .nil ∧
    ReadEncodedString { Data := [0x96, 3, 0x80, 97, 0], Offset := 0 } .nil "" =
      .error { Data := [0x96, 3, 0x80, 97, 0], Offset := 2 } .nil ∧
    lookupCharset 0 = none ∧
    ReadCharset { Data := [0x80, 0xEA, 97, 0], Offset := 0 } .nil "" =
      .ok (lit "*") { Data := [0x80, 0xEA, 97, 0], Offset := 1 } .nil := by
  decide

/-! ## Media types -/

/-- No name occurs twice in the table of well-known content types. -/
theorem contentTypes_nodup : contentTypes.Nodup := by decide

/-- The table of well-known content types has 76 entries. -/
theorem contentTypes_length : contentTypes.length = 76 := rfl

/-- In a list without duplicates the first position of the `i`-th element is `i`. -/
theorem indexOf_getElem_of_nodup {α : Type} [BEq α] [LawfulBEq α] (l : List α)
    (H : l.Nodup) (i : Nat) (h : i < l.length) : l.indexOf l[i] = i := by
  induction l generalizing i with
  | nil => simp at h
  | cons b l ih =>
    rw [List.nodup_cons] at H
    cases i with
    | zero => simp [List.indexOf_cons]
    | succ j =>
      have hj : j < l.length := by simpa using h
      have hne : (b == l[j]) = false := by
        rw [beq_eq_false_iff_ne]
        intro e
        exact H.1 (e ▸ List.getElem_mem hj)
      rw [List.getElem_cons_succ, List.indexOf_cons, hne, cond_false, ih H.2 j hj]

/-- `encodeContentType` finds the `i`-th name of the table at `i`. -/
theorem encodeContentType_getElem (i : Nat) (hi : i < contentTypes.length) :
    encodeContentType contentTypes[i] = some i := by
  unfold encodeContentType
  dsimp only
  rw [indexOf_getElem_of_nodup contentTypes contentTypes_nodup i hi, if_pos hi]

/-- Storing a string in the field `MediaType` of an attachment. -/
theorem setField_MediaType (a : Attachment) (m : GoString) :
    (Attachment.reflect a).setField "MediaType" (.string m) =
      Attachment.reflect { a with MediaType := m } := by
  rfl

/-- The field `MediaType` of an attachment. -/
theorem FieldByName_MediaType (a : Attachment) :
    (Attachment.reflect a).FieldByName "MediaType" = some (.string a.MediaType) := by
  rfl

/-- `ReadAttachment` on a well-known code octet goes straight to `ReadMediaType`. -/
theorem ReadAttachment_code_at (pre post : List Nat) (c : Nat) (hc : c < 128) (o : Int)
    (ho : o + 1 = pre.length) (t : Target) :
    ReadAttachment { Data := pre ++ (128 + c) :: post, Offset := o } t =
      ReadMediaType { Data := pre ++ (128 + c) :: post, Offset := o } t "MediaType" := by
  obtain ⟨_, h2, _⟩ := short_octet c hc
  have hb := byteAt_append pre post (128 + c) o (o + 1) ho
  unfold ReadAttachment
  dsimp only
  rw [if_neg (by rw [ho]; simp), hb]
  dsimp only
  rw [if_pos (by unfold shortFilter; exact h2)]

/-- C14: for every index `i` of the table `contentTypes` (which has no duplicate and fewer
than 128 entries), `writeMediaType` of the `i`-th name writes the single octet `0x80 | i`, and
`ReadMediaType` and `ReadAttachment` on that octet store the `i`-th name in `MediaType` and
leave the cursor on the octet; a well-known code `c < 128` that is not an index of the table
makes `ReadMediaType` return an error. -/
theorem wellKnown_mediaType_roundtrip (i : Nat) (hi : i < contentTypes.length) (enc : Encoder)
    (pre post : List Nat) (o : Int) (ho : o + 1 = pre.length) (a : Attachment) :
    contentTypes.Nodup ∧ contentTypes.length < 128 ∧
    (∃ m, contentTypes[i]? = some m ∧
      enc.writeMediaType m = .ok { w := enc.w ++ [0x80 ||| i] } ∧
      ReadMediaType { Data := pre ++ (0x80 ||| i) :: post, Offset := o }
          (.struct (Attachment.reflect a)) "MediaType" =
        .ok () { Data := pre ++ (0x80 ||| i) :: post, Offset := o + 1 }
          (.struct (Attachment.reflect { a with MediaType := m })) ∧
      ReadAttachment { Data := pre ++ (0x80 ||| i) :: post, Offset := o }
          (.struct (Attachment.reflect a)) =
        .ok () { Data := pre ++ (0x80 ||| i) :: post, Offset := o + 1 }
          (.struct (Attachment.reflect { a with MediaType := m }))) ∧
    (∀ c, contentTypes.length ≤ c → c < 128 → 0 ≤ o →
      ReadMediaType { Data := pre ++ (0x80 ||| c) :: post, Offset := o }
          (.struct (Attachment.reflect a)) "MediaType" =
        .error { Data := pre ++ (0x80 ||| c) :: post, Offset := o + 1 }
          (.struct (Attachment.reflect a))) := by
  have hlen := contentTypes_length
  have h128 : i < 128 := by omega
  have hor : 0x80 ||| i = 128 + i := by rw [Nat.lor_comm]; exact (short_octet i h128).1
  have hread : ReadMediaType { Data := pre ++ (0x80 ||| i) :: post, Offset := o }
          (.struct (Attachment.reflect a)) "MediaType" =
        .ok () { Data := pre ++ (0x80 ||| i) :: post, Offset := o + 1 }
          (.struct (Attachment.reflect { a with MediaType := contentTypes[i] })) := by
    rw [hor, ReadMediaType_code_at pre post i h128 o ho _ _ _ (FieldByName_MediaType a),
      List.getElem?_eq_getElem hi]
    dsimp only
    rw [setField_MediaType]
  refine ⟨contentTypes_nodup, by omega, ⟨contentTypes[i], List.getElem?_eq_getElem hi, ?_,
    hread, ?_⟩, ?_⟩
  · unfold Encoder.writeMediaType
    rw [encodeContentType_getElem i hi]
    dsimp only
    rw [writeInteger_eq i (by omega) enc, if_pos h128, hor]
  · rw [← hread, hor]
    exact ReadAttachment_code_at pre post i h128 o ho _
  · intro c hc hc128 ho0
    have horc : 0x80 ||| c = 128 + c := by rw [Nat.lor_comm]; exact (short_octet c hc128).1
    rw [horc, ReadMediaType_code_at pre post c hc128 o ho _ _ _ (FieldByName_MediaType a),
      List.getElem?_eq_none hc]
    dsimp only
    have hsome : (Decoder.byteAt { Data := pre ++ (128 + c) :: post, Offset := o + 1 } o).isSome
        = true := by
      unfold Decoder.byteAt
      dsimp only
      rw [if_neg (by omega)]
      rw [List.getElem?_eq_getElem (by simp; omega)]
      rfl
    rw [if_pos hsome]

/-- C14 at index 35 (`application/vnd.wap.multipart.mixed`, octet `A3`) and at the code 100,
which is not an index of the table. -/
theorem wellKnown_mediaType_roundtrip_witness :
    contentTypes[35]? = some (lit "application/vnd.wap.multipart.mixed") ∧
    NewEncoder.writeMediaType (lit "application/vnd.wap.multipart.mixed") = .ok { w := [0xA3] } ∧
    ReadAttachment { Data := [0x84, 0xA3], Offset := 0 } (.struct (Attachment.reflect {})) =
      .ok () { Data := [0x84, 0xA3], Offset := 1 }
        (.struct (Attachment.reflect
          { MediaType := lit "application/vnd.wap.multipart.mixed" })) ∧
    ReadMediaType { Data := [0x84, 0x80 ||| 100], Offset := 0 } (.struct (Attachment.reflect {}))
        "MediaType" =
      .error { Data := [0x84, 0x80 ||| 100], Offset := 1 } (.struct (Attachment.reflect {})) := by
  obtain ⟨_, _, ⟨m, hm, hw, _, hr⟩, he⟩ :=
    wellKnown_mediaType_roundtrip 35 (by decide) NewEncoder [0x84] [] 0 (by decide) {}
  have hm35 : contentTypes[35]? = some (lit "application/vnd.wap.multipart.mixed") := by decide
  have e : m = lit "application/vnd.wap.multipart.mixed" := by
    rw [hm35] at hm
    exact (Option.some.inj hm).symm
  subst e
  exact ⟨hm35, hw, hr, he 100 (by decide) (by decide) (by decide)⟩

/-- C15: `writeMediaType` writes the octet `len(m)+1` in front of a media type that is not
in the table, not a value-length.  For the 39 octets of
`application/vnd.oasis.opendocument.text` that octet is 40, a text octet: `ReadAttachment`
reads it as the first character and stores `(application/vnd.oasis.opendocument.text`. -/
theorem mediaType_of_39_octets :
    NewEncoder.writeMediaType (lit "application/vnd.oasis.opendocument.text") =
      .ok { w := 40 :: (lit "application/vnd.oasis.opendocument.text" ++ [0]) } ∧
    ReadAttachment
        { Data := 0x84 :: 40 :: (lit "application/vnd.oasis.opendocument.text" ++ [0]),
          Offset := 0 }
        (.struct (Attachment.reflect {})) =
      .ok () { Data := 0x84 :: 40 :: (lit "application/vnd.oasis.opendocument.text" ++ [0]),
               Offset := 41 }
        (.struct (Attachment.reflect
          { MediaType := lit "(application/vnd.oasis.opendocument.text" })) := by
  decide

/-! ## What `Encode` writes -/

/-- C16: for every `MNotifyRespInd` with a non-empty `TransactionID` (the four octet fields
being octets), `Encode` writes exactly `8C`, the type, `98`, the octets of the transaction
identifier, `00`, `8D`, the version, `95`, the status, `91`, the report-allowed octet, in
that order; the `UUID` is not written. -/
theorem encode_MNotifyRespInd_octets (P : MNotifyRespInd) (hne : P.TransactionID ≠ [])
    (hType : P.Type_ < 256) (hVersion : P.Version < 256) (hStatus : P.Status < 256)
    (hReport : P.ReportAllowed < 256) :
    NewEncoder.Encode P.reflect =
      .ok { w := [0x8C, P.Type_, 0x98] ++ P.TransactionID ++
              [0x00, 0x8D, P.Version, 0x95, P.Status, 0x91, P.ReportAllowed] } := by
  rw [Encode_MNotifyRespInd P hne, Nat.mod_eq_of_lt hType, Nat.mod_eq_of_lt hVersion,
    Nat.mod_eq_of_lt hStatus, Nat.mod_eq_of_lt hReport]

/-- C16 at the notify-response with transaction identifier `ABCD`, version 1.2, status
Retrieved and report-allowed Yes, and a `UUID` that leaves no trace in the output. -/
theorem encode_MNotifyRespInd_octets_witness :
    NewEncoder.Encode
        (MNotifyRespInd.reflect
          { UUID := lit "9f3a", Type_ := 0x83, TransactionID := lit "ABCD", Version := 0x92,
            Status := 129, ReportAllowed := 128 }) =
      .ok { w := [0x8C, 0x83, 0x98, 0x41, 0x42, 0x43, 0x44, 0x00, 0x8D, 0x92, 0x95, 0x81,
                  0x91, 0x80] } :=
  encode_MNotifyRespInd_octets
    { UUID := lit "9f3a", Type_ := 0x83, TransactionID := lit "ABCD", Version := 0x92,
      Status := 129, ReportAllowed := 128 }
    (by decide) (by decide) (by decide) (by decide) (by decide)

/-- C17: the optional octet fields are written also when they are zero.  A notify-response
with `ReportAllowed` 0 ends with the header `91 00`, and a send request whose `Class`,
`DeliveryReport` and `ReadReport` are 0 carries the headers `8A 00`, `86 00` and `90 00`. -/
theorem encode_writes_zero_optional_fields :
    NewEncoder.Encode
        (MNotifyRespInd.reflect
          { Type_ := 0x83, TransactionID := [97], Version := 0x91, Status := 129,
            ReportAllowed := 0 }) =
      .ok { w := [0x8C, 0x83, 0x98, 97, 0, 0x8D, 0x91, 0x95, 129, 0x91, 0] } ∧
    NewEncoder.Encode
        (MSendReq.reflect
          { Type_ := 0x80, TransactionID := [97], Version := 0x91, Class := 0,
            DeliveryReport := 0, ReadReport := 0,
            ContentType := lit "application/vnd.wap.multipart.mixed" }) =
      .ok { w := [0x8C, 0x80, 0x98, 97, 0, 0x8D, 0x91, 0x89, 1, 0x81, 0x8A, 0, 0x86, 0,
                  0x90, 0, 0x84, 0xA3, 0] } := by
  decide

/-- C18 refuted: two send requests that differ only in `Subject` (`hello` and `bye`) encode
to the same octets, and these hold no Subject header `96`. -/
theorem sendReq_subject_not_written :
    NewEncoder.Encode
        (MSendReq.reflect
          { Type_ := 0x80, TransactionID := [97], Version := 0x91, Subject := lit "hello",
            Class := 0x80, DeliveryReport := 0x81, ReadReport := 0x81,
            ContentType := lit "application/vnd.wap.multipart.mixed" }) =
      .ok { w := [0x8C, 0x80, 0x98, 97, 0, 0x8D, 0x91, 0x89, 1, 0x81, 0x8A, 0x80, 0x86, 0x81,
                  0x90, 0x81, 0x84, 0xA3, 0] } ∧
    NewEncoder.Encode
        (MSendReq.reflect
          { Type_ := 0x80, TransactionID := [97], Version := 0x91, Subject := lit "bye",
            Class := 0x80, DeliveryReport := 0x81, ReadReport := 0x81,
            ContentType := lit "application/vnd.wap.multipart.mixed" }) =
      .ok { w := [0x8C, 0x80, 0x98, 97, 0, 0x8D, 0x91, 0x89, 1, 0x81, 0x8A, 0x80, 0x86, 0x81,
                  0x90, 0x81, 0x84, 0xA3, 0] } ∧
    lit "hello" ≠ lit "bye" := by
  decide

/-- C18 (amended): `Encode` has no case for the field `Subject` of a send request, which is
optional and therefore passed over: the result of `Encode`, octets written or error, is the
same whatever the `Subject`. -/
theorem encode_ignores_subject (r : MSendReq) (s : GoString) (enc : Encoder) :
    enc.Encode (MSendReq.reflect { r with Subject := s }) = enc.Encode (MSendReq.reflect r) := by
  rfl

/-! ## The Expiry header -/

/-- What `writeRelativeExpiry` writes. -/
theorem writeRelativeExpiry_eq (e : Nat) (h64 : e < 2 ^ 64) (enc : Encoder) :
    enc.writeRelativeExpiry e =
      .ok { w := enc.w ++ ([0x88, (encodeLong e).length + 2, 129, (encodeLong e).length] ++
              encodeLong e) } := by
  have h8 := encodeLong_length_le e h64
  have h1 : ((encodeLong e).length + 2) % 256 = (encodeLong e).length + 2 :=
    Nat.mod_eq_of_lt (by omega)
  have h2 : (encodeLong e).length % 256 = (encodeLong e).length := Nat.mod_eq_of_lt (by omega)
  simp [Encoder.writeRelativeExpiry, Encoder.setParam, Encoder.writeByte, Encoder.writeBytes,
    WriteResult.andThen, HeaderXMmsExpiry, ExpiryTokenRelative, h1, h2]

/-- C19: for every expiry `e > 0` (a `uint64`), `writeRelativeExpiry` writes the tag `88`,
the value-length octet `n + 2`, the relative token 129, the octet `n` and the `n` big-endian
octets of `e`, where `n = ⌈bits(e)/8⌉` is the number of significant bytes of `e`; `n + 2`
octets follow the value-length octet; the Expiry case of `Encode` calls it for `e > 0` and
writes nothing for `e = 0`. -/
theorem writeRelativeExpiry_octets (e : Nat) (he : 0 < e) (h64 : e < 2 ^ 64) (enc : Encoder)
    (writeAttachments : Encoder → List Attachment → WriteResult) (pdu : Struct)
    (tag : String) :
    enc.writeRelativeExpiry e =
      .ok { w := enc.w ++ ([0x88, (encodeLong e).length + 2, 129, (encodeLong e).length] ++
              encodeLong e) } ∧
    (encodeLong e).length = (Nat.size e + 7) / 8 ∧
    bigEndianValue (encodeLong e) = e ∧
    ([129, (encodeLong e).length] ++ encodeLong e).length = (encodeLong e).length + 2 ∧
    (tag ≠ "no" →
      encodeField writeAttachments enc pdu ⟨"Expiry", tag, .uint64 e⟩ =
        enc.writeRelativeExpiry e) ∧
    encodeField writeAttachments enc pdu ⟨"Expiry", tag, .uint64 0⟩ = .ok enc := by
  obtain ⟨hlen, _, _, hval, _⟩ := encodeLong_spec e h64
  refine ⟨writeRelativeExpiry_eq e h64 enc, hlen, hval, by simp, ?_, ?_⟩
  · intro htag
    simp [encodeField, htag, Value.Uint, he]
  · by_cases htag : tag = "no"
    · simp [encodeField, htag]
    · simp [encodeField, htag, Value.Uint]

/-- C19 at seven days, 604800 s = `09 3A 80`, as the field `Expiry` of a send request. -/
theorem writeRelativeExpiry_octets_witness :
    NewEncoder.writeRelativeExpiry 604800 = .ok { w := [0x88, 5, 0x81, 3, 0x09, 0x3A, 0x80] } ∧
    (encodeLong 604800).length = (Nat.size 604800 + 7) / 8 ∧
    bigEndianValue (encodeLong 604800) = 604800 ∧
    encodeField Encoder.writeAttachments NewEncoder (MSendReq.reflect {})
        ⟨"Expiry", "optional", .uint64 604800⟩ =
      NewEncoder.writeRelativeExpiry 604800 ∧
    encodeField Encoder.writeAttachments NewEncoder (MSendReq.reflect {})
      ⟨"Expiry", "optional", .uint64 0⟩ = .ok NewEncoder :=
  have h := writeRelativeExpiry_octets 604800 (by norm_num) (by norm_num) NewEncoder
    Encoder.writeAttachments (MSendReq.reflect {}) "optional"
  ⟨h.1, h.2.1, h.2.2.1, h.2.2.2.2.1 (by decide), h.2.2.2.2.2⟩

/-- C20: the Expiry case of `Decode` takes the length octet of the long integer as its first
value octet and stops one octet early.  On the header `88 04 81 02 03 E8` that the encoder
writes for an expiry of 1000 s, `Decode` stores `Expiry = 515` (`02 03`), with the cursor
moved past the header as expected. -/
theorem decode_expiry_written_for_1000 :
    NewEncoder.writeRelativeExpiry 1000 = .ok { w := [0x88, 4, 0x81, 2, 0x03, 0xE8] } ∧
    Decode 3 (NewDecoder [0x8C, 0x82, 0x88, 4, 0x81, 2, 0x03, 0xE8])
        (NewMNotificationInd []).reflect =
      .ok { Data := [0x8C, 0x82, 0x88, 4, 0x81, 2, 0x03, 0xE8], Offset := 8 }
        (MNotificationInd.reflect { Type_ := 0x82, Expiry := 515 }) := by
  decide

/-! ## Encoded strings and media types on which the readers agree with the writers -/

/-- `ReadCharset` with the cursor on an octet `b` other than 128, followed by the octets
that `writeInteger` writes for a code of the charset table. -/
theorem ReadCharset_written_at (pre post : List Nat) (b : Nat) (hb : b ≠ 128) (c : Nat)
    (hc : c < 2 ^ 64) (name : GoString) (hname : lookupCharset c = some name) (o : Int)
    (ho : o = pre.length) :
    ReadCharset
        { Data := pre ++ b ::
            ((if c < 128 then [128 + c] else (encodeLong c).length :: encodeLong c) ++ post),
          Offset := o } .nil "" =
      .ok name
        { Data := pre ++ b ::
            ((if c < 128 then [128 + c] else (encodeLong c).length :: encodeLong c) ++ post),
          Offset := o +
            ((if c < 128 then [128 + c] else (encodeLong c).length :: encodeLong c).length :
              Nat) } .nil := by
  have hcur := byteAt_append pre
    ((if c < 128 then [128 + c] else (encodeLong c).length :: encodeLong c) ++ post) b o o ho
  have e : pre ++ b ::
      ((if c < 128 then [128 + c] else (encodeLong c).length :: encodeLong c) ++ post) =
      (pre ++ [b]) ++
        ((if c < 128 then [128 + c] else (encodeLong c).length :: encodeLong c) ++ post) := by
    simp
  unfold ReadCharset
  dsimp only
  rw [hcur]
  dsimp only
  rw [if_neg (by unfold anyCharset; exact hb), e,
    ReadInteger_written_at (pre ++ [b]) post c hc o (by simp; omega)]
  dsimp only
  rw [hname]
  rfl

/-- The octets that `writeInteger` writes into an empty buffer. -/
theorem writeInteger_new (c : Nat) (hc : c < 2 ^ 64) (cs : List Nat)
    (hw : NewEncoder.writeInteger c = .ok { w := cs }) :
    cs = if c < 128 then [128 + c] else (encodeLong c).length :: encodeLong c := by
  rw [writeInteger_eq c hc NewEncoder] at hw
  have h := congrArg (fun r => match r with | WriteResult.ok e => e.w | _ => []) hw
  simpa [NewEncoder] using h.symm

/-- `ReadEncodedString` on a short-length `1..29`, a charset code of the table as written
by `writeInteger`, and a zero-terminated text: the text is returned, the cursor is on the
terminator. -/
theorem ReadEncodedString_short_at (pre post t cs : List Nat) (L c : Nat) (hL0 : L ≠ 0)
    (hL : L < 30) (hc : c < 2 ^ 64) (hw : NewEncoder.writeInteger c = .ok { w := cs })
    (name : GoString) (hname : lookupCharset c = some name)
    (ht : 0 ∉ t) (hq : t.head? ≠ some 34) (o : Int) (ho : o + 1 = pre.length)
    (pdu : Target) (hdr : String) :
    ReadEncodedString { Data := pre ++ L :: (cs ++ (t ++ 0 :: post)), Offset := o } pdu hdr =
      returnSet t
        { Data := pre ++ L :: (cs ++ (t ++ 0 :: post)),
          Offset := o + 1 + (cs.length : Nat) + 1 + t.length } pdu hdr (.string t)
        setterString := by
  have hcs := writeInteger_new c hc cs hw
  subst hcs
  have e : pre ++ L ::
      ((if c < 128 then [128 + c] else (encodeLong c).length :: encodeLong c) ++
        (t ++ 0 :: post)) =
      (pre ++ L :: (if c < 128 then [128 + c] else (encodeLong c).length :: encodeLong c)) ++
        (t ++ 0 :: post) := by simp
  unfold ReadEncodedString
  dsimp only
  rw [byteAt_append pre _ L o (o + 1) ho]
  dsimp only
  rw [if_pos (by unfold shortLengthMax; exact hL), ReadShortInteger_at pre _ L o ho,
    returnSet_nil]
  dsimp only
  rw [and_7f_le_30 L (by omega), if_pos hL0,
    ReadCharset_written_at pre (t ++ 0 :: post) L (by omega) c hc name hname (o + 1) ho]
  dsimp only
  rw [e, ReadString_at _ t post _ (by simp; omega) ht hq]

/-- `ReadEncodedString` on the length-quote 31 followed by a uintvar other than 0, a charset
code of the table as written by `writeInteger`, and a zero-terminated text. -/
theorem ReadEncodedString_quote_at (pre post t cs : List Nat) (v c : Nat) (hv0 : v ≠ 0)
    (hv : v < 2 ^ 64) (hc : c < 2 ^ 64) (hw : NewEncoder.writeInteger c = .ok { w := cs })
    (name : GoString) (hname : lookupCharset c = some name)
    (ht : 0 ∉ t) (hq : t.head? ≠ some 34) (o : Int) (ho : o + 1 = pre.length)
    (pdu : Target) (hdr : String) :
    ReadEncodedString
        { Data := pre ++ 31 :: (uintVarOctets v ++ (cs ++ (t ++ 0 :: post))), Offset := o }
        pdu hdr =
      returnSet t
        { Data := pre ++ 31 :: (uintVarOctets v ++ (cs ++ (t ++ 0 :: post))),
          Offset := o + 1 + (uintVarOctets v).length + (cs.length : Nat) + 1 + t.length }
        pdu hdr (.string t) setterString := by
  have hcs := writeInteger_new c hc cs hw
  subst hcs
  obtain ⟨p, hp, _⟩ := uintVarOctets_spec v hv
  have hmod : v % 128 < 128 := Nat.mod_lt _ (by norm_num)
  have e1 : pre ++ 31 :: (uintVarOctets v ++
      ((if c < 128 then [128 + c] else (encodeLong c).length :: encodeLong c) ++
        (t ++ 0 :: post))) =
      (pre ++ [31]) ++ (uintVarOctets v ++
        ((if c < 128 then [128 + c] else (encodeLong c).length :: encodeLong c) ++
          (t ++ 0 :: post))) := by simp
  have e2 : (pre ++ [31]) ++ (uintVarOctets v ++
        ((if c < 128 then [128 + c] else (encodeLong c).length :: encodeLong c) ++
          (t ++ 0 :: post))) =
      (pre ++ 31 :: p) ++ (v % 128) ::
        ((if c < 128 then [128 + c] else (encodeLong c).length :: encodeLong c) ++
          (t ++ 0 :: post)) := by rw [hp]; simp
  have e3 : (pre ++ 31 :: p) ++ (v % 128) ::
        ((if c < 128 then [128 + c] else (encodeLong c).length :: encodeLong c) ++
          (t ++ 0 :: post)) =
      ((pre ++ 31 :: p) ++ (v % 128) ::
        (if c < 128 then [128 + c] else (encodeLong c).length :: encodeLong c)) ++
          (t ++ 0 :: post) := by simp
  have hlen : ((uintVarOctets v).length : Int) = p.length + 1 := by rw [hp]; simp
  unfold ReadEncodedString
  dsimp only
  rw [byteAt_append pre _ 31 o (o + 1) ho]
  dsimp only
  rw [if_neg (by unfold shortLengthMax; norm_num), if_pos (by rfl), e1,
    ReadUintVar_at (pre ++ [31]) _ v hv (o + 1) (by simp; omega), returnSet_nil]
  dsimp only
  rw [if_pos hv0, e2,
    ReadCharset_written_at (pre ++ 31 :: p) (t ++ 0 :: post) (v % 128) (by omega) c hc name
      hname (o + 1 + (uintVarOctets v).length) (by rw [hlen]; simp; omega)]
  dsimp only
  rw [e3, ReadString_at _ t post _ (by rw [hlen]; simp; omega) ht hq]

/-- `ReadEncodedString` on the value-length 0: the text-string that follows is read, no
charset. -/
theorem ReadEncodedString_zero_at (pre post t : List Nat) (ht : 0 ∉ t)
    (hq : t.head? ≠ some 34) (o : Int) (ho : o + 1 = pre.length) (pdu : Target)
    (hdr : String) :
    ReadEncodedString { Data := pre ++ 0 :: (t ++ 0 :: post), Offset := o } pdu hdr =
      returnSet t { Data := pre ++ 0 :: (t ++ 0 :: post), Offset := o + 1 + 1 + t.length }
        pdu hdr (.string t) setterString := by
  have e : pre ++ 0 :: (t ++ 0 :: post) = (pre ++ [0]) ++ (t ++ 0 :: post) := by simp
  unfold ReadEncodedString
  dsimp only
  rw [byteAt_append pre _ 0 o (o + 1) ho]
  dsimp only
  rw [if_pos (by unfold shortLengthMax; norm_num), ReadShortInteger_at pre _ 0 o ho,
    returnSet_nil]
  dsimp only
  rw [if_neg (by decide), e, ReadString_at _ t post _ (by simp; omega) ht hq]

/-- `ReadEncodedString` when the next octet is neither below 30 nor the length-quote 31: it
is `ReadString` at the same cursor.  This is the case of a bare text-string, and also of the
short-length 30. -/
theorem ReadEncodedString_text_at (dec : Decoder) (b : Nat)
    (hb : dec.byteAt (dec.Offset + 1) = some b) (h30 : 30 ≤ b) (h31 : b ≠ 31) (pdu : Target)
    (hdr : String) :
    ReadEncodedString dec pdu hdr = ReadString dec pdu hdr := by
  unfold ReadEncodedString
  dsimp only
  rw [hb]
  dsimp only
  rw [if_neg (by unfold shortLengthMax; omega), if_neg (by unfold lengthQuote; exact h31)]
  dsimp only
  rw [if_neg (by simp)]

/-- `ReadMediaType` on a zero-terminated text that starts with a text octet other than the
quote: the text is stored in the field, the cursor is on the terminator. -/
theorem ReadMediaType_text_at (pre post m : List Nat) (b : Nat) (hb : m.head? = some b)
    (hlo : 32 ≤ b) (hhi : b ≤ 127) (hq : b ≠ 34) (hz : 0 ∉ m) (o : Int)
    (ho : o + 1 = pre.length) (s : Struct) (hdr : String) (old : GoString)
    (hf : s.FieldByName hdr = some (.string old)) :
    ReadMediaType { Data := pre ++ (m ++ 0 :: post), Offset := o } (.struct s) hdr =
      .ok () { Data := pre ++ (m ++ 0 :: post), Offset := o + 1 + m.length }
        (.struct (s.setField hdr (.string m))) := by
  obtain ⟨rest, hm⟩ : ∃ rest, m ++ 0 :: post = b :: rest := by
    cases m with
    | nil => simp at hb
    | cons a t =>
      simp only [List.head?_cons, Option.some.injEq] at hb
      exact ⟨t ++ 0 :: post, by rw [hb]; rfl⟩
  have hbyte : Decoder.byteAt { Data := pre ++ (m ++ 0 :: post), Offset := o } (o + 1) =
      some b := by
    rw [hm]; exact byteAt_append pre rest b o (o + 1) ho
  have hq' : m.head? ≠ some 34 := by
    rw [hb]; intro h; exact hq (Option.some.inj h)
  unfold ReadMediaType
  dsimp only
  rw [hbyte]
  dsimp only
  rw [if_neg (by unfold shortLengthMax lengthQuote; omega)]
  dsimp only [Result.andThen]
  rw [hbyte]
  dsimp only
  rw [if_pos (by unfold textMin textMax; omega), ReadString_at pre m post o ho hz hq',
    returnSet_nil]
  dsimp only
  rw [if_neg (by norm_num), hf]

/-- Storing a length in the field `Length` of an attachment. -/
theorem setUintField_Length (a : Attachment) (v : Nat) :
    setUintField (Attachment.reflect a) "Length" v =
      some (Attachment.reflect { a with Length := v }) := by
  rfl

/-- The sum `int(length) + dec.Offset` when it does not overflow. -/
theorem wrapInt_small (i : Int) (h0 : 0 ≤ i) (h : i < 2 ^ 63) : wrapInt i = i := by
  unfold wrapInt
  omega

/-- `ReadAttachment` on what `writeMediaType` writes for a media type of at most 29 octets
that is not in the table and starts with a text octet other than the quote: the octet
`len(m)+1` is read as the value-length (stored in `Length`), the media type is stored in
`MediaType`, and the cursor is on the terminator. -/
theorem ReadAttachment_written_text_at (pre post m : List Nat) (b : Nat)
    (hb : m.head? = some b) (hlo : 32 ≤ b) (hhi : b ≤ 127) (hq : b ≠ 34) (hz : 0 ∉ m)
    (hlen : m.length ≤ 29) (hpre : pre.length < 2 ^ 62) (o : Int) (ho : o + 1 = pre.length)
    (a : Attachment) :
    ReadAttachment { Data := pre ++ (m.length + 1) :: (m ++ 0 :: post), Offset := o }
        (.struct (Attachment.reflect a)) =
      .ok () { Data := pre ++ (m.length + 1) :: (m ++ 0 :: post),
               Offset := o + 1 + 1 + m.length }
        (.struct (Attachment.reflect { a with Length := m.length + 1, MediaType := m })) := by
  have hbyte := byteAt_append pre (m ++ 0 :: post) (m.length + 1) o (o + 1) ho
  have e : pre ++ (m.length + 1) :: (m ++ 0 :: post) =
      (pre ++ [m.length + 1]) ++ (m ++ 0 :: post) := by simp
  unfold ReadAttachment
  dsimp only
  rw [if_neg (by simp; omega), hbyte]
  dsimp only
  rw [if_neg (by unfold shortFilter; rw [small_and_80 _ (by omega)]; simp),
    if_neg (by unfold textMin; omega)]
  unfold ReadLength
  dsimp only
  rw [hbyte]
  dsimp only
  rw [if_pos (by rw [and_7f_le_30 _ (by omega)]; unfold shortLengthMax; omega),
    ReadShortInteger_at pre _ (m.length + 1) o ho, returnSet_nil]
  dsimp only [Result.andThen]
  rw [and_7f_le_30 _ (by omega), setUintField_Length]
  dsimp only
  rw [e, ReadMediaType_text_at (pre ++ [m.length + 1]) post m b hb hlo hhi hq hz (o + 1)
    (by simp; omega) _ _ _ (FieldByName_MediaType _), setField_MediaType]
  dsimp only
  rw [toInt_small _ (by omega), wrapInt_small _ (by omega) (by omega)]
  unfold readAttachmentLoop
  rw [if_neg (by push_cast; omega)]

/-! ## The From header -/

/-- What `writeFrom` writes. -/
theorem writeFrom_eq (enc : Encoder) :
    enc.writeFrom = .ok { w := enc.w ++ [0x89, 0x01, 0x81] } := by
  simp [Encoder.writeFrom, Encoder.setParam, Encoder.writeByte, Encoder.writeBytes,
    WriteResult.andThen, HeaderFrom, tokenInsertAddress]

/-- The octet at position `pre.length` of `pre ++ b :: rest`, for a list given by an
equation. -/
theorem byteAt_of_eq (d pre rest : List Nat) (b : Nat) (o i : Int) (hd : d = pre ++ b :: rest)
    (hi : i = pre.length) : Decoder.byteAt { Data := d, Offset := o } i = some b := by
  subst hd
  exact byteAt_append pre rest b o i hi

/-- The case `HeaderFrom` of `Decode` on the insert-address token. -/
theorem decodeStep_from_insert (pre post : List Nat) (pdu : Struct) :
    decodeStep { Data := pre ++ ([0x89, 0x01, 0x81] ++ post), Offset := pre.length } pdu =
      .next true { Data := pre ++ ([0x89, 0x01, 0x81] ++ post), Offset := (pre.length : Int) + 2 }
        pdu := by
  generalize hD : pre ++ ([0x89, 0x01, 0x81] ++ post) = D
  have h1 : ∀ o, Decoder.byteAt { Data := D, Offset := o } ((pre.length : Int) + 1) = some 1 :=
    fun o => byteAt_of_eq D (pre ++ [0x89]) (0x81 :: post) 1 o _ (by rw [← hD]; simp)
      (by simp)
  have h2 : ∀ o, Decoder.byteAt { Data := D, Offset := o } ((pre.length : Int) + 1 + 1) =
      some 0x81 :=
    fun o => byteAt_of_eq D (pre ++ [0x89, 1]) post 0x81 o _ (by rw [← hD]; simp)
      (by simp; ring)
  rw [decodeStep_wellKnown D pre ([0x01, 0x81] ++ post) 0x89 0x09 _ (by rw [← hD]; rfl) rfl
    (by decide) (by decide)]
  unfold decodeHeader
  rw [if_neg (by decide), if_pos (by rfl)]
  unfold decodeFrom
  dsimp only
  rw [h1]
  dsimp only
  rw [h2]
  dsimp only
  rw [if_pos (by rfl)]
  congr 1

/-- The loop of `Encode` over two lists of fields in a row. -/
theorem encodeFields_append (wa : Encoder → List Attachment → WriteResult) (pdu : Struct)
    (l1 l2 : List Field) (enc : Encoder) :
    encodeFields wa enc pdu (l1 ++ l2) =
      (encodeFields wa enc pdu l1).andThen fun e => encodeFields wa e pdu l2 := by
  induction l1 generalizing enc with
  | nil => rfl
  | cons f rest ih =>
    simp only [List.cons_append, encodeFields]
    cases encodeField wa enc pdu f with
    | ok e => simp only [WriteResult.andThen]; exact ih e
    | error e => rfl
    | panic => rfl

/-- C21: in `Encode` of a send request the field `From` (the sixth field) is written by
`writeFrom` as the three octets `89 01 81` between what the fields before and after it
write, whatever the field holds; the turn of `Decode` on these three octets leaves the
record as it is (so the `From` of a fresh record stays empty) with the cursor on the third
of them, and the loop goes on with the octet after it. -/
theorem from_insert_address (r : MSendReq) (enc : Encoder) (pre post : List Nat)
    (pdu : Struct) (fuel : Nat) :
    (MSendReq.reflect r).fields[5]? = some ⟨"From", "", .string r.From⟩ ∧
    (enc.Encode (MSendReq.reflect r) =
      (encodeFields Encoder.writeAttachments enc (MSendReq.reflect r)
          ((MSendReq.reflect r).fields.take 5)).andThen fun e =>
        encodeFields Encoder.writeAttachments { w := e.w ++ [0x89, 0x01, 0x81] }
          (MSendReq.reflect r) ((MSendReq.reflect r).fields.drop 6)) ∧
    (∀ s, enc.Encode (MSendReq.reflect { r with From := s }) =
        enc.Encode (MSendReq.reflect r)) ∧
    decodeStep { Data := pre ++ ([0x89, 0x01, 0x81] ++ post), Offset := pre.length } pdu =
      .next true { Data := pre ++ ([0x89, 0x01, 0x81] ++ post), Offset := (pre.length : Int) + 2 }
        pdu ∧
    decodeLoop (fuel + 1)
        { Data := pre ++ ([0x89, 0x01, 0x81] ++ post), Offset := pre.length } pdu true =
      decodeLoop fuel
        { Data := pre ++ ([0x89, 0x01, 0x81] ++ post), Offset := (pre.length : Int) + 3 } pdu
        true ∧
    Decode 3 (NewDecoder [0x8C, 0x82, 0x89, 0x01, 0x81]) (NewMNotificationInd []).reflect =
      .ok { Data := [0x8C, 0x82, 0x89, 0x01, 0x81], Offset := 5 }
        (MNotificationInd.reflect { Type_ := 0x82, From := [] }) := by
  refine ⟨rfl, ?_, fun s => rfl, decodeStep_from_insert pre post pdu, ?_, by decide⟩
  · have hsplit : (MSendReq.reflect r).fields =
        (MSendReq.reflect r).fields.take 5 ++
          (⟨"From", "", .string r.From⟩ :: (MSendReq.reflect r).fields.drop 6) := rfl
    have hfrom : ∀ e : Encoder,
        encodeField Encoder.writeAttachments e (MSendReq.reflect r)
          ⟨"From", "", .string r.From⟩ = .ok { w := e.w ++ [0x89, 0x01, 0x81] } :=
      fun e => writeFrom_eq e
    unfold Encoder.Encode
    rw [hsplit, encodeFields_append]
    congr 1
    funext e
    rw [encodeFields, hfrom e]
    rfl
  · exact decodeLoop_next fuel _ _ _ _ pdu pdu true (by simp; omega)
      (decodeStep_from_insert pre post pdu) (by ring)

/-! ## The Message-Type and Content-Location headers -/

/-- The loop of `Decode` stops when `moreHdrToRead` is false. -/
theorem decodeLoop_stop (fuel : Nat) (dec : Decoder) (pdu : Struct) :
    decodeLoop (fuel + 1) dec pdu false = .ok dec pdu := by
  rw [decodeLoop, if_neg (by simp)]

/-- The first turn of `Decode` on an input that starts with a Message-Type header. -/
theorem decodeStep_messageType (pdu : Struct) (T t : Nat) (rest : List Nat)
    (hT : pdu.FieldByName "Type" = some (.uint8 T)) (hb : T < 256) :
    decodeStep { Data := 0x8C :: t :: rest, Offset := 0 } pdu =
      if t ≠ T then .error { Data := 0x8C :: t :: rest, Offset := 1 } pdu
      else .next true { Data := 0x8C :: t :: rest, Offset := 1 } pdu := by
  rw [decodeStep_wellKnown (0x8C :: t :: rest) [] (t :: rest) 0x8C 0x0C 0 rfl rfl (by decide)
    (by decide), decodeHeader_messageType]
  unfold decodeMessageType
  dsimp only
  rw [hT]
  dsimp only
  rw [byteAt_of_eq (0x8C :: t :: rest) [0x8C] rest t _ _ rfl (by simp), Nat.mod_eq_of_lt hb]
  rfl

/-- `ReadString` on a zero-terminated text, with or without a leading quote: the quote is
dropped, the cursor is on the terminator. -/
theorem ReadString_any_at (pre s post : List Nat) (o : Int) (ho : o + 1 = pre.length)
    (hs : 0 ∉ s) (pdu : Target) (hdr : String) :
    ReadString { Data := pre ++ (s ++ 0 :: post), Offset := o } pdu hdr =
      returnSet (if s.head? = some 34 then s.tail else s)
        { Data := pre ++ (s ++ 0 :: post), Offset := o + 1 + s.length } pdu hdr
        (.string (if s.head? = some 34 then s.tail else s)) setterString := by
  by_cases hq : s.head? = some 34
  · rw [if_pos hq]
    obtain ⟨t, rfl⟩ : ∃ t, s = 34 :: t := by
      cases s with
      | nil => simp at hq
      | cons a t =>
        simp only [List.head?_cons, Option.some.injEq] at hq
        exact ⟨t, by rw [hq]⟩
    have ht : 0 ∉ t := fun h => hs (List.mem_cons_of_mem _ h)
    have h := ReadString_quoted_at pre t post o ho ht pdu hdr
    have e : pre ++ (34 :: t ++ 0 :: post) = pre ++ 34 :: (t ++ 0 :: post) := by simp
    have e2 : o + 1 + ((34 :: t).length : Nat) = o + 1 + 1 + t.length := by
      simp only [List.length_cons]
      push_cast
      ring
    rw [e, h, List.tail_cons, e2]
  · rw [if_neg hq]
    exact ReadString_at pre s post o ho hs hq pdu hdr

theorem decodeHeader_contentLocation (dec : Decoder) (pdu : Struct) :
    decodeHeader 0x03 dec pdu =
      (ReadString dec (.struct pdu) "ContentLocation").toStep pdu false := rfl

/-- The turn of `Decode` on a Content-Location header of a notification: the text is
stored and `moreHdrToRead` becomes false. -/
theorem decodeStep_contentLocation (p : MNotificationInd) (pre loc post : List Nat)
    (hz : 0 ∉ loc) :
    decodeStep { Data := pre ++ 0x83 :: (loc ++ 0 :: post), Offset := pre.length }
        (MNotificationInd.reflect p) =
      .next false
        { Data := pre ++ 0x83 :: (loc ++ 0 :: post), Offset := (pre.length : Int) + 1 + loc.length }
        (MNotificationInd.reflect
          { p with ContentLocation := if loc.head? = some 34 then loc.tail else loc }) := by
  have e : pre ++ 0x83 :: (loc ++ 0 :: post) = (pre ++ [0x83]) ++ (loc ++ 0 :: post) := by simp
  rw [decodeStep_wellKnown _ pre (loc ++ 0 :: post) 0x83 0x03 _ rfl rfl (by decide) (by decide),
    decodeHeader_contentLocation, e,
    ReadString_any_at (pre ++ [0x83]) loc post _ (by simp) hz]
  rfl

/-- The first turn of `Decode` into a fresh notification on an input that starts with the
Message-Type header of a notification. -/
theorem decode_messageType_step (uuid rest : List Nat) (fuel : Nat) :
    Decode (fuel + 1) (NewDecoder ([0x8C, 0x82] ++ rest)) (NewMNotificationInd uuid).reflect =
      decodeLoop fuel { Data := [0x8C, 0x82] ++ rest, Offset := (([0x8C, 0x82] : List Nat).length : Nat) }
        (NewMNotificationInd uuid).reflect true := by
  have hstep := decodeStep_messageType (NewMNotificationInd uuid).reflect 0x82 0x82 rest rfl
    (by decide)
  rw [if_neg (by simp)] at hstep
  unfold Decode NewDecoder
  exact decodeLoop_next fuel _ 0 1 2 _ _ true (by simp; omega) hstep (by norm_num)

/-- C22 refuted: an input whose type octet `82` is the declared type of the notification it
is decoded into makes `Decode` return an error all the same, here for the unknown token
`55` of its From header. -/
theorem decode_error_with_matching_type :
    (NewMNotificationInd []).Type_ = 0x82 ∧
    Decode 3 (NewDecoder [0x8C, 0x82, 0x89, 0x01, 0x55]) (NewMNotificationInd []).reflect =
      .error { Data := [0x8C, 0x82, 0x89, 0x01, 0x55], Offset := 4 }
        (NewMNotificationInd []).reflect := by
  decide

/-- C22 (amended): on an input that starts with a Message-Type header `8C t`, `Decode`
into a record whose field `Type` holds `T` returns an error when `t ≠ T`, with the cursor
on the type octet and the record unchanged, so that no later header is decoded; when
`t = T` the header raises no error and `Decode` goes on with the header at offset 2.  The
declared types are `82`, `84`, `81` and `83` for the records of `NewMNotificationInd`,
`NewMRetrieveConf`, `NewMSendConf` and `NewMNotifyRespInd`. -/
theorem decode_messageType_checked (pdu : Struct) (T t : Nat) (rest uuid : List Nat)
    (fuel : Nat) (hT : pdu.FieldByName "Type" = some (.uint8 T)) (hb : T < 256) :
    (t ≠ T →
      Decode (fuel + 1) (NewDecoder (0x8C :: t :: rest)) pdu =
        .error { Data := 0x8C :: t :: rest, Offset := 1 } pdu) ∧
    (t = T →
      Decode (fuel + 1) (NewDecoder (0x8C :: t :: rest)) pdu =
        decodeLoop fuel { Data := 0x8C :: t :: rest, Offset := 2 } pdu true) ∧
    (NewMNotificationInd uuid).reflect.FieldByName "Type" = some (.uint8 0x82) ∧
    (NewMRetrieveConf uuid).reflect.FieldByName "Type" = some (.uint8 0x84) ∧
    NewMSendConf.reflect.FieldByName "Type" = some (.uint8 0x81) ∧
    NewMNotifyRespInd.reflect.FieldByName "Type" = some (.uint8 0x83) := by
  have hstep := decodeStep_messageType pdu T t rest hT hb
  refine ⟨fun hne => ?_, fun heq => ?_, rfl, rfl, rfl, rfl⟩
  · rw [if_pos hne] at hstep
    unfold Decode NewDecoder
    rw [decodeLoop, if_pos ⟨by simp; omega, rfl⟩, hstep]
  · rw [if_neg (by simpa using heq)] at hstep
    unfold Decode NewDecoder
    exact decodeLoop_next fuel _ 0 1 2 pdu pdu true (by simp; omega) hstep (by norm_num)

/-- C22 (amended) at a notification: the type octet `83` is refused, and after the type
octet `82` the loop goes on at offset 2. -/
theorem decode_messageType_checked_witness :
    Decode 3 (NewDecoder [0x8C, 0x83, 0x89, 0x01, 0x81]) (NewMNotificationInd []).reflect =
      .error { Data := [0x8C, 0x83, 0x89, 0x01, 0x81], Offset := 1 }
        (NewMNotificationInd []).reflect ∧
    Decode 3 (NewDecoder [0x8C, 0x82, 0x89, 0x01, 0x81]) (NewMNotificationInd []).reflect =
      decodeLoop 2 { Data := [0x8C, 0x82, 0x89, 0x01, 0x81], Offset := 2 }
        (NewMNotificationInd []).reflect true :=
  ⟨(decode_messageType_checked (NewMNotificationInd []).reflect 0x82 0x83 [0x89, 0x01, 0x81] []
      2 rfl (by decide)).1 (by decide),
   (decode_messageType_checked (NewMNotificationInd []).reflect 0x82 0x82 [0x89, 0x01, 0x81] []
      2 rfl (by decide)).2.1 rfl⟩

/-- C23: from every state of the header loop with the cursor on a Content-Location header
`83` of a notification, `Decode` stores the text (a leading quote dropped), sets
`moreHdrToRead` to false and returns nil with the cursor one past the terminator: the
result, the record and the cursor are the same for any two inputs `post` and `post'` after
the terminator.  The same for a whole `Decode` of a message made of the Message-Type
header and the Content-Location header. -/
theorem decode_stops_after_contentLocation (p : MNotificationInd) (pre loc post post' : List Nat)
    (uuid : List Nat) (fuel : Nat) (hz : 0 ∉ loc) :
    decodeLoop (fuel + 2)
        { Data := pre ++ 0x83 :: (loc ++ 0 :: post), Offset := pre.length }
        (MNotificationInd.reflect p) true =
      .ok { Data := pre ++ 0x83 :: (loc ++ 0 :: post), Offset := (pre.length : Int) + loc.length + 2 }
        (MNotificationInd.reflect
          { p with ContentLocation := if loc.head? = some 34 then loc.tail else loc }) ∧
    decodeLoop (fuel + 2)
        { Data := pre ++ 0x83 :: (loc ++ 0 :: post'), Offset := pre.length }
        (MNotificationInd.reflect p) true =
      .ok { Data := pre ++ 0x83 :: (loc ++ 0 :: post'), Offset := (pre.length : Int) + loc.length + 2 }
        (MNotificationInd.reflect
          { p with ContentLocation := if loc.head? = some 34 then loc.tail else loc }) ∧
    Decode (fuel + 3) (NewDecoder ([0x8C, 0x82] ++ 0x83 :: (loc ++ 0 :: post)))
        (NewMNotificationInd uuid).reflect =
      .ok { Data := [0x8C, 0x82] ++ 0x83 :: (loc ++ 0 :: post), Offset := (loc.length : Int) + 4 }
        (MNotificationInd.reflect
          { NewMNotificationInd uuid with
            ContentLocation := if loc.head? = some 34 then loc.tail else loc }) ∧
    Decode (fuel + 3) (NewDecoder ([0x8C, 0x82] ++ 0x83 :: (loc ++ 0 :: post')))
        (NewMNotificationInd uuid).reflect =
      .ok { Data := [0x8C, 0x82] ++ 0x83 :: (loc ++ 0 :: post'), Offset := (loc.length : Int) + 4 }
        (MNotificationInd.reflect
          { NewMNotificationInd uuid with
            ContentLocation := if loc.head? = some 34 then loc.tail else loc }) := by
  have hloop : ∀ (q : MNotificationInd) (pr po : List Nat),
      decodeLoop (fuel + 2)
          { Data := pr ++ 0x83 :: (loc ++ 0 :: po), Offset := pr.length }
          (MNotificationInd.reflect q) true =
        .ok { Data := pr ++ 0x83 :: (loc ++ 0 :: po), Offset := (pr.length : Int) + loc.length + 2 }
          (MNotificationInd.reflect
            { q with ContentLocation := if loc.head? = some 34 then loc.tail else loc }) := by
    intro q pr po
    rw [decodeLoop_next (fuel + 1) _ _ _ ((pr.length : Int) + loc.length + 2) _ _ false
      (by simp; omega) (decodeStep_contentLocation q pr loc po hz) (by ring)]
    exact decodeLoop_stop fuel _ _
  have hall : ∀ po : List Nat,
      Decode (fuel + 3) (NewDecoder ([0x8C, 0x82] ++ 0x83 :: (loc ++ 0 :: po)))
          (NewMNotificationInd uuid).reflect =
        .ok { Data := [0x8C, 0x82] ++ 0x83 :: (loc ++ 0 :: po), Offset := (loc.length : Int) + 4 }
          (MNotificationInd.reflect
            { NewMNotificationInd uuid with
              ContentLocation := if loc.head? = some 34 then loc.tail else loc }) := by
    intro po
    have h1 := (decode_messageType_step uuid (0x83 :: (loc ++ 0 :: po)) (fuel + 2))
    have h2 := hloop (NewMNotificationInd uuid) [0x8C, 0x82] po
    have e : (([0x8C, 0x82] : List Nat).length : Int) + loc.length + 2 = (loc.length : Int) + 4 := by
      simp; ring
    rw [e] at h2
    rw [h1]
    exact h2
  exact ⟨hloop p pre post, hloop p pre post', hall post, hall post'⟩

/-- C23 at the location `http://a`, once followed by the octets `55 66` and once by
nothing. -/
theorem decode_stops_after_contentLocation_witness :
    Decode 3 (NewDecoder ([0x8C, 0x82] ++ 0x83 :: (lit "http://a" ++ 0 :: [0x55, 0x66])))
        (NewMNotificationInd []).reflect =
      .ok { Data := [0x8C, 0x82] ++ 0x83 :: (lit "http://a" ++ 0 :: [0x55, 0x66]), Offset := 12 }
        (MNotificationInd.reflect { Type_ := 0x82, ContentLocation := lit "http://a" }) ∧
    Decode 3 (NewDecoder ([0x8C, 0x82] ++ 0x83 :: (lit "http://a" ++ 0 :: [])))
        (NewMNotificationInd []).reflect =
      .ok { Data := [0x8C, 0x82] ++ 0x83 :: (lit "http://a" ++ 0 :: []), Offset := 12 }
        (MNotificationInd.reflect { Type_ := 0x82, ContentLocation := lit "http://a" }) :=
  have h := decode_stops_after_contentLocation {} [] (lit "http://a") [0x55, 0x66] [] [] 0
    (by decide)
  ⟨h.2.2.1, h.2.2.2⟩

/-! ## The Message-ID header -/

/-- C24: `Decode` stores the text of a Message-ID header under the field name `MessageId`,
which neither `MSendConf` nor `MRetrieveConf` has (their field is `MessageID`): on the
header `8B` + `id` + `00` the field `MessageID` of the decoded record stays empty. -/
theorem decode_messageID_not_stored :
    Decode 3 (NewDecoder [0x8C, 0x81, 0x8B, 105, 100, 0]) NewMSendConf.reflect =
      .ok { Data := [0x8C, 0x81, 0x8B, 105, 100, 0], Offset := 6 }
        (MSendConf.reflect { Type_ := 0x81, MessageID := [] }) ∧
    Decode 3 (NewDecoder [0x8C, 0x84, 0x8B, 105, 100, 0]) (NewMRetrieveConf []).reflect =
      .ok { Data := [0x8C, 0x84, 0x8B, 105, 100, 0], Offset := 6 }
        (MRetrieveConf.reflect { Type_ := 0x84, MessageID := [] }) ∧
    NewMSendConf.reflect.FieldByName "MessageId" = none ∧
    (NewMRetrieveConf []).reflect.FieldByName "MessageId" = none ∧
    NewMSendConf.reflect.FieldByName "MessageID" = some (.string []) := by
  decide

/-! ## The multipart body that `writeAttachments` writes -/

/-- What `writeUintVar` writes. -/
theorem writeUintVar_eq (enc : Encoder) (v : Nat) :
    enc.writeUintVar v = .ok { w := enc.w ++ uintVarOctets v } := by
  simp [Encoder.writeUintVar, Encoder.writeBytes]

/-- What `writeLength` writes. -/
theorem writeLength_eq (enc : Encoder) (n : Nat) :
    enc.writeLength n = .ok { w := enc.w ++ valueLengthOctets n } := by
  unfold Encoder.writeLength valueLengthOctets shortLengthMax
  by_cases h : n ≤ 30
  · rw [if_pos h, if_pos h, Nat.mod_eq_of_lt (by omega)]
    simp [Encoder.writeByte, Encoder.writeBytes]
  · rw [if_neg h, if_neg h]
    simp [Encoder.writeByte, Encoder.writeBytes, WriteResult.andThen, writeUintVar_eq,
      lengthQuote]

/-- A media type found by `encodeContentType` has a code below 76. -/
theorem encodeContentType_lt (media : GoString) (mt : Nat)
    (h : encodeContentType media = some mt) : mt < 76 := by
  unfold encodeContentType at h
  dsimp only at h
  split_ifs at h with hlt
  have := contentTypes_length
  have e := Option.some.inj h
  omega

/-- What `writeContentType` writes for a part: its media-type block. -/
theorem writeContentType_eq (enc : Encoder) (media name : GoString) :
    enc.writeContentType media [] [] name = .ok { w := enc.w ++ mediaTypeBlock media name } := by
  unfold Encoder.writeContentType mediaTypeBlock
  by_cases hn : name = []
  · subst hn
    simp only [and_self, if_true]
    unfold Encoder.writeMediaType
    cases h : encodeContentType media with
    | some mt =>
      have hlt := encodeContentType_lt media mt h
      dsimp only
      rw [writeInteger_eq mt (by omega) enc, if_pos (by omega)]
    | none =>
      simp [Encoder.writeByte, Encoder.writeBytes, Encoder.writeString, WriteResult.andThen]
  · have hor : wspParameterTypeNameDefunct ||| shortFilter = 0x85 := by decide
    cases h : encodeContentType media with
    | some mt =>
      have hlt := encodeContentType_lt media mt h
      simp [hn, hor, writeLength_eq, writeInteger_eq mt (by omega), WriteResult.andThen,
        Encoder.writeBytes, show mt < 128 by omega]
    | none =>
      simp [hn, hor, writeLength_eq, WriteResult.andThen, Encoder.writeBytes]
      congr 1
      omega

/-- What `encodeAttachment` gives: the header of the part. -/
theorem encodeAttachment_eq (a : Attachment) :
    encodeAttachment a = .ok { w := partHeader a } := by
  have h1 : Encoder.writeContentType { w := [] } a.MediaType [] [] a.Name =
      .ok { w := mediaTypeBlock a.MediaType a.Name } := by
    simpa using writeContentType_eq { w := [] } a.MediaType a.Name
  unfold encodeAttachment
  simp only [Attachment.reflect, encodeFields, encodeField]
  simp [Struct.getString, Struct.FieldByName, h1, WriteResult.andThen, NewEncoder, partHeader,
    Encoder.writeStringParam, Encoder.writeQuotedStringParam, Encoder.setParam,
    Encoder.writeByte, Encoder.writeBytes, Encoder.writeString, Value.String,
    mmsPartContentLocation, mmsPartContentID, stringQuote]
  by_cases hl : a.ContentLocation = []
  · simp [hl]
  · simp [hl]

/-- What the loop of `writeAttachments` writes. -/
theorem writeAttachmentList_eq (l : List Attachment) (enc : Encoder) :
    writeAttachmentList enc l = .ok { w := enc.w ++ partsOctets l } := by
  induction l generalizing enc with
  | nil => simp [writeAttachmentList, partsOctets]
  | cons a rest ih =>
    rw [writeAttachmentList, encodeAttachment_eq]
    simp [writeUintVar_eq, WriteResult.andThen, Encoder.writeBytes, ih, partsOctets,
      partOctets]

/-- What `writeAttachments` writes. -/
theorem writeAttachments_eq (l : List Attachment) (enc : Encoder) :
    enc.writeAttachments l = .ok { w := enc.w ++ multipartBody l } := by
  simp [Encoder.writeAttachments, writeUintVar_eq, WriteResult.andThen, writeAttachmentList_eq,
    multipartBody]
/-! ## Reading back a part of a multipart body -/

/-- The typed record behind a reflected attachment. -/
theorem ofStruct_reflect (a : Attachment) : Attachment.ofStruct (Attachment.reflect a) = a := by
  rfl

theorem returnSet_Name (v : GoString) (dec : Decoder) (a : Attachment) :
    returnSet v dec (.struct (Attachment.reflect a)) "Name" (.string v) setterString =
      .ok v dec (.struct (Attachment.reflect { a with Name := v })) := by
  rfl

theorem returnSet_ContentLocation (v : GoString) (dec : Decoder) (a : Attachment) :
    returnSet v dec (.struct (Attachment.reflect a)) "ContentLocation" (.string v) setterString =
      .ok v dec (.struct (Attachment.reflect { a with ContentLocation := v })) := by
  rfl

theorem returnSet_ContentID (v : GoString) (dec : Decoder) (a : Attachment) :
    returnSet v dec (.struct (Attachment.reflect a)) "ContentID" (.string v) setterString =
      .ok v dec (.struct (Attachment.reflect { a with ContentID := v })) := by
  rfl

theorem returnSet_Length (v : Nat) (dec : Decoder) (a : Attachment) :
    returnSet v dec (.struct (Attachment.reflect a)) "Length" (.uint64 v) setterUint64 =
      .ok v dec (.struct (Attachment.reflect { a with Length := v })) := by
  rfl

theorem setPduField_Data (v : List Nat) (a : Attachment) :
    setPduField (.struct (Attachment.reflect a)) "Data" (.bytes v) setterSlice =
      some (.struct (Attachment.reflect { a with Data := v })) := by
  rfl

/-- In a list, the element at the first position of `a` is `a`. -/
theorem getElem?_indexOf {α : Type} [BEq α] [LawfulBEq α] (l : List α) (a : α)
    (h : l.indexOf a < l.length) : l[l.indexOf a]? = some a := by
  induction l with
  | nil => simp at h
  | cons b l ih =>
    rw [List.indexOf_cons] at h ⊢
    by_cases hb : b == a
    · rw [hb] at h ⊢
      simp only [cond_true, List.getElem?_cons_zero]
      rw [eq_of_beq hb]
    · have hb' : (b == a) = false := by simpa using hb
      rw [hb'] at h ⊢
      simp only [cond_false, List.length_cons] at h ⊢
      rw [List.getElem?_cons_succ]
      exact ih (by omega)

/-- The name at the code that `encodeContentType` finds is the media type. -/
theorem contentTypes_encodeContentType (media : GoString) (mt : Nat)
    (h : encodeContentType media = some mt) : contentTypes[mt]? = some media := by
  unfold encodeContentType at h
  dsimp only at h
  split_ifs at h with hlt
  have e := Option.some.inj h
  rw [← e]
  exact getElem?_indexOf contentTypes media hlt
/-- `ReadLength` into an attachment on a written value-length: the length is returned and
stored in the field `Length`, the cursor is on the last octet of the value-length. -/
theorem ReadLength_struct_at (pre post : List Nat) (n : Nat) (hn : n < 2 ^ 64) (o : Int)
    (ho : o + 1 = pre.length) (a : Attachment) :
    ReadLength { Data := pre ++ (valueLengthOctets n ++ post), Offset := o }
        (.struct (Attachment.reflect a)) =
      .ok n { Data := pre ++ (valueLengthOctets n ++ post),
              Offset := o + ((valueLengthOctets n).length : Nat) }
        (.struct (Attachment.reflect { a with Length := n })) := by
  unfold valueLengthOctets
  by_cases h : n ≤ 30
  · simp only [if_pos h, List.singleton_append, List.length_singleton]
    unfold ReadLength
    dsimp only
    rw [byteAt_append pre post n o (o + 1) ho]
    dsimp only
    rw [if_pos (by rw [and_7f_le_30 n h]; exact h), ReadShortInteger_at pre post n o ho,
      returnSet_nil]
    dsimp only [Result.andThen]
    rw [and_7f_le_30 n h, setUintField_Length]
    rfl
  · simp only [if_neg h, List.cons_append, List.length_cons]
    have e : pre ++ 31 :: (uintVarOctets n ++ post) = (pre ++ [31]) ++ (uintVarOctets n ++ post) := by
      simp
    unfold ReadLength
    dsimp only
    rw [byteAt_append pre (uintVarOctets n ++ post) 31 o (o + 1) ho]
    dsimp only
    rw [if_neg (by decide), if_pos (by rfl), e,
      ReadUintVar_at (pre ++ [31]) post n hn (o + 1) (by simp; omega)]
    rw [if_neg (by simp)]
    rw [returnSet_Length]
    refine Result.ok_congr _ _ _ _ _ ?_
    push_cast
    ring
/-! The readers on an input `d` that is given by an equation, with the new cursor `o'`
given by an equation too. -/

theorem ReadInteger_short_eq (d pre post : List Nat) (c : Nat) (hc : c < 128) (o o' : Int)
    (hd : d = pre ++ (128 + c) :: post) (ho : o + 1 = pre.length) (ho' : o' = o + 1) :
    ReadInteger { Data := d, Offset := o } .nil "" = .ok c { Data := d, Offset := o' } .nil := by
  subst hd ho'
  rw [ReadInteger_short_at pre post c hc o ho, returnSet_nil]

theorem ReadString_any_eq (d pre s post : List Nat) (o o' : Int)
    (hd : d = pre ++ (s ++ 0 :: post)) (ho : o + 1 = pre.length) (ho' : o' = o + 1 + s.length)
    (hs : 0 ∉ s) (pdu : Target) (hdr : String) :
    ReadString { Data := d, Offset := o } pdu hdr =
      returnSet (if s.head? = some 34 then s.tail else s) { Data := d, Offset := o' } pdu hdr
        (.string (if s.head? = some 34 then s.tail else s)) setterString := by
  subst hd ho'
  exact ReadString_any_at pre s post o ho hs pdu hdr

theorem ReadString_quoted_eq (d pre s post : List Nat) (o o' : Int)
    (hd : d = pre ++ 34 :: (s ++ 0 :: post)) (ho : o + 1 = pre.length)
    (ho' : o' = o + 1 + 1 + s.length) (hs : 0 ∉ s) (pdu : Target) (hdr : String) :
    ReadString { Data := d, Offset := o } pdu hdr =
      returnSet s { Data := d, Offset := o' } pdu hdr (.string s) setterString := by
  subst hd ho'
  exact ReadString_quoted_at pre s post o ho hs pdu hdr

theorem ReadUintVar_eq (d pre post : List Nat) (v : Nat) (hv : v < 2 ^ 64) (o o' : Int)
    (hd : d = pre ++ (uintVarOctets v ++ post)) (ho : o + 1 = pre.length)
    (ho' : o' = o + (uintVarOctets v).length) :
    ReadUintVar { Data := d, Offset := o } .nil "" = .ok v { Data := d, Offset := o' } .nil := by
  subst hd ho'
  rw [ReadUintVar_at pre post v hv o ho, returnSet_nil]

theorem ReadLength_struct_eq (d pre post : List Nat) (n : Nat) (hn : n < 2 ^ 64) (o o' : Int)
    (hd : d = pre ++ (valueLengthOctets n ++ post)) (ho : o + 1 = pre.length)
    (ho' : o' = o + (valueLengthOctets n).length) (a : Attachment) :
    ReadLength { Data := d, Offset := o } (.struct (Attachment.reflect a)) =
      .ok n { Data := d, Offset := o' } (.struct (Attachment.reflect { a with Length := n })) := by
  subst hd ho'
  exact ReadLength_struct_at pre post n hn o ho a

theorem ReadMediaType_code_eq (d pre post : List Nat) (media : GoString) (mt : Nat)
    (hmt : encodeContentType media = some mt) (o o' : Int)
    (hd : d = pre ++ (128 + mt) :: post) (ho : o + 1 = pre.length) (ho' : o' = o + 1)
    (a : Attachment) :
    ReadMediaType { Data := d, Offset := o } (.struct (Attachment.reflect a)) "MediaType" =
      .ok () { Data := d, Offset := o' }
        (.struct (Attachment.reflect { a with MediaType := media })) := by
  subst hd ho'
  have hlt := encodeContentType_lt media mt hmt
  rw [ReadMediaType_code_at pre post mt (by omega) o ho _ _ _ (FieldByName_MediaType a),
    contentTypes_encodeContentType media mt hmt]
  dsimp only
  rw [setField_MediaType]

theorem ReadMediaType_text_eq (d pre post media : List Nat) (b : Nat)
    (hb : media.head? = some b) (hlo : 32 ≤ b) (hhi : b ≤ 127) (hq : b ≠ 34) (hz : 0 ∉ media)
    (o o' : Int) (hd : d = pre ++ (media ++ 0 :: post)) (ho : o + 1 = pre.length)
    (ho' : o' = o + 1 + media.length) (a : Attachment) :
    ReadMediaType { Data := d, Offset := o } (.struct (Attachment.reflect a)) "MediaType" =
      .ok () { Data := d, Offset := o' }
        (.struct (Attachment.reflect { a with MediaType := media })) := by
  subst hd ho'
  rw [ReadMediaType_text_at pre post media b hb hlo hhi hq hz o ho _ _ _
    (FieldByName_MediaType a), setField_MediaType]

/-- The first octet of a value-length is below 32. -/
theorem valueLengthOctets_head (n : Nat) :
    ∃ b rest, valueLengthOctets n = b :: rest ∧ b < 32 := by
  unfold valueLengthOctets
  by_cases h : n ≤ 30
  · exact ⟨n, [], by rw [if_pos h], by omega⟩
  · exact ⟨31, uintVarOctets n, by rw [if_neg h], by norm_num⟩

theorem and_80_lt_32 : ∀ b : Nat, b < 32 → b &&& 0x80 = 0 := by decide

theorem readAttachmentParam_name (dec : Decoder) (ctMember : Target) :
    readAttachmentParam 5 dec ctMember =
      (ReadString dec ctMember "Name").andThen fun _ dec pdu => .ok () dec pdu := rfl
/-- `ReadAttachment` on a content-type block with a name: the value-length `n` (stored in
`Length`), the octets `mo` of the media type, which `ReadMediaType` reads as `media`, and
the parameter `85` + name + `00`. -/
theorem ReadAttachment_named_eq (d pre post mo name : List Nat) (media : GoString) (n : Nat)
    (o : Int) (a : Attachment)
    (hd : d = pre ++ (valueLengthOctets n ++ (mo ++ (133 :: (name ++ 0 :: post)))))
    (hn : n = mo.length + (name.length + 2)) (ho : o + 1 = pre.length)
    (hbound : d.length < 2 ^ 63) (hz : 0 ∉ name)
    (hRM : ∀ c : Attachment,
      ReadMediaType { Data := d, Offset := o + (valueLengthOctets n).length }
          (.struct (Attachment.reflect c)) "MediaType" =
        .ok () { Data := d, Offset := o + (valueLengthOctets n).length + mo.length }
          (.struct (Attachment.reflect { c with MediaType := media }))) :
    ReadAttachment { Data := d, Offset := o } (.struct (Attachment.reflect a)) =
      .ok () { Data := d, Offset := o + (valueLengthOctets n).length + n }
        (.struct (Attachment.reflect
          { a with Length := n, MediaType := media,
                   Name := if name.head? = some 34 then name.tail else name })) := by
  obtain ⟨b, rest, hv, hb32⟩ := valueLengthOctets_head n
  have hlen : d.length = pre.length + ((valueLengthOctets n).length + (mo.length +
      (1 + (name.length + (1 + post.length))))) := by
    rw [hd]; simp; omega
  have hbyte : Decoder.byteAt { Data := d, Offset := o } (o + 1) = some b :=
    byteAt_of_eq d pre (rest ++ (mo ++ (133 :: (name ++ 0 :: post)))) b o (o + 1)
      (by rw [hd, hv]; simp) ho
  have hvl : 1 ≤ (valueLengthOctets n).length := by rw [hv]; simp
  unfold ReadAttachment
  dsimp only
  rw [if_neg (by rw [hlen]; push_cast; omega), hbyte]
  dsimp only
  rw [if_neg (by unfold shortFilter; rw [and_80_lt_32 b hb32]; simp),
    if_neg (by unfold textMin; omega),
    ReadLength_struct_eq d pre _ n (by omega) o (o + (valueLengthOctets n).length) hd ho rfl a]
  dsimp only [Result.andThen]
  rw [toInt_small n (by omega), wrapInt_small _ (by omega) (by omega), hRM]
  dsimp only
  obtain ⟨k, hk⟩ : ∃ k, d.length + 1 = k + 2 := ⟨d.length - 1, by omega⟩
  rw [hk, readAttachmentLoop]
  dsimp only
  rw [if_pos ⟨by rw [hlen]; push_cast; omega, by omega⟩,
    ReadInteger_short_eq d (pre ++ (valueLengthOctets n ++ mo)) (name ++ 0 :: post) 5
      (by norm_num) _ (o + (valueLengthOctets n).length + mo.length + 1)
      (by rw [hd]; simp) (by simp; omega) rfl]
  dsimp only [Result.andThen]
  rw [readAttachmentParam_name,
    ReadString_any_eq d (pre ++ (valueLengthOctets n ++ (mo ++ [133]))) name post _
      (o + (valueLengthOctets n).length + n) (by rw [hd]; simp) (by simp; omega)
      (by rw [hn]; push_cast; ring) hz,
    returnSet_Name]
  dsimp only [Result.andThen]
  rw [readAttachmentLoop]
  dsimp only
  rw [if_neg (by omega)]
/-- In a list, an element that occurs has its first position inside the list. -/
theorem indexOf_lt_of_mem {α : Type} [BEq α] [LawfulBEq α] (l : List α) (a : α) (h : a ∈ l) :
    l.indexOf a < l.length := by
  induction l with
  | nil => simp at h
  | cons b l ih =>
    rw [List.indexOf_cons]
    by_cases hb : b == a
    · rw [hb]; simp
    · have hb' : (b == a) = false := by simpa using hb
      rw [hb']
      have hne : a ≠ b := fun e => hb (by rw [e]; exact beq_self_eq_true b)
      have hmem : a ∈ l := by
        rcases List.mem_cons.mp h with h1 | h1
        · exact absurd h1 hne
        · exact h1
      simp only [cond_false, List.length_cons]
      exact Nat.succ_lt_succ (ih hmem)

/-- A media type of the table is found by `encodeContentType`. -/
theorem encodeContentType_of_mem (media : GoString) (h : media ∈ contentTypes) :
    ∃ mt, encodeContentType media = some mt := by
  unfold encodeContentType
  dsimp only
  rw [if_pos (indexOf_lt_of_mem contentTypes media h)]
  exact ⟨_, rfl⟩

/-- `ReadAttachment` on the octet `len + 1` followed by a zero-terminated media type of at
most 29 octets that starts with a text octet other than the quote. -/
theorem ReadAttachment_text_eq (d pre post m : List Nat) (b : Nat)
    (hb : m.head? = some b) (hlo : 32 ≤ b) (hhi : b ≤ 127) (hq : b ≠ 34) (hz : 0 ∉ m)
    (hlen : m.length ≤ 29) (o : Int) (hd : d = pre ++ (m.length + 1) :: (m ++ 0 :: post))
    (ho : o + 1 = pre.length) (hbound : d.length < 2 ^ 63) (a : Attachment) :
    ReadAttachment { Data := d, Offset := o } (.struct (Attachment.reflect a)) =
      .ok () { Data := d, Offset := o + 1 + 1 + m.length }
        (.struct (Attachment.reflect { a with Length := m.length + 1, MediaType := m })) := by
  have hdl : d.length = pre.length + (1 + (m.length + (1 + post.length))) := by
    rw [hd]; simp; omega
  have hbyte := byteAt_of_eq d pre (m ++ 0 :: post) (m.length + 1) o (o + 1) hd ho
  have hvl : valueLengthOctets (m.length + 1) = [m.length + 1] := by
    unfold valueLengthOctets
    rw [if_pos (by omega)]
  unfold ReadAttachment
  dsimp only
  rw [if_neg (by rw [hdl]; push_cast; omega), hbyte]
  dsimp only
  rw [if_neg (by unfold shortFilter; rw [small_and_80 _ (by omega)]; simp),
    if_neg (by unfold textMin; omega),
    ReadLength_struct_eq d pre (m ++ 0 :: post) (m.length + 1) (by omega) o (o + 1)
      (by rw [hvl]; exact hd) ho (by rw [hvl]; simp) a]
  dsimp only [Result.andThen]
  rw [ReadMediaType_text_eq d (pre ++ [m.length + 1]) post m b hb hlo hhi hq hz (o + 1)
    (o + 1 + 1 + m.length) (by rw [hd]; simp) (by simp; omega) rfl]
  dsimp only
  rw [toInt_small _ (by omega), wrapInt_small _ (by omega) (by omega)]
  unfold readAttachmentLoop
  rw [if_neg (by push_cast; omega)]

/-- `ReadAttachment` on the media-type block of a part: the media type is stored, the
location, the identifier, the charset and the data of the record are left as they are, and
the cursor is on the last octet of the block. -/
theorem ReadAttachment_block_eq (d pre post : List Nat) (media name : GoString) (o : Int)
    (a : Attachment) (hd : d = pre ++ (mediaTypeBlock media name ++ post))
    (ho : o + 1 = pre.length) (hbound : d.length < 2 ^ 63) (hz : 0 ∉ name)
    (hmedia : media ∈ contentTypes ∨
      ((∃ b, media.head? = some b ∧ 32 ≤ b ∧ b ≤ 127 ∧ b ≠ 34) ∧ 0 ∉ media ∧
        media.length < 30)) :
    ∃ c : Attachment,
      ReadAttachment { Data := d, Offset := o } (.struct (Attachment.reflect a)) =
        .ok () { Data := d, Offset := o + (mediaTypeBlock media name).length }
          (.struct (Attachment.reflect c)) ∧
      c.MediaType = media ∧ c.ContentLocation = a.ContentLocation ∧
      c.ContentID = a.ContentID ∧ c.Data = a.Data ∧ c.Charset = a.Charset := by
  cases hmt : encodeContentType media with
  | some mt =>
    have hlt := encodeContentType_lt media mt hmt
    by_cases hn : name = []
    · have hblock : mediaTypeBlock media name = [128 + mt] := by
        unfold mediaTypeBlock
        rw [hmt]
        simp [hn]
      rw [hblock] at hd ⊢
      refine ⟨{ a with MediaType := media }, ?_, rfl, rfl, rfl, rfl, rfl⟩
      subst hd
      rw [List.singleton_append, ReadAttachment_code_at pre post mt (by omega) o ho,
        ReadMediaType_code_eq _ pre post media mt hmt o _ rfl ho rfl]
      simp
    · have hblock : mediaTypeBlock media name =
          valueLengthOctets (1 + (name.length + 2)) ++
            ([128 + mt] ++ (133 :: (name ++ [0]))) := by
        unfold mediaTypeBlock
        rw [hmt]
        simp [hn]
        congr 1
        omega
      have hd' : d = pre ++ (valueLengthOctets (1 + (name.length + 2)) ++
          ([128 + mt] ++ (133 :: (name ++ 0 :: post)))) := by
        rw [hd, hblock]; simp
      refine ⟨{ a with Length := 1 + (name.length + 2), MediaType := media,
                       Name := if name.head? = some 34 then name.tail else name },
        ?_, rfl, rfl, rfl, rfl, rfl⟩
      rw [ReadAttachment_named_eq d pre post [128 + mt] name media _ o a hd' rfl ho hbound hz
        (fun c => ReadMediaType_code_eq d (pre ++ valueLengthOctets (1 + (name.length + 2)))
          (133 :: (name ++ 0 :: post)) media mt hmt _ _ (by rw [hd']; simp)
          (by simp; omega) (by simp) c)]
      refine Result.ok_congr _ _ _ _ _ ?_
      rw [hblock]
      simp
      omega
  | none =>
    have hnotin : media ∉ contentTypes := by
      intro hmem
      obtain ⟨mt, h⟩ := encodeContentType_of_mem media hmem
      rw [hmt] at h
      cases h
    obtain ⟨⟨b, hb, hlo, hhi, hq⟩, hz0, hlen⟩ := hmedia.resolve_left hnotin
    by_cases hn : name = []
    · have hblock : mediaTypeBlock media name = (media.length + 1) :: (media ++ [0]) := by
        unfold mediaTypeBlock
        rw [hmt]
        simp [hn]
        omega
      have hd' : d = pre ++ (media.length + 1) :: (media ++ 0 :: post) := by
        rw [hd, hblock]; simp
      refine ⟨{ a with Length := media.length + 1, MediaType := media },
        ?_, rfl, rfl, rfl, rfl, rfl⟩
      rw [ReadAttachment_text_eq d pre post media b hb hlo hhi hq hz0 (by omega) o hd' ho hbound]
      refine Result.ok_congr _ _ _ _ _ ?_
      rw [hblock]
      simp
      omega
    · have hblock : mediaTypeBlock media name =
          valueLengthOctets (media.length + 1 + (name.length + 2)) ++
            ((media ++ [0]) ++ (133 :: (name ++ [0]))) := by
        unfold mediaTypeBlock
        rw [hmt]
        simp [hn]
      have hd' : d = pre ++ (valueLengthOctets (media.length + 1 + (name.length + 2)) ++
          ((media ++ [0]) ++ (133 :: (name ++ 0 :: post)))) := by
        rw [hd, hblock]; simp
      refine ⟨{ a with Length := media.length + 1 + (name.length + 2), MediaType := media,
                       Name := if name.head? = some 34 then name.tail else name },
        ?_, rfl, rfl, rfl, rfl, rfl⟩
      rw [ReadAttachment_named_eq d pre post (media ++ [0]) name media _ o a hd' (by simp) ho
        hbound hz
        (fun c => ReadMediaType_text_eq d
          (pre ++ valueLengthOctets (media.length + 1 + (name.length + 2)))
          (133 :: (name ++ 0 :: post)) media b hb hlo hhi hq hz0 _ _ (by rw [hd']; simp)
          (by simp; omega) (by simp; omega) c)]
      refine Result.ok_congr _ _ _ _ _ ?_
      rw [hblock]
      simp
      omega
/-- C25: `writeAttachments` writes the multipart body of the list: the uintvar of the number
of parts, then for each part in list order the uintvar of the header length, the uintvar of
the data length, the header and the data unchanged.  The header, which `encodeAttachment`
gives, is the media-type block written by `writeContentType`, the content-location
parameter `8E` + text + `00` (none for an empty location) and the content-id parameter
`C0 22` + text + `00`.  Read back, the two length fields of a part are the numbers of
octets of the header and of the data that follow them. -/
theorem writeAttachments_layout (l : List Attachment) (enc : Encoder) (a : Attachment)
    (pre post : List Nat) (hh : (partHeader a).length < 2 ^ 64)
    (hdl : a.Data.length < 2 ^ 64) :
    enc.writeAttachments l = .ok { w := enc.w ++ multipartBody l } ∧
    multipartBody (a :: l) =
      uintVarOctets (l.length + 1) ++
        (uintVarOctets (partHeader a).length ++
          (uintVarOctets a.Data.length ++ (partHeader a ++ a.Data)) ++ partsOctets l) ∧
    encodeAttachment a = .ok { w := partHeader a } ∧
    NewEncoder.writeContentType a.MediaType [] [] a.Name =
      .ok { w := mediaTypeBlock a.MediaType a.Name } ∧
    partHeader a =
      mediaTypeBlock a.MediaType a.Name ++
        ((if a.ContentLocation = [] then [] else 0x8E :: (a.ContentLocation ++ [0])) ++
          0xC0 :: 0x22 :: (a.ContentID ++ [0])) ∧
    ReadUintVar { Data := pre ++ (partOctets a ++ post), Offset := (pre.length : Int) - 1 }
        .nil "" =
      .ok (partHeader a).length
        { Data := pre ++ (partOctets a ++ post),
          Offset := (pre.length : Int) - 1 + (uintVarOctets (partHeader a).length).length }
        .nil ∧
    ReadUintVar
        { Data := pre ++ (partOctets a ++ post),
          Offset := (pre.length : Int) - 1 + (uintVarOctets (partHeader a).length).length }
        .nil "" =
      .ok a.Data.length
        { Data := pre ++ (partOctets a ++ post),
          Offset := (pre.length : Int) - 1 + (uintVarOctets (partHeader a).length).length +
            (uintVarOctets a.Data.length).length }
        .nil ∧
    (partOctets a).length =
      (uintVarOctets (partHeader a).length).length + (uintVarOctets a.Data.length).length +
        ((partHeader a).length + a.Data.length) := by
  refine ⟨writeAttachments_eq l enc, rfl, encodeAttachment_eq a, ?_, rfl, ?_, ?_, ?_⟩
  · simpa [NewEncoder] using writeContentType_eq NewEncoder a.MediaType a.Name
  · exact ReadUintVar_eq _ pre
      (uintVarOctets a.Data.length ++ (partHeader a ++ (a.Data ++ post)))
      (partHeader a).length hh _ _ (by unfold partOctets; simp) (by omega) rfl
  · exact ReadUintVar_eq _ (pre ++ uintVarOctets (partHeader a).length)
      (partHeader a ++ (a.Data ++ post)) a.Data.length hdl _ _
      (by unfold partOctets; simp) (by simp; omega) rfl
  · unfold partOctets
    simp
    omega

/-- C25 at the two-part body of an `application/smil` part with the payload
`<smil></smil>` and an `image/jpeg` part with 10 octets: the part count is `02` and the
SMIL part comes first. -/
theorem writeAttachments_layout_witness :
    NewEncoder.writeAttachments
        [{ MediaType := lit "application/smil", ContentID := lit "<smil>",
           ContentLocation := lit "s", Name := lit "s", Data := lit "<smil></smil>" },
         { MediaType := lit "image/jpeg", ContentID := lit "i", ContentLocation := lit "i",
           Name := lit "i", Data := [0, 1, 2, 3, 4, 5, 6, 7, 8, 9] }] =
      .ok { w := [0x02] ++
          ([33, 13] ++ ([20] ++ lit "application/smil" ++ [0, 0x85] ++ lit "s" ++ [0] ++
              ([0x8E] ++ lit "s" ++ [0]) ++ ([0xC0, 0x22] ++ lit "<smil>" ++ [0])) ++
            lit "<smil></smil>") ++
          ([12, 10] ++ ([4, 0x9E, 0x85] ++ lit "i" ++ [0] ++ ([0x8E] ++ lit "i" ++ [0]) ++
              ([0xC0, 0x22] ++ lit "i" ++ [0])) ++
            [0, 1, 2, 3, 4, 5, 6, 7, 8, 9]) } ∧
    encodeAttachment
        { MediaType := lit "image/jpeg", ContentID := lit "i", ContentLocation := lit "i",
          Name := lit "i", Data := [0, 1, 2, 3, 4, 5, 6, 7, 8, 9] } =
      .ok { w := [4, 0x9E, 0x85, 105, 0, 0x8E, 105, 0, 0xC0, 0x22, 105, 0] } :=
  have h := writeAttachments_layout
    [{ MediaType := lit "application/smil", ContentID := lit "<smil>",
       ContentLocation := lit "s", Name := lit "s", Data := lit "<smil></smil>" },
     { MediaType := lit "image/jpeg", ContentID := lit "i", ContentLocation := lit "i",
       Name := lit "i", Data := [0, 1, 2, 3, 4, 5, 6, 7, 8, 9] }]
    NewEncoder
    { MediaType := lit "image/jpeg", ContentID := lit "i", ContentLocation := lit "i",
      Name := lit "i", Data := [0, 1, 2, 3, 4, 5, 6, 7, 8, 9] }
    [] [] (by decide) (by decide)
  ⟨h.1.trans (by decide), h.2.2.1.trans (by decide)⟩

/-- `ReadMMSHeaders` on the content-location and content-id parameters of a part header:
both texts are stored and the cursor is on the last octet of the header. -/
theorem ReadMMSHeaders_eq (d pre post loc id : List Nat) (o headerEnd : Int) (c : Attachment)
    (hd : d = pre ++ (((if loc = [] then [] else 0x8E :: (loc ++ [0])) ++
      0xC0 :: 0x22 :: (id ++ [0])) ++ post))
    (ho : o + 1 = pre.length)
    (hend : headerEnd = o + (((if loc = [] then [] else 0x8E :: (loc ++ [0])) ++
      0xC0 :: 0x22 :: (id ++ [0])).length : Nat))
    (hzl : 0 ∉ loc) (hql : loc.head? ≠ some 34) (hzi : 0 ∉ id) (hc : c.ContentLocation = []) :
    ∃ c' : Attachment,
      ReadMMSHeaders { Data := d, Offset := o } (.struct (Attachment.reflect c)) headerEnd =
        .ok () { Data := d, Offset := headerEnd } (.struct (Attachment.reflect c')) ∧
      c'.MediaType = c.MediaType ∧ c'.ContentLocation = loc ∧ c'.ContentID = id ∧
      c'.Data = c.Data ∧ c'.Charset = c.Charset := by
  have hid : ∀ (pre' : List Nat) (o' : Int) (c0 : Attachment) (k : Nat),
      d = pre' ++ (0xC0 :: 0x22 :: (id ++ 0 :: post)) → o' + 1 = pre'.length →
      headerEnd = o' + (id.length + 3 : Nat) →
      readMMSHeadersLoop (k + 2) headerEnd { Data := d, Offset := o' }
          (.struct (Attachment.reflect c0)) =
        .ok () { Data := d, Offset := headerEnd }
          (.struct (Attachment.reflect { c0 with ContentID := id })) := by
    intro pre' o' c0 k hd' ho' hend'
    rw [readMMSHeadersLoop]
    dsimp only
    rw [if_pos (by rw [hend']; push_cast; omega),
      ReadInteger_short_eq d pre' (0x22 :: (id ++ 0 :: post)) 64 (by norm_num) o' (o' + 1)
        hd' ho' rfl]
    dsimp only [Result.andThen]
    rw [if_neg (by decide), if_pos (by rfl),
      ReadString_quoted_eq d (pre' ++ [0xC0]) id post (o' + 1) headerEnd (by rw [hd']; simp)
        (by simp; omega) (by rw [hend']; push_cast; ring) hzi,
      returnSet_ContentID]
    dsimp only
    rw [readMMSHeadersLoop]
    dsimp only
    rw [if_neg (by omega)]
  obtain ⟨k, hk⟩ : ∃ k, d.length + 1 = k + 3 :=
    ⟨d.length - 2, by rw [hd]; simp; omega⟩
  unfold ReadMMSHeaders
  dsimp only
  rw [hk]
  by_cases hl : loc = []
  · subst hl
    simp only [if_true, List.nil_append, List.length_cons, List.length_append,
      List.length_singleton] at hd hend
    refine ⟨{ c with ContentID := id }, ?_, rfl, hc, rfl, rfl, rfl⟩
    exact hid pre o c (k + 1) (by rw [hd]; simp) ho (by rw [hend]; simp; ring)
  · simp only [if_neg hl] at hd hend
    refine ⟨{ c with ContentLocation := loc, ContentID := id }, ?_, rfl, rfl, rfl, rfl, rfl⟩
    rw [readMMSHeadersLoop]
    dsimp only
    rw [if_pos (by rw [hend]; simp; omega),
      ReadInteger_short_eq d pre (loc ++ 0 :: (0xC0 :: 0x22 :: (id ++ 0 :: post))) 14
        (by norm_num) o (o + 1) (by rw [hd]; simp) ho rfl]
    dsimp only [Result.andThen]
    rw [if_pos (by rfl),
      ReadString_any_eq d (pre ++ [0x8E]) loc (0xC0 :: 0x22 :: (id ++ 0 :: post)) (o + 1)
        (o + 1 + 1 + loc.length) (by rw [hd]; simp) (by simp; omega) rfl hzl,
      if_neg hql, returnSet_ContentLocation]
    dsimp only
    exact hid (pre ++ 0x8E :: (loc ++ [0])) (o + 1 + 1 + loc.length) _ k (by rw [hd]; simp)
      (by simp; omega) (by rw [hend]; simp; try ring)

/-- `ReadBoundedBytes` of the data of a part into the field `Data`. -/
theorem ReadBoundedBytes_eq (d pre data post : List Nat) (s e : Int) (c : Attachment)
    (hd : d = pre ++ (data ++ post)) (hs : s = pre.length) (he : e = s + data.length) :
    ReadBoundedBytes { Data := d, Offset := s } (.struct (Attachment.reflect c)) "Data" e =
      .ok data { Data := d, Offset := e - 1 }
        (.struct (Attachment.reflect { c with Data := data })) := by
  subst hd hs he
  unfold ReadBoundedBytes
  dsimp only
  rw [if_neg (by simp)]
  have hv : (List.drop (pre.length : Int).toNat (pre ++ (data ++ post))).take
      ((pre.length : Int) + data.length - pre.length).toNat = data := by
    simp
  rw [hv, setPduField_Data]
/-- A uintvar has at least one octet. -/
theorem uintVarOctets_length_pos (v : Nat) (hv : v < 2 ^ 64) : 1 ≤ (uintVarOctets v).length := by
  obtain ⟨p, hp, _⟩ := uintVarOctets_spec v hv
  rw [hp]
  simp

/-- `readAttachmentPart`, the body of the loop of `ReadAttachmentParts`, on a written part:
the decoded part has the media type, the identifier, the location and the data of the
written one, and the cursor is on the last octet of the part. -/
theorem readAttachmentPart_eq (d pre post : List Nat) (a : Attachment) (o : Int)
    (hd : d = pre ++ (partOctets a ++ post)) (ho : o + 1 = pre.length)
    (hbound : d.length < 2 ^ 63)
    (hmedia : a.MediaType ∈ contentTypes ∨
      ((∃ b, a.MediaType.head? = some b ∧ 32 ≤ b ∧ b ≤ 127 ∧ b ≠ 34) ∧ 0 ∉ a.MediaType ∧
        a.MediaType.length < 30))
    (hzn : 0 ∉ a.Name) (hzl : 0 ∉ a.ContentLocation) (hql : a.ContentLocation.head? ≠ some 34)
    (hzi : 0 ∉ a.ContentID) :
    ∃ a' : Attachment,
      readAttachmentPart { Data := d, Offset := o } =
        .ok a' { Data := d, Offset := o + ((partOctets a).length : Nat) } .nil ∧
      a'.MediaType = a.MediaType ∧ a'.ContentID = a.ContentID ∧
      a'.ContentLocation = a.ContentLocation ∧ a'.Data = a.Data := by
  have hH : partHeader a = mediaTypeBlock a.MediaType a.Name ++
      ((if a.ContentLocation = [] then [] else 0x8E :: (a.ContentLocation ++ [0])) ++
        0xC0 :: 0x22 :: (a.ContentID ++ [0])) := rfl
  generalize hB : mediaTypeBlock a.MediaType a.Name = B at hH
  generalize hP : ((if a.ContentLocation = [] then [] else 0x8E :: (a.ContentLocation ++ [0])) ++
        0xC0 :: 0x22 :: (a.ContentID ++ [0])) = P at hH
  generalize hHH : partHeader a = H at hH
  have hpo : partOctets a = uintVarOctets H.length ++ (uintVarOctets a.Data.length ++
      (H ++ a.Data)) := by
    unfold partOctets
    rw [hHH]
  have hHlen : H.length = B.length + P.length := by rw [hH]; simp
  have hd0 : d.length = pre.length + ((partOctets a).length + post.length) := by
    rw [hd]; simp
  have hH0 : H.length + a.Data.length ≤ (partOctets a).length := by
    rw [hpo]; simp; omega
  have hU1pos := uintVarOctets_length_pos H.length (by omega)
  generalize hU1 : uintVarOctets H.length = U1 at hpo hU1pos
  generalize hU2 : uintVarOctets a.Data.length = U2 at hpo
  have hdlen : d.length = pre.length + (U1.length + (U2.length + (B.length + (P.length +
      (a.Data.length + post.length))))) := by
    rw [hd, hpo, hH]; simp
  -- the two lengths
  have r1 : ReadUintVar { Data := d, Offset := o } .nil "" =
      .ok H.length { Data := d, Offset := o + U1.length } .nil :=
    ReadUintVar_eq d pre (U2 ++ (H ++ a.Data) ++ post) H.length (by omega) o _
      (by rw [hd, hpo, hU1]; simp) ho (by rw [hU1])
  have r2 : ReadUintVar { Data := d, Offset := o + U1.length } .nil "" =
      .ok a.Data.length { Data := d, Offset := o + U1.length + U2.length } .nil :=
    ReadUintVar_eq d (pre ++ U1) ((H ++ a.Data) ++ post) a.Data.length (by omega) _ _
      (by rw [hd, hpo, hU2]; simp) (by simp; omega) (by rw [hU2])
  -- the media-type block
  obtain ⟨c1, r3, m1, l1, i1, d1, s1⟩ := ReadAttachment_block_eq d (pre ++ (U1 ++ U2))
    (P ++ (a.Data ++ post)) a.MediaType a.Name (o + U1.length + U2.length)
    { Offset := o + U1.length + U2.length + H.length + 1 }
    (by rw [hd, hpo, hH, hB]; simp) (by simp; omega) hbound hzn hmedia
  rw [hB] at r3
  -- the location and the identifier
  obtain ⟨c2, r4, m2, l2, i2, d2, s2⟩ := ReadMMSHeaders_eq d (pre ++ (U1 ++ (U2 ++ B)))
    (a.Data ++ post) a.ContentLocation a.ContentID (o + U1.length + U2.length + B.length)
    (o + U1.length + U2.length + H.length) c1
    (by rw [hd, hpo, hH, hP]; simp) (by simp; omega)
    (by rw [hP, hHlen]; push_cast; ring) hzl hql hzi l1
  -- the data
  have r5 := ReadBoundedBytes_eq d (pre ++ (U1 ++ (U2 ++ H))) a.Data post
    (o + U1.length + U2.length + H.length + 1)
    (o + U1.length + U2.length + H.length + 1 + a.Data.length) c2
    (by rw [hd, hpo]; simp) (by simp; omega) rfl
  refine ⟨{ c2 with Data := a.Data }, ?_, m2.trans m1, i2, l2, rfl⟩
  unfold readAttachmentPart
  rw [r1]
  dsimp only [Result.andThen]
  rw [r2]
  dsimp only [Result.andThen]
  rw [toInt_small H.length (by omega), toInt_small a.Data.length (by omega),
    wrapInt_small (o + U1.length + U2.length + H.length) (by omega) (by omega),
    wrapInt_small (o + U1.length + U2.length + H.length + 1) (by omega) (by omega), r3]
  dsimp only
  rw [r4]
  dsimp only
  rw [wrapInt_small (o + U1.length + U2.length + H.length + 1 + a.Data.length) (by omega)
    (by omega), r5]
  dsimp only [Target.structOr]
  rw [ofStruct_reflect, if_neg (by simp [s2, s1])]
  refine Result.ok_congr _ _ _ _ _ ?_
  rw [hpo]
  simp
  ring
/-- A part of a multipart body has at least one octet. -/
theorem partOctets_length_pos (a : Attachment) : 1 ≤ (partOctets a).length := by
  unfold partOctets partHeader
  simp
  omega

/-- A multipart body has at least as many octets as parts. -/
theorem length_le_partsOctets (l : List Attachment) : l.length ≤ (partsOctets l).length := by
  induction l with
  | nil => simp
  | cons a rest ih =>
    have := partOctets_length_pos a
    simp only [partsOctets, List.length_cons, List.length_append]
    omega

/-- The loop of `ReadAttachmentParts` on the written parts of a list: the decoded parts are
appended in the same order, each with the media type, identifier, location and data of
the written part, and the cursor is on the last octet of the last part. -/
theorem readAttachmentPartsLoop_eq (l : List Attachment) :
    ∀ (d pre post : List Nat) (o : Int) (acc : List Attachment),
      d = pre ++ (partsOctets l ++ post) → o + 1 = pre.length → d.length < 2 ^ 63 →
      (∀ a ∈ l,
        (a.MediaType ∈ contentTypes ∨
          ((∃ b, a.MediaType.head? = some b ∧ 32 ≤ b ∧ b ≤ 127 ∧ b ≠ 34) ∧
            0 ∉ a.MediaType ∧ a.MediaType.length < 30)) ∧
        0 ∉ a.Name ∧ 0 ∉ a.ContentLocation ∧ a.ContentLocation.head? ≠ some 34 ∧
        0 ∉ a.ContentID) →
      ∃ l' : List Attachment,
        readAttachmentPartsLoop l.length { Data := d, Offset := o } acc =
          .ok (acc ++ l') { Data := d, Offset := o + ((partsOctets l).length : Nat) } .nil ∧
        l'.map (fun a => (a.MediaType, a.ContentID, a.ContentLocation, a.Data)) =
          l.map (fun a => (a.MediaType, a.ContentID, a.ContentLocation, a.Data)) := by
  induction l with
  | nil =>
    intro d pre post o acc _ _ _ _
    refine ⟨[], ?_, rfl⟩
    simp [readAttachmentPartsLoop, partsOctets]
  | cons a rest ih =>
    intro d pre post o acc hd ho hbound hl
    obtain ⟨hm, hzn, hzl, hql, hzi⟩ := hl a (List.mem_cons_self a rest)
    obtain ⟨a', r1, e1, e2, e3, e4⟩ := readAttachmentPart_eq d pre (partsOctets rest ++ post) a o
      (by rw [hd]; simp [partsOctets]) ho hbound hm hzn hzl hql hzi
    obtain ⟨l', r2, e5⟩ := ih d (pre ++ partOctets a) post (o + ((partOctets a).length : Nat))
      (acc ++ [a']) (by rw [hd]; simp [partsOctets]) (by simp; omega) hbound
      (fun b hb => hl b (List.mem_cons_of_mem a hb))
    refine ⟨a' :: l', ?_, ?_⟩
    · rw [List.length_cons, readAttachmentPartsLoop, r1]
      dsimp only [Result.andThen]
      rw [r2]
      simp only [List.append_assoc, List.singleton_append, partsOctets, List.length_append]
      refine Result.ok_congr _ _ _ _ _ ?_
      push_cast
      ring
    · simp only [List.map_cons, e5, e1, e2, e3, e4]

theorem setField_Attachments (p : MRetrieveConf) (l : List Attachment) :
    (MRetrieveConf.reflect p).setField "Attachments" (.attachments l) =
      MRetrieveConf.reflect { p with Attachments := l } := by
  rfl

theorem FieldByName_Attachments (p : MRetrieveConf) :
    (MRetrieveConf.reflect p).FieldByName "Attachments" = some (.attachments p.Attachments) := by
  rfl

/-- `ReadAttachmentParts` on a written multipart body. -/
theorem ReadAttachmentParts_eq (l : List Attachment) (p : MRetrieveConf) (d pre post : List Nat)
    (o : Int) (hd : d = pre ++ (multipartBody l ++ post)) (ho : o + 1 = pre.length)
    (hbound : d.length < 2 ^ 63)
    (hl : ∀ a ∈ l,
      (a.MediaType ∈ contentTypes ∨
        ((∃ b, a.MediaType.head? = some b ∧ 32 ≤ b ∧ b ≤ 127 ∧ b ≠ 34) ∧
          0 ∉ a.MediaType ∧ a.MediaType.length < 30)) ∧
      0 ∉ a.Name ∧ 0 ∉ a.ContentLocation ∧ a.ContentLocation.head? ≠ some 34 ∧
      0 ∉ a.ContentID) :
    ∃ l' : List Attachment,
      ReadAttachmentParts { Data := d, Offset := o } (MRetrieveConf.reflect p) =
        .ok () { Data := d, Offset := o + ((multipartBody l).length : Nat) }
          (.struct (MRetrieveConf.reflect { p with Attachments := l' })) ∧
      l'.map (fun a => (a.MediaType, a.ContentID, a.ContentLocation, a.Data)) =
        l.map (fun a => (a.MediaType, a.ContentID, a.ContentLocation, a.Data)) := by
  have hcount : l.length < 2 ^ 64 := by
    have h1 := length_le_partsOctets l
    have h2 : d.length = pre.length + ((uintVarOctets l.length).length +
        (partsOctets l).length + post.length) := by
      rw [hd]; simp [multipartBody]; omega
    omega
  have r1 : ReadUintVar { Data := d, Offset := o } .nil "" =
      .ok l.length { Data := d, Offset := o + (uintVarOctets l.length).length } .nil :=
    ReadUintVar_eq d pre (partsOctets l ++ post) l.length hcount o _
      (by rw [hd]; simp [multipartBody]) ho rfl
  obtain ⟨l', r2, e⟩ := readAttachmentPartsLoop_eq l d (pre ++ uintVarOctets l.length) post
    (o + (uintVarOctets l.length).length) [] (by rw [hd]; simp [multipartBody])
    (by simp; omega) hbound hl
  refine ⟨l', ?_, e⟩
  unfold ReadAttachmentParts
  rw [r1]
  dsimp only
  rw [r2]
  dsimp only
  rw [FieldByName_Attachments]
  dsimp only
  rw [setField_Attachments, List.nil_append]
  congr 2
  simp [multipartBody]
  ring
/-- C26 refuted: the one-part list whose media type is the two octets `"x` (a text media
type of two octets, no name, no location, no identifier) is written as
`01 07 01 03 22 78 00 C0 22 00 01`, and `ReadAttachmentParts` decodes a part whose media
type is `x`: `ReadString` drops the leading quote. -/
theorem multipart_quoted_mediaType :
    NewEncoder.writeAttachments [{ MediaType := [34, 120], Data := [1] }] =
      .ok { w := [1, 7, 1, 3, 34, 120, 0, 192, 34, 0, 1] } ∧
    ReadAttachmentParts { Data := [0xA3, 1, 7, 1, 3, 34, 120, 0, 192, 34, 0, 1], Offset := 0 }
        (NewMRetrieveConf []).reflect =
      .ok () { Data := [0xA3, 1, 7, 1, 3, 34, 120, 0, 192, 34, 0, 1], Offset := 11 }
        (.struct (MRetrieveConf.reflect
          { Type_ := 0x84,
            Attachments := [{ MediaType := [120], Length := 3, Offset := 11, Data := [1] }] })) := by
  decide

/-- C26 (amended): for every list of attachments whose media type is in the well-known
table or is a text shorter than 30 octets that starts with a text octet other than the
double quote and has no zero octet, whose name, location and identifier have no zero octet
and whose location does not begin with a double quote, with any data: `writeAttachments`
writes the multipart body, and `ReadAttachmentParts` on it (the input being shorter than
`2^63` octets, as every Go slice) returns nil with the cursor on its last octet and stores
as many parts in the same order, each with the media type, the identifier, the location and
the data of the written part. -/
theorem multipart_roundtrip (l : List Attachment) (p : MRetrieveConf) (enc : Encoder)
    (pre post : List Nat) (hbound : (pre ++ (multipartBody l ++ post)).length < 2 ^ 63)
    (hl : ∀ a ∈ l,
      (a.MediaType ∈ contentTypes ∨
        ((∃ b, a.MediaType.head? = some b ∧ 32 ≤ b ∧ b ≤ 127 ∧ b ≠ 34) ∧
          0 ∉ a.MediaType ∧ a.MediaType.length < 30)) ∧
      0 ∉ a.Name ∧ 0 ∉ a.ContentLocation ∧ a.ContentLocation.head? ≠ some 34 ∧
      0 ∉ a.ContentID) :
    enc.writeAttachments l = .ok { w := enc.w ++ multipartBody l } ∧
    ∃ decoded : List Attachment,
      ReadAttachmentParts
          { Data := pre ++ (multipartBody l ++ post), Offset := (pre.length : Int) - 1 }
          (MRetrieveConf.reflect p) =
        .ok ()
          { Data := pre ++ (multipartBody l ++ post),
            Offset := (pre.length : Int) - 1 + ((multipartBody l).length : Nat) }
          (.struct (MRetrieveConf.reflect { p with Attachments := decoded })) ∧
      decoded.length = l.length ∧
      decoded.map (fun a => (a.MediaType, a.ContentID, a.ContentLocation, a.Data)) =
        l.map (fun a => (a.MediaType, a.ContentID, a.ContentLocation, a.Data)) := by
  obtain ⟨l', h, e⟩ := ReadAttachmentParts_eq l p _ pre post ((pre.length : Int) - 1) rfl
    (by omega) hbound hl
  refine ⟨writeAttachments_eq l enc, l', h, ?_, e⟩
  have := congrArg List.length e
  simpa using this

/-- C26 (amended) at the two-part body of an `application/smil` part with the payload
`<smil></smil>` and an `image/jpeg` part with 10 octets, read after the content type
`A3` of the message. -/
theorem multipart_roundtrip_witness :
    ∃ decoded : List Attachment,
      ReadAttachmentParts
          { Data := [0xA3] ++ (multipartBody
              [{ MediaType := lit "application/smil", ContentID := lit "<smil>",
                 ContentLocation := lit "s", Name := lit "s", Data := lit "<smil></smil>" },
               { MediaType := lit "image/jpeg", ContentID := lit "i", ContentLocation := lit "i",
                 Name := lit "i", Data := [0, 1, 2, 3, 4, 5, 6, 7, 8, 9] }] ++ []),
            Offset := (([0xA3] : List Nat).length : Int) - 1 }
          (MRetrieveConf.reflect (NewMRetrieveConf [])) =
        .ok ()
          { Data := [0xA3] ++ (multipartBody
              [{ MediaType := lit "application/smil", ContentID := lit "<smil>",
                 ContentLocation := lit "s", Name := lit "s", Data := lit "<smil></smil>" },
               { MediaType := lit "image/jpeg", ContentID := lit "i", ContentLocation := lit "i",
                 Name := lit "i", Data := [0, 1, 2, 3, 4, 5, 6, 7, 8, 9] }] ++ []),
            Offset := (([0xA3] : List Nat).length : Int) - 1 + ((multipartBody
              [{ MediaType := lit "application/smil", ContentID := lit "<smil>",
                 ContentLocation := lit "s", Name := lit "s", Data := lit "<smil></smil>" },
               { MediaType := lit "image/jpeg", ContentID := lit "i", ContentLocation := lit "i",
                 Name := lit "i", Data := [0, 1, 2, 3, 4, 5, 6, 7, 8, 9] }]).length : Nat) }
          (.struct (MRetrieveConf.reflect
            { NewMRetrieveConf [] with Attachments := decoded })) ∧
      decoded.length = 2 ∧
      decoded.map (fun a => (a.MediaType, a.ContentID, a.ContentLocation, a.Data)) =
        [(lit "application/smil", lit "<smil>", lit "s", lit "<smil></smil>"),
         (lit "image/jpeg", lit "i", lit "i", [0, 1, 2, 3, 4, 5, 6, 7, 8, 9])] :=
  (multipart_roundtrip
    [{ MediaType := lit "application/smil", ContentID := lit "<smil>",
       ContentLocation := lit "s", Name := lit "s", Data := lit "<smil></smil>" },
     { MediaType := lit "image/jpeg", ContentID := lit "i", ContentLocation := lit "i",
       Name := lit "i", Data := [0, 1, 2, 3, 4, 5, 6, 7, 8, 9] }]
    (NewMRetrieveConf []) NewEncoder [0xA3] [] (by decide)
    (by
      intro a ha
      simp only [List.mem_cons, List.mem_singleton, List.not_mem_nil, or_false] at ha
      rcases ha with rfl | rfl
      · exact ⟨Or.inr ⟨⟨97, by decide, by decide, by decide, by decide⟩, by decide, by decide⟩,
          by decide, by decide, by decide, by decide⟩
      · exact ⟨Or.inl (by decide), by decide, by decide, by decide, by decide⟩)).2

/-! ## The charset parameter of a part -/

/-- `ReadCharset` into an attachment, with the cursor on an octet `b` other than 128
followed by the octets `cs` that `writeInteger` writes for the code `c`: the charset of the
code is stored in `Charset`, and a code that is no key of the table is an error. -/
theorem ReadCharset_struct_eq (d pre post cs : List Nat) (b c : Nat) (hb : b ≠ 128)
    (hc : c < 2 ^ 64) (hw : NewEncoder.writeInteger c = .ok { w := cs }) (o o' : Int)
    (hd : d = pre ++ b :: (cs ++ post)) (ho : o = pre.length) (ho' : o' = o + cs.length)
    (a : Attachment) :
    ReadCharset { Data := d, Offset := o } (.struct (Attachment.reflect a)) "Charset" =
      match lookupCharset c with
      | some name =>
        .ok name { Data := d, Offset := o' } (.struct (Attachment.reflect { a with Charset := name }))
      | none => .error { Data := d, Offset := o' } (.struct (Attachment.reflect a)) := by
  have hcs := writeInteger_new c hc cs hw
  subst hcs
  subst hd ho'
  have hcur := byteAt_append pre
    ((if c < 128 then [128 + c] else (encodeLong c).length :: encodeLong c) ++ post) b o o ho
  have e : pre ++ b ::
      ((if c < 128 then [128 + c] else (encodeLong c).length :: encodeLong c) ++ post) =
      (pre ++ [b]) ++
        ((if c < 128 then [128 + c] else (encodeLong c).length :: encodeLong c) ++ post) := by
    simp
  unfold ReadCharset
  dsimp only
  rw [hcur]
  dsimp only
  rw [if_neg (by unfold anyCharset; exact hb), e,
    ReadInteger_written_at (pre ++ [b]) post c hc o (by simp; omega)]
  dsimp only
  cases lookupCharset c with
  | some name => rfl
  | none => rfl

theorem readAttachmentParam_charset (dec : Decoder) (ctMember : Target) :
    readAttachmentParam 1 dec ctMember =
      (ReadCharset dec ctMember "Charset").andThen fun _ dec pdu => .ok () dec pdu := rfl

/-- `ReadAttachment` on a content-type block with a charset parameter: the value-length
`n` (stored in `Length`), the octets `mo` of the media type, which `ReadMediaType` reads as
`media`, and the parameter `81` followed by the code `c`.  The charset of the code is
stored in `Charset`; a code that is no key of the table makes `ReadAttachment` return an
error. -/
theorem ReadAttachment_charset_eq (d pre post mo cs : List Nat) (media : GoString) (n c : Nat)
    (o : Int) (a : Attachment)
    (hd : d = pre ++ (valueLengthOctets n ++ (mo ++ (129 :: (cs ++ post)))))
    (hn : n = mo.length + (1 + cs.length)) (ho : o + 1 = pre.length)
    (hbound : d.length < 2 ^ 63) (hc : c < 2 ^ 64)
    (hw : NewEncoder.writeInteger c = .ok { w := cs })
    (hRM : ∀ c : Attachment,
      ReadMediaType { Data := d, Offset := o + (valueLengthOctets n).length }
          (.struct (Attachment.reflect c)) "MediaType" =
        .ok () { Data := d, Offset := o + (valueLengthOctets n).length + mo.length }
          (.struct (Attachment.reflect { c with MediaType := media }))) :
    ReadAttachment { Data := d, Offset := o } (.struct (Attachment.reflect a)) =
      match lookupCharset c with
      | some name =>
        .ok () { Data := d, Offset := o + (valueLengthOctets n).length + n }
          (.struct (Attachment.reflect
            { a with Length := n, MediaType := media, Charset := name }))
      | none =>
        .error { Data := d, Offset := o + (valueLengthOctets n).length + n }
          (.struct (Attachment.reflect { a with Length := n, MediaType := media })) := by
  obtain ⟨b, rest, hv, hb32⟩ := valueLengthOctets_head n
  have hlen : d.length = pre.length + ((valueLengthOctets n).length + (mo.length +
      (1 + (cs.length + post.length)))) := by
    rw [hd]; simp; omega
  have hbyte : Decoder.byteAt { Data := d, Offset := o } (o + 1) = some b :=
    byteAt_of_eq d pre (rest ++ (mo ++ (129 :: (cs ++ post)))) b o (o + 1)
      (by rw [hd, hv]; simp) ho
  have hvl : 1 ≤ (valueLengthOctets n).length := by rw [hv]; simp
  unfold ReadAttachment
  dsimp only
  rw [if_neg (by rw [hlen]; push_cast; omega), hbyte]
  dsimp only
  rw [if_neg (by unfold shortFilter; rw [and_80_lt_32 b hb32]; simp),
    if_neg (by unfold textMin; omega),
    ReadLength_struct_eq d pre _ n (by omega) o (o + (valueLengthOctets n).length) hd ho rfl a]
  dsimp only [Result.andThen]
  rw [toInt_small n (by omega), wrapInt_small _ (by omega) (by omega), hRM]
  dsimp only
  obtain ⟨k, hk⟩ : ∃ k, d.length + 1 = k + 2 := ⟨d.length - 1, by omega⟩
  rw [hk, readAttachmentLoop]
  dsimp only
  rw [if_pos ⟨by rw [hlen]; push_cast; omega, by omega⟩,
    ReadInteger_short_eq d (pre ++ (valueLengthOctets n ++ mo)) (cs ++ post) 1
      (by norm_num) _ (o + (valueLengthOctets n).length + mo.length + 1)
      (by rw [hd]; simp) (by simp; omega) rfl]
  dsimp only [Result.andThen]
  rw [readAttachmentParam_charset,
    ReadCharset_struct_eq d (pre ++ (valueLengthOctets n ++ mo)) post cs 129 c (by norm_num) hc
      hw _ (o + (valueLengthOctets n).length + n) (by rw [hd]; simp) (by simp; omega)
      (by rw [hn]; push_cast; ring)]
  cases lookupCharset c with
  | some name =>
    dsimp only [Result.andThen]
    rw [readAttachmentLoop]
    dsimp only
    rw [if_neg (by omega)]
  | none => rfl
/-- `ReadMediaType` on the octets of a media type: its well-known code, or its
zero-terminated text when it starts with a text octet other than the quote. -/
theorem ReadMediaType_octets_eq (d pre post mo : List Nat) (media : GoString) (o : Int)
    (hmo : (∃ mt, encodeContentType media = some mt ∧ mo = [128 + mt]) ∨
      ((∃ b, media.head? = some b ∧ 32 ≤ b ∧ b ≤ 127 ∧ b ≠ 34) ∧ 0 ∉ media ∧
        mo = media ++ [0]))
    (hd : d = pre ++ (mo ++ post)) (ho : o + 1 = pre.length) (c : Attachment) :
    ReadMediaType { Data := d, Offset := o } (.struct (Attachment.reflect c)) "MediaType" =
      .ok () { Data := d, Offset := o + mo.length }
        (.struct (Attachment.reflect { c with MediaType := media })) := by
  rcases hmo with ⟨mt, hmt, rfl⟩ | ⟨⟨b, hb, hlo, hhi, hq⟩, hz, rfl⟩
  · exact ReadMediaType_code_eq d pre post media mt hmt o _ (by rw [hd]; simp) ho (by simp) c
  · exact ReadMediaType_text_eq d pre post media b hb hlo hhi hq hz o _ (by rw [hd]; simp) ho
      (by simp; ring) c

/-- The first of the octets of a media type has the high bit or is a text octet. -/
theorem mediaOctets_head (mo : List Nat) (media : GoString)
    (hmo : (∃ mt, encodeContentType media = some mt ∧ mo = [128 + mt]) ∨
      ((∃ b, media.head? = some b ∧ 32 ≤ b ∧ b ≤ 127 ∧ b ≠ 34) ∧ 0 ∉ media ∧
        mo = media ++ [0])) :
    ∃ b rest, mo = b :: rest ∧ (b &&& 0x80 ≠ 0 ∨ (32 ≤ b ∧ b ≤ 127)) := by
  rcases hmo with ⟨mt, hmt, rfl⟩ | ⟨⟨b, hb, hlo, hhi, hq⟩, hz, rfl⟩
  · have hlt := encodeContentType_lt media mt hmt
    exact ⟨128 + mt, [], rfl, Or.inl (short_octet mt (by omega)).2.1⟩
  · cases media with
    | nil => simp at hb
    | cons x t =>
      simp only [List.head?_cons, Option.some.injEq] at hb
      subst hb
      exact ⟨x, t ++ [0], by simp, Or.inr ⟨hlo, hhi⟩⟩

/-- `ReadAttachment` on the octets of a media type without a value-length. -/
theorem ReadAttachment_bare_eq (d pre post mo : List Nat) (media : GoString) (o : Int)
    (hmo : (∃ mt, encodeContentType media = some mt ∧ mo = [128 + mt]) ∨
      ((∃ b, media.head? = some b ∧ 32 ≤ b ∧ b ≤ 127 ∧ b ≠ 34) ∧ 0 ∉ media ∧
        mo = media ++ [0]))
    (hd : d = pre ++ (mo ++ post)) (ho : o + 1 = pre.length) (c : Attachment) :
    ReadAttachment { Data := d, Offset := o } (.struct (Attachment.reflect c)) =
      .ok () { Data := d, Offset := o + mo.length }
        (.struct (Attachment.reflect { c with MediaType := media })) := by
  obtain ⟨b, rest, hbr, hb⟩ := mediaOctets_head mo media hmo
  have hbyte : Decoder.byteAt { Data := d, Offset := o } (o + 1) = some b :=
    byteAt_of_eq d pre (rest ++ post) b o (o + 1) (by rw [hd, hbr]; simp) ho
  have hlen : d.length = pre.length + (mo.length + post.length) := by rw [hd]; simp
  have hmolen : 1 ≤ mo.length := by rw [hbr]; simp
  rw [← ReadMediaType_octets_eq d pre post mo media o hmo hd ho c]
  unfold ReadAttachment
  dsimp only
  rw [if_neg (by rw [hlen]; push_cast; omega), hbyte]
  dsimp only
  rcases hb with h1 | h2
  · rw [if_pos (by unfold shortFilter; exact h1)]
  · by_cases h1 : b &&& shortFilter ≠ 0
    · rw [if_pos h1]
    · rw [if_neg h1, if_pos (by unfold textMin textMax; exact h2)]

/-- `readAttachmentPart` on a part whose header is a content-type block only: when
`ReadAttachment` reads the block into the record `c1`, the decoded part is `c1` with the
data, and with `;charset=` and the charset appended to the media type when `c1` has a
charset. -/
theorem readAttachmentPart_header_eq (d pre post H data : List Nat) (o : Int) (c1 : Attachment)
    (hd : d = pre ++ (uintVarOctets H.length ++ (uintVarOctets data.length ++
      (H ++ (data ++ post)))))
    (ho : o + 1 = pre.length) (hbound : d.length < 2 ^ 63)
    (hRA : ReadAttachment
        { Data := d,
          Offset := o + (uintVarOctets H.length).length + (uintVarOctets data.length).length }
        (.struct (Attachment.reflect
          { Offset := o + (uintVarOctets H.length).length +
              (uintVarOctets data.length).length + H.length + 1 })) =
      .ok ()
        { Data := d,
          Offset := o + (uintVarOctets H.length).length + (uintVarOctets data.length).length +
            H.length }
        (.struct (Attachment.reflect c1))) :
    readAttachmentPart { Data := d, Offset := o } =
      .ok
        (if c1.Charset ≠ [] then
          { c1 with Data := data, MediaType := c1.MediaType ++ lit ";charset=" ++ c1.Charset }
        else { c1 with Data := data })
        { Data := d,
          Offset := o + (uintVarOctets H.length).length + (uintVarOctets data.length).length +
            H.length + data.length }
        .nil := by
  have hdlen : d.length = pre.length + ((uintVarOctets H.length).length +
      ((uintVarOctets data.length).length + (H.length + (data.length + post.length)))) := by
    rw [hd]; simp
  have hU1pos := uintVarOctets_length_pos H.length (by omega)
  have r1 : ReadUintVar { Data := d, Offset := o } .nil "" =
      .ok H.length { Data := d, Offset := o + (uintVarOctets H.length).length } .nil :=
    ReadUintVar_eq d pre _ H.length (by omega) o _ hd ho rfl
  have r2 : ReadUintVar { Data := d, Offset := o + (uintVarOctets H.length).length } .nil "" =
      .ok data.length
        { Data := d,
          Offset := o + (uintVarOctets H.length).length + (uintVarOctets data.length).length }
        .nil :=
    ReadUintVar_eq d (pre ++ uintVarOctets H.length) (H ++ (data ++ post)) data.length
      (by omega) _ _ (by rw [hd]; simp) (by simp; omega) rfl
  have r5 := ReadBoundedBytes_eq d
    (pre ++ (uintVarOctets H.length ++ (uintVarOctets data.length ++ H))) data post
    (o + (uintVarOctets H.length).length + (uintVarOctets data.length).length + H.length + 1)
    (o + (uintVarOctets H.length).length + (uintVarOctets data.length).length + H.length + 1 +
      data.length) c1
    (by rw [hd]; simp) (by simp; omega) rfl
  obtain ⟨k, hk⟩ : ∃ k, d.length + 1 = k + 1 := ⟨d.length, rfl⟩
  unfold readAttachmentPart
  rw [r1]
  dsimp only [Result.andThen]
  rw [r2]
  dsimp only [Result.andThen]
  rw [toInt_small H.length (by omega), toInt_small data.length (by omega),
    wrapInt_small (o + (uintVarOctets H.length).length + (uintVarOctets data.length).length +
      H.length) (by omega) (by omega),
    wrapInt_small (o + (uintVarOctets H.length).length + (uintVarOctets data.length).length +
      H.length + 1) (by omega) (by omega), hRA]
  dsimp only
  unfold ReadMMSHeaders
  dsimp only
  rw [hk, readMMSHeadersLoop]
  dsimp only
  rw [if_neg (by omega)]
  dsimp only
  rw [wrapInt_small (o + (uintVarOctets H.length).length + (uintVarOctets data.length).length +
      H.length + 1 + data.length) (by omega) (by omega), r5]
  dsimp only [Target.structOr]
  rw [ofStruct_reflect]
  have e : o + (uintVarOctets H.length).length + (uintVarOctets data.length).length +
      H.length + 1 + data.length - 1 =
      o + (uintVarOctets H.length).length + (uintVarOctets data.length).length +
        H.length + data.length := by ring
  rw [e]
/-- No charset of the table has an empty name. -/
theorem lookupCharset_ne_nil (c : Nat) (name : GoString) (h : lookupCharset c = some name) :
    name ≠ [] := by
  have hall : ∀ p ∈ CHARSETS, p.2 ≠ [] := by decide
  unfold lookupCharset at h
  cases hf : CHARSETS.find? (fun p => p.1 == c) with
  | none => rw [hf] at h; cases h
  | some p =>
    rw [hf] at h
    have hp : p.2 = name := Option.some.inj h
    rw [← hp]
    exact hall p (List.mem_of_find?_eq_some hf)

/-- An error of `ReadAttachment` on the header of a part is returned by
`readAttachmentPart`. -/
theorem readAttachmentPart_header_error (d pre post H data : List Nat) (o : Int)
    (dec' : Decoder) (t : Target)
    (hd : d = pre ++ (uintVarOctets H.length ++ (uintVarOctets data.length ++
      (H ++ (data ++ post)))))
    (ho : o + 1 = pre.length) (hbound : d.length < 2 ^ 63)
    (hRA : ReadAttachment
        { Data := d,
          Offset := o + (uintVarOctets H.length).length + (uintVarOctets data.length).length }
        (.struct (Attachment.reflect
          { Offset := o + (uintVarOctets H.length).length +
              (uintVarOctets data.length).length + H.length + 1 })) =
      .error dec' t) :
    readAttachmentPart { Data := d, Offset := o } = .error dec' t := by
  have hdlen : d.length = pre.length + ((uintVarOctets H.length).length +
      ((uintVarOctets data.length).length + (H.length + (data.length + post.length)))) := by
    rw [hd]; simp
  have hU1pos := uintVarOctets_length_pos H.length (by omega)
  have r1 : ReadUintVar { Data := d, Offset := o } .nil "" =
      .ok H.length { Data := d, Offset := o + (uintVarOctets H.length).length } .nil :=
    ReadUintVar_eq d pre _ H.length (by omega) o _ hd ho rfl
  have r2 : ReadUintVar { Data := d, Offset := o + (uintVarOctets H.length).length } .nil "" =
      .ok data.length
        { Data := d,
          Offset := o + (uintVarOctets H.length).length + (uintVarOctets data.length).length }
        .nil :=
    ReadUintVar_eq d (pre ++ uintVarOctets H.length) (H ++ (data ++ post)) data.length
      (by omega) _ _ (by rw [hd]; simp) (by simp; omega) rfl
  unfold readAttachmentPart
  rw [r1]
  dsimp only [Result.andThen]
  rw [r2]
  dsimp only [Result.andThen]
  rw [toInt_small H.length (by omega),
    wrapInt_small (o + (uintVarOctets H.length).length + (uintVarOctets data.length).length +
      H.length) (by omega) (by omega),
    wrapInt_small (o + (uintVarOctets H.length).length + (uintVarOctets data.length).length +
      H.length + 1) (by omega) (by omega), hRA]
/-- C27: for a part of a multipart body whose header is a content-type block made of a
value-length, a media type (a well-known code, or a zero-terminated text) and the charset
parameter `81` followed by the code `c` as an integer: when `c` is a key of `CHARSETS`,
`readAttachmentPart`, the body of the loop of `ReadAttachmentParts`, gives a part whose
`Charset` is the name of `c` and whose `MediaType` is the media type followed by
`;charset=` and that name; when `c` is no key it returns an error, which ends the loop of
`ReadAttachmentParts` with that error.  For a part whose header is the media type alone, the
`MediaType` is the decoded media type unchanged and the `Charset` is empty. -/
theorem part_charset_appended (d d0 pre post mo cs H data : List Nat) (media : GoString)
    (c parts : Nat) (acc : List Attachment)
    (hmo : (∃ mt, encodeContentType media = some mt ∧ mo = [128 + mt]) ∨
      ((∃ b, media.head? = some b ∧ 32 ≤ b ∧ b ≤ 127 ∧ b ≠ 34) ∧ 0 ∉ media ∧
        mo = media ++ [0]))
    (hc : c < 2 ^ 64) (hw : NewEncoder.writeInteger c = .ok { w := cs })
    (hH : H = valueLengthOctets (mo.length + (1 + cs.length)) ++ (mo ++ 0x81 :: cs))
    (hd : d = pre ++ (uintVarOctets H.length ++ (uintVarOctets data.length ++
      (H ++ (data ++ post)))))
    (hd0 : d0 = pre ++ (uintVarOctets mo.length ++ (uintVarOctets data.length ++
      (mo ++ (data ++ post)))))
    (hbound : d.length < 2 ^ 63) (hbound0 : d0.length < 2 ^ 63) :
    (∀ name, lookupCharset c = some name →
      readAttachmentPart { Data := d, Offset := (pre.length : Int) - 1 } =
        .ok
          { Offset := (pre.length : Int) - 1 + (uintVarOctets H.length).length +
              (uintVarOctets data.length).length + H.length + 1,
            Length := mo.length + (1 + cs.length),
            MediaType := media ++ lit ";charset=" ++ name,
            Charset := name,
            Data := data }
          { Data := d,
            Offset := (pre.length : Int) - 1 + (uintVarOctets H.length).length +
              (uintVarOctets data.length).length + H.length + data.length }
          .nil) ∧
    (lookupCharset c = none →
      ∃ dec' t,
        readAttachmentPart { Data := d, Offset := (pre.length : Int) - 1 } = .error dec' t ∧
        readAttachmentPartsLoop (parts + 1) { Data := d, Offset := (pre.length : Int) - 1 } acc =
          .error dec' t) ∧
    readAttachmentPart { Data := d0, Offset := (pre.length : Int) - 1 } =
      .ok
        { Offset := (pre.length : Int) - 1 + (uintVarOctets mo.length).length +
            (uintVarOctets data.length).length + mo.length + 1,
          MediaType := media,
          Charset := [],
          Data := data }
        { Data := d0,
          Offset := (pre.length : Int) - 1 + (uintVarOctets mo.length).length +
            (uintVarOctets data.length).length + mo.length + data.length }
        .nil := by
  have hHlen : H.length =
      (valueLengthOctets (mo.length + (1 + cs.length))).length + (mo.length + (1 + cs.length)) := by
    rw [hH]; simp; omega
  have hRA := ReadAttachment_charset_eq d
    (pre ++ (uintVarOctets H.length ++ uintVarOctets data.length)) (data ++ post) mo cs media
    (mo.length + (1 + cs.length)) c
    ((pre.length : Int) - 1 + (uintVarOctets H.length).length +
      (uintVarOctets data.length).length)
    { Offset := (pre.length : Int) - 1 + (uintVarOctets H.length).length +
        (uintVarOctets data.length).length + H.length + 1 }
    (by rw [hd, hH]; simp) rfl (by simp; omega) hbound hc hw
    (fun c0 => ReadMediaType_octets_eq d
      (pre ++ (uintVarOctets H.length ++ (uintVarOctets data.length ++
        valueLengthOctets (mo.length + (1 + cs.length)))))
      (0x81 :: (cs ++ (data ++ post))) mo media _ hmo (by rw [hd, hH]; simp)
      (by simp; omega) c0)
  have e : (pre.length : Int) - 1 + (uintVarOctets H.length).length +
      (uintVarOctets data.length).length +
      (valueLengthOctets (mo.length + (1 + cs.length))).length +
      ((mo.length + (1 + cs.length) : Nat) : Int) =
      (pre.length : Int) - 1 + (uintVarOctets H.length).length +
        (uintVarOctets data.length).length + H.length := by
    rw [hHlen]; push_cast; ring
  rw [e] at hRA
  refine ⟨fun name hname => ?_, fun hnone => ?_, ?_⟩
  · rw [hname] at hRA
    rw [readAttachmentPart_header_eq d pre post H data _ _ hd (by omega) hbound hRA,
      if_pos (lookupCharset_ne_nil c name hname)]
  · rw [hnone] at hRA
    have h := readAttachmentPart_header_error d pre post H data _ _ _ hd (by omega) hbound hRA
    exact ⟨_, _, h, by rw [readAttachmentPartsLoop, h]; rfl⟩
  · rw [readAttachmentPart_header_eq d0 pre post mo data _ _ hd0 (by omega) hbound0
      (ReadAttachment_bare_eq d0
        (pre ++ (uintVarOctets mo.length ++ uintVarOctets data.length)) (data ++ post) mo media
        _ hmo (by rw [hd0]; simp) (by simp; omega) _)]
    rw [if_neg (by simp)]
/-- C27 at a `text/plain` part (code `83`) with the charset parameter `81 EA` (utf-8) and
the data `hi`, after the count `01` of a body; and at the same part without the value-length
and the parameter. -/
theorem part_charset_appended_witness :
    readAttachmentPart { Data := [0xA3, 1, 4, 2, 3, 0x83, 0x81, 0xEA, 104, 105], Offset := 1 } =
      .ok
        { Offset := 8, Length := 3, MediaType := lit "text/plain;charset=utf-8",
          Charset := lit "utf-8", Data := [104, 105] }
        { Data := [0xA3, 1, 4, 2, 3, 0x83, 0x81, 0xEA, 104, 105], Offset := 9 } .nil ∧
    readAttachmentPart { Data := [0xA3, 1, 1, 2, 0x83, 104, 105], Offset := 1 } =
      .ok { Offset := 5, MediaType := lit "text/plain", Charset := [], Data := [104, 105] }
        { Data := [0xA3, 1, 1, 2, 0x83, 104, 105], Offset := 6 } .nil ∧
    ReadAttachmentParts { Data := [0xA3, 1, 4, 2, 3, 0x83, 0x81, 0x80, 104, 105], Offset := 0 }
        (NewMRetrieveConf []).reflect =
      .error { Data := [0xA3, 1, 4, 2, 3, 0x83, 0x81, 0x80, 104, 105], Offset := 7 }
        (.struct (NewMRetrieveConf []).reflect) :=
  have h := part_charset_appended [0xA3, 1, 4, 2, 3, 0x83, 0x81, 0xEA, 104, 105]
    [0xA3, 1, 1, 2, 0x83, 104, 105] [0xA3, 1] [] [0x83] [0xEA] [3, 0x83, 0x81, 0xEA] [104, 105]
    (lit "text/plain") 0x6A 0 [] (Or.inl ⟨3, by decide, by decide⟩) (by decide) (by decide)
    (by decide) (by decide) (by decide) (by decide) (by decide)
  ⟨(h.1 (lit "utf-8") (by decide)).trans (by decide), h.2.2.trans (by decide),
    by decide⟩

/-! ## A new send request -/

/-- What the loop of `processAttachments` computes: the parts whose media type starts with
`application/smil` in reverse order in front of the list reached so far, the other parts
behind it; the start of the last such part; the type `application/smil` when there is
one. -/
theorem processAttachmentsLoop_eq (l : List Attachment) :
    ∀ (oa : List Attachment) (smilStart smilType : GoString),
      processAttachmentsLoop l (oa, smilStart, smilType) =
        ((l.filter fun a => HasPrefix a.MediaType (lit "application/smil")).reverse ++ oa ++
            l.filter (fun a => !HasPrefix a.MediaType (lit "application/smil")),
          (match (l.filter fun a => HasPrefix a.MediaType (lit "application/smil")).getLast? with
            | some a => (getSmilStart a.Data).getD []
            | none => smilStart),
          (if (l.filter fun a => HasPrefix a.MediaType (lit "application/smil")) = [] then
            smilType
          else lit "application/smil")) := by
  induction l with
  | nil => intro oa s t; simp [processAttachmentsLoop]
  | cons a rest ih =>
    intro oa s t
    rw [processAttachmentsLoop]
    by_cases h : HasPrefix a.MediaType (lit "application/smil") = true
    · rw [if_pos h, ih]
      simp only [List.filter_cons, h, if_true, Bool.not_true, Bool.false_eq_true, if_false,
        List.reverse_cons, List.append_assoc, List.singleton_append]
      refine Prod.ext rfl (Prod.ext ?_ ?_)
      · cases hr : List.filter (fun a => HasPrefix a.MediaType (lit "application/smil")) rest with
        | nil => simp
        | cons b t =>
          simp only [List.getLast?_cons_cons]
          rw [List.getLast?_eq_getLast (b :: t) (by simp)]
      · simp
    · have h' : HasPrefix a.MediaType (lit "application/smil") = false := by simpa using h
      rw [if_neg h, ih]
      simp [List.filter_cons, h']
/-- The fields of a new send request that `processAttachments` computes. -/
theorem NewMSendReq_attachments (recipients : List GoString) (attachments : List Attachment)
    (deliveryReport : Bool) (uuid : GoString) (now : Int) :
    (NewMSendReq recipients attachments deliveryReport uuid now).Attachments =
      (attachments.filter fun a => HasPrefix a.MediaType (lit "application/smil")).reverse ++
        attachments.filter (fun a => !HasPrefix a.MediaType (lit "application/smil")) ∧
    (NewMSendReq recipients attachments deliveryReport uuid now).ContentTypeStart =
      (match (attachments.filter fun a =>
          HasPrefix a.MediaType (lit "application/smil")).getLast? with
        | some a => (getSmilStart a.Data).getD []
        | none => []) ∧
    (NewMSendReq recipients attachments deliveryReport uuid now).ContentTypeType =
      (if (attachments.filter fun a => HasPrefix a.MediaType (lit "application/smil")) = [] then
        []
      else lit "application/smil") ∧
    (NewMSendReq recipients attachments deliveryReport uuid now).Attachments =
      (processAttachments attachments).1 := by
  unfold NewMSendReq processAttachments
  rw [processAttachmentsLoop_eq]
  simp

/-- The last element of a non-empty list in front of its reverse. -/
theorem reverse_eq_getLast_cons {α : Type} (l : List α) (a : α) (h : l.getLast? = some a) :
    ∃ rest, l.reverse = a :: rest := by
  cases hr : l.reverse with
  | nil =>
    have : l = [] := List.reverse_eq_nil_iff.mp hr
    subst this
    simp at h
  | cons b t =>
    have h2 : l.reverse.head? = some b := by rw [hr]; rfl
    rw [List.head?_reverse, h] at h2
    exact ⟨t, by rw [Option.some.inj h2]⟩

/-- C28 refuted: of the two parts `application/smil` and `application/smilx` the second is
placed first in `Attachments`, and its media type is not `application/smil`. -/
theorem smil_first_not_exact :
    (NewMSendReq []
        [{ MediaType := lit "application/smil", Data := lit "<smil>" },
         { MediaType := lit "application/smilx", Data := lit "<x>" }] false [] 0).Attachments =
      [{ MediaType := lit "application/smilx", Data := lit "<x>" },
       { MediaType := lit "application/smil", Data := lit "<smil>" }] ∧
    lit "application/smilx" ≠ lit "application/smil" := by
  decide

/-- C28 (amended): for every attachment list with a part whose media type starts with
`application/smil` (as the media type `application/smil` itself does), the first element of
the `Attachments` of the new send request, the list that `processAttachments` gives, is the
last part of the list whose media type starts with `application/smil`; it is the first part
of the multipart body that `writeAttachments` writes for `Attachments`, and
`ContentTypeType` is `application/smil`. -/
theorem smil_part_first (recipients : List GoString) (attachments : List Attachment)
    (deliveryReport : Bool) (uuid : GoString) (now : Int) (enc : Encoder)
    (h : ∃ a ∈ attachments, HasPrefix a.MediaType (lit "application/smil") = true) :
    (∀ a : Attachment, a.MediaType = lit "application/smil" →
      HasPrefix a.MediaType (lit "application/smil") = true) ∧
    (NewMSendReq recipients attachments deliveryReport uuid now).Attachments =
      (processAttachments attachments).1 ∧
    (NewMSendReq recipients attachments deliveryReport uuid now).ContentTypeType =
      lit "application/smil" ∧
    ∃ first rest,
      (NewMSendReq recipients attachments deliveryReport uuid now).Attachments = first :: rest ∧
      (attachments.filter fun a =>
        HasPrefix a.MediaType (lit "application/smil")).getLast? = some first ∧
      first ∈ attachments ∧
      HasPrefix first.MediaType (lit "application/smil") = true ∧
      enc.writeAttachments
          (NewMSendReq recipients attachments deliveryReport uuid now).Attachments =
        .ok { w := enc.w ++ (uintVarOctets (rest.length + 1) ++
                (partOctets first ++ partsOctets rest)) } := by
  obtain ⟨hatt, _, htype, hproc⟩ :=
    NewMSendReq_attachments recipients attachments deliveryReport uuid now
  obtain ⟨a, ha, hp⟩ := h
  have hne : (attachments.filter fun a => HasPrefix a.MediaType (lit "application/smil")) ≠ [] :=
    List.ne_nil_of_mem (List.mem_filter.mpr ⟨ha, hp⟩)
  obtain ⟨first, hlast⟩ : ∃ first, (attachments.filter fun a =>
      HasPrefix a.MediaType (lit "application/smil")).getLast? = some first := by
    rw [List.getLast?_eq_getLast _ hne]
    exact ⟨_, rfl⟩
  obtain ⟨rest0, hrev⟩ := reverse_eq_getLast_cons _ first hlast
  have hmem := List.mem_filter.mp (List.mem_of_getLast?_eq_some hlast)
  refine ⟨fun b hb => by rw [hb]; decide, hproc, by rw [htype, if_neg hne], first,
    rest0 ++ attachments.filter (fun a => !HasPrefix a.MediaType (lit "application/smil")),
    by rw [hatt, hrev]; rfl, hlast, hmem.1, hmem.2, ?_⟩
  rw [hatt, hrev, writeAttachments_eq]
  rfl
/-- C28 (amended) at the list of an `image/jpeg` part and an `application/smil` part. -/
theorem smil_part_first_witness :
    (NewMSendReq [lit "+12345"]
        [{ MediaType := lit "image/jpeg", Data := [1, 2] },
         { MediaType := lit "application/smil", Data := lit "<smil>" }]
        true (lit "u") 1).ContentTypeType = lit "application/smil" ∧
    ∃ first rest,
      (NewMSendReq [lit "+12345"]
        [{ MediaType := lit "image/jpeg", Data := [1, 2] },
         { MediaType := lit "application/smil", Data := lit "<smil>" }]
        true (lit "u") 1).Attachments = first :: rest ∧
      HasPrefix first.MediaType (lit "application/smil") = true :=
  have h := smil_part_first [lit "+12345"]
    [{ MediaType := lit "image/jpeg", Data := [1, 2] },
     { MediaType := lit "application/smil", Data := lit "<smil>" }]
    true (lit "u") 1 NewEncoder
    ⟨{ MediaType := lit "application/smil", Data := lit "<smil>" }, by decide, by decide⟩
  ⟨h.2.2.1, h.2.2.2.elim fun first h1 => h1.elim fun rest h2 => ⟨first, rest, h2.1, h2.2.2.2.1⟩⟩

/-- C29 refuted: for the SMIL part with the identifier `id1` and the data `<smil><head>`
the `ContentTypeStart` of the new send request is `<smil>`, not `id1`. -/
theorem contentTypeStart_is_not_contentID :
    (NewMSendReq []
        [{ MediaType := lit "application/smil", ContentID := lit "id1",
           Data := lit "<smil><head>" }] false [] 0).ContentTypeStart = lit "<smil>" ∧
    (NewMSendReq []
        [{ MediaType := lit "application/smil", ContentID := lit "id1",
           Data := lit "<smil><head>" }] false [] 0).Attachments =
      [{ MediaType := lit "application/smil", ContentID := lit "id1",
         Data := lit "<smil><head>" }] ∧
    lit "<smil>" ≠ lit "id1" := by
  decide

/-- C29 (amended): for every attachment list with a part whose media type starts with
`application/smil`, the `ContentTypeStart` of the new send request is what `getSmilStart`
gives for the data of the part placed first in `Attachments`: the octets of the data up to
and with the first `>`, or the empty string when the data has no `>`.  It is the
`ContentID` of that part when the part holds that text as its identifier. -/
theorem contentTypeStart_of_first (recipients : List GoString) (attachments : List Attachment)
    (deliveryReport : Bool) (uuid : GoString) (now : Int)
    (h : ∃ a ∈ attachments, HasPrefix a.MediaType (lit "application/smil") = true) :
    ∃ first rest,
      (NewMSendReq recipients attachments deliveryReport uuid now).Attachments = first :: rest ∧
      (NewMSendReq recipients attachments deliveryReport uuid now).ContentTypeStart =
        (getSmilStart first.Data).getD [] ∧
      (getSmilStart first.Data =
        match first.Data.findIdx? (fun b => b == 62) with
        | some i => some (first.Data.take (i + 1))
        | none => none) ∧
      (first.ContentID = (getSmilStart first.Data).getD [] →
        (NewMSendReq recipients attachments deliveryReport uuid now).ContentTypeStart =
          first.ContentID) := by
  obtain ⟨hatt, hstart, _, _⟩ :=
    NewMSendReq_attachments recipients attachments deliveryReport uuid now
  obtain ⟨a, ha, hp⟩ := h
  have hne : (attachments.filter fun a => HasPrefix a.MediaType (lit "application/smil")) ≠ [] :=
    List.ne_nil_of_mem (List.mem_filter.mpr ⟨ha, hp⟩)
  obtain ⟨first, hlast⟩ : ∃ first, (attachments.filter fun a =>
      HasPrefix a.MediaType (lit "application/smil")).getLast? = some first := by
    rw [List.getLast?_eq_getLast _ hne]
    exact ⟨_, rfl⟩
  obtain ⟨rest0, hrev⟩ := reverse_eq_getLast_cons _ first hlast
  have hs : (NewMSendReq recipients attachments deliveryReport uuid now).ContentTypeStart =
      (getSmilStart first.Data).getD [] := by
    rw [hstart, hlast]
  refine ⟨first,
    rest0 ++ attachments.filter (fun a => !HasPrefix a.MediaType (lit "application/smil")),
    by rw [hatt, hrev]; rfl, hs, ?_, fun hid => by rw [hs, hid]⟩
  unfold getSmilStart
  cases hi : first.Data.findIdx? (fun b => b == 62) with
  | none => rfl
  | some i =>
    have hlt : i < first.Data.length := by
      have := List.findIdx?_eq_some_iff_findIdx_eq.mp hi
      omega
    simp only
    rw [if_neg (by omega)]

/-- C29 (amended) at the SMIL part with the identifier `id1` and the data `<smil><head>`. -/
theorem contentTypeStart_of_first_witness :
    ∃ first rest,
      (NewMSendReq []
        [{ MediaType := lit "application/smil", ContentID := lit "id1",
           Data := lit "<smil><head>" }] false [] 0).Attachments = first :: rest ∧
      (NewMSendReq []
        [{ MediaType := lit "application/smil", ContentID := lit "id1",
           Data := lit "<smil><head>" }] false [] 0).ContentTypeStart =
        (getSmilStart first.Data).getD [] :=
  (contentTypeStart_of_first []
    [{ MediaType := lit "application/smil", ContentID := lit "id1",
       Data := lit "<smil><head>" }] false [] 0
    ⟨{ MediaType := lit "application/smil", ContentID := lit "id1",
       Data := lit "<smil><head>" }, by decide, by decide⟩).elim
    fun first h1 => h1.elim fun rest h2 => ⟨first, rest, h2.1, h2.2.1⟩
/-- What the loop of the case `To` of `Encode` writes for non-empty strings: a To header
`97` + text + `00` for each of them, in order. -/
theorem writeTo_eq (l : List GoString) (hl : ∀ s ∈ l, s ≠ []) (enc : Encoder) :
    writeTo enc l = .ok { w := enc.w ++ (l.map fun s => 0x97 :: (s ++ [0])).flatten } := by
  induction l generalizing enc with
  | nil => simp [writeTo]
  | cons s rest ih =>
    have hs : s ≠ [] := hl s (List.mem_cons_self s rest)
    rw [writeTo]
    simp only [Encoder.writeStringParam, hs, if_false, Encoder.setParam, Encoder.writeByte,
      Encoder.writeBytes, Encoder.writeString, WriteResult.andThen]
    simp only [List.length_singleton, Nat.cast_one, ne_eq, not_true_eq_false, if_false]
    rw [ih (fun t ht => hl t (List.mem_cons_of_mem s ht))]
    have h97 : (HeaderTo ||| 0x80) % 256 = 0x97 := by decide
    simp [h97]

/-- In `Encode` of a send request whose recipients are not empty, the field `To` is written
between what the fields before and after it write, one To header for each recipient. -/
theorem Encode_to_headers (req : MSendReq) (hne : ∀ t ∈ req.To, t ≠ []) (enc : Encoder) :
    enc.Encode (MSendReq.reflect req) =
      ((encodeFields Encoder.writeAttachments enc (MSendReq.reflect req)
          ((MSendReq.reflect req).fields.take 6)).andThen
        fun e =>
          encodeFields Encoder.writeAttachments
            { w := e.w ++ (req.To.map fun t => 0x97 :: (t ++ [0])).flatten }
            (MSendReq.reflect req) ((MSendReq.reflect req).fields.drop 7)) := by
  have hsplit : (MSendReq.reflect req).fields =
      (MSendReq.reflect req).fields.take 6 ++
        (⟨"To", "", .strings req.To⟩ :: (MSendReq.reflect req).fields.drop 7) := rfl
  have hto : ∀ e : Encoder,
      encodeField Encoder.writeAttachments e (MSendReq.reflect req) ⟨"To", "", .strings req.To⟩ =
        .ok { w := e.w ++ (req.To.map fun t => 0x97 :: (t ++ [0])).flatten } :=
    fun e => writeTo_eq req.To hne e
  unfold Encoder.Encode
  rw [hsplit, encodeFields_append]
  congr 1
  funext e
  rw [encodeFields, hto e]
  rfl

/-- The `To` of a new send request. -/
theorem NewMSendReq_To (recipients : List GoString) (attachments : List Attachment)
    (deliveryReport : Bool) (uuid : GoString) (now : Int) :
    (NewMSendReq recipients attachments deliveryReport uuid now).To =
      recipients.map (fun r => r ++ lit "/TYPE=PLMN") := by
  unfold NewMSendReq
  rfl

/-- C30: the `To` of a new send request is the recipient list with `/TYPE=PLMN` appended to
each recipient: same length, same order, every element ends with `/TYPE=PLMN`.  `To` is the
seventh field of the request, and `Encode` writes it, between what the fields before and
after it write, as one To header `97` + text + `00` for each element in that order. -/
theorem recipients_suffix (recipients : List GoString) (attachments : List Attachment)
    (deliveryReport : Bool) (uuid : GoString) (now : Int) (enc : Encoder) (i : Nat) :
    (NewMSendReq recipients attachments deliveryReport uuid now).To =
      recipients.map (fun r => r ++ lit "/TYPE=PLMN") ∧
    (NewMSendReq recipients attachments deliveryReport uuid now).To.length =
      recipients.length ∧
    (NewMSendReq recipients attachments deliveryReport uuid now).To[i]? =
      (recipients[i]?).map (fun r => r ++ lit "/TYPE=PLMN") ∧
    (∀ t ∈ (NewMSendReq recipients attachments deliveryReport uuid now).To,
      lit "/TYPE=PLMN" <:+ t) ∧
    (MSendReq.reflect (NewMSendReq recipients attachments deliveryReport uuid now)).fields[6]? =
      some ⟨"To", "", .strings (NewMSendReq recipients attachments deliveryReport uuid now).To⟩ ∧
    enc.Encode (MSendReq.reflect (NewMSendReq recipients attachments deliveryReport uuid now)) =
      ((encodeFields Encoder.writeAttachments enc
          (MSendReq.reflect (NewMSendReq recipients attachments deliveryReport uuid now))
          ((MSendReq.reflect
            (NewMSendReq recipients attachments deliveryReport uuid now)).fields.take 6)).andThen
        fun e =>
          encodeFields Encoder.writeAttachments
            { w := e.w ++
                ((NewMSendReq recipients attachments deliveryReport uuid now).To.map
                  fun t => 0x97 :: (t ++ [0])).flatten }
            (MSendReq.reflect (NewMSendReq recipients attachments deliveryReport uuid now))
            ((MSendReq.reflect
              (NewMSendReq recipients attachments deliveryReport uuid now)).fields.drop 7)) := by
  have hTo := NewMSendReq_To recipients attachments deliveryReport uuid now
  have hsuf : ∀ t ∈ (NewMSendReq recipients attachments deliveryReport uuid now).To,
      lit "/TYPE=PLMN" <:+ t := by
    intro t ht
    rw [hTo] at ht
    obtain ⟨r, _, rfl⟩ := List.mem_map.mp ht
    exact List.suffix_append r _
  have hne : ∀ t ∈ (NewMSendReq recipients attachments deliveryReport uuid now).To, t ≠ [] := by
    intro t ht hnil
    have h := hsuf t ht
    rw [hnil] at h
    have h1 := List.IsSuffix.length_le h
    have h2 : (lit "/TYPE=PLMN").length = 10 := by decide
    rw [h2] at h1
    simp at h1
  exact ⟨hTo, by rw [hTo]; simp, by rw [hTo]; simp, hsuf, rfl,
    Encode_to_headers _ hne enc⟩

/-! ## Attachments and responses built by the program -/

/-- The function `getSmilStart` returns its error exactly when the data holds no `>`; when
it holds one, the result is the data up to and with the first `>`. -/
theorem getSmilStart_eq_none_iff (data : List Nat) : getSmilStart data = none ↔ 62 ∉ data := by
  unfold getSmilStart
  cases h : data.findIdx? (fun b => b == 62) with
  | none =>
    simp only [true_iff]
    rw [List.findIdx?_eq_none_iff] at h
    intro hm
    simpa using h 62 hm
  | some i =>
    obtain ⟨hi, hp, _⟩ := List.findIdx?_eq_some_iff_getElem.mp h
    have hmem : 62 ∈ data := by
      have : data[i] = 62 := by simpa using hp
      exact this ▸ List.getElem_mem hi
    simp only [if_neg (show ¬ i + 1 > data.length by omega)]
    simp [hmem]

/-- C31: `NewAttachmentFromBuffer("smil", "application/smil;charset=utf-8", data)` and
`NewAttachment` on a file with that data return, without error, an attachment whose
`MediaType` is `application/smil` and whose `ContentID` is the identifier `smil`, not the
text `<smil>` that `data` begins with and `getSmilStart` returns for it: the test before
`getSmilStart` compares the whole of `contentType`, parameters included.  (With the
content type `application/smil` alone the `ContentID` is `<smil>`; `getSmilStart` itself
returns an error exactly when the data holds no `>`.) -/
theorem smil_with_parameter_keeps_identifier :
    (∃ a, NewAttachmentFromBuffer (lit "smil") (lit "application/smil;charset=utf-8")
        (lit "<smil><body/></smil>") = some a ∧
      a.MediaType = lit "application/smil" ∧ a.Charset = lit "utf-8" ∧
      a.ContentID = lit "smil") ∧
    (∃ a, NewAttachment (lit "smil") (lit "application/smil;charset=utf-8")
        (some (lit "<smil><body/></smil>")) = some a ∧
      a.MediaType = lit "application/smil" ∧ a.ContentID = lit "smil") ∧
    getSmilStart (lit "<smil><body/></smil>") = some (lit "<smil>") ∧
    (∃ a, NewAttachmentFromBuffer (lit "smil") (lit "application/smil")
        (lit "<smil><body/></smil>") = some a ∧
      a.MediaType = lit "application/smil" ∧ a.ContentID = lit "<smil>") ∧
    ∀ data : List Nat, getSmilStart data = none ↔ 62 ∉ data :=
  ⟨⟨_, rfl, by decide, by decide, by decide⟩, ⟨_, rfl, by decide, by decide⟩, by decide,
    ⟨_, rfl, by decide, by decide⟩, getSmilStart_eq_none_iff⟩

/-- C32: the m-notifyresp.ind built from a received m-retrieve.conf `r` has the type
`0x83`, the `UUID`, `TransactionID` and `Version` of `r`, the status 129 (retrieved) and
`ReportAllowed` 128 when delivery reports are asked for, 129 when not; the one built
from a notification `n` and a status `s` has the type `0x83`, the `UUID`, `TransactionID`
and `Version` of `n`, the status `s` and the same `ReportAllowed`. -/
theorem notifyResp_echoes_request (r : MRetrieveConf) (n : MNotificationInd) (s : Nat)
    (d : Bool) :
    r.NewMNotifyRespInd d =
      { Type_ := 0x83, UUID := r.UUID, TransactionID := r.TransactionID, Version := r.Version,
        Status := 129, ReportAllowed := if d then 128 else 129 } ∧
    n.NewMNotifyRespInd s d =
      { Type_ := 0x83, UUID := n.UUID, TransactionID := n.TransactionID, Version := n.Version,
        Status := s, ReportAllowed := if d then 128 else 129 } := by
  cases d <;> exact ⟨rfl, rfl⟩

/-- C37: the part of a multipart body with the header `application/smil` and the charset
parameter utf-8 decodes to an attachment of media type `application/smil;charset=utf-8`;
in a received message with that part and an image, `GetSmil` selects the part as the SMIL
part and `GetDataParts` returns it all the same, in front of the image. -/
theorem dataParts_returns_smil_with_charset :
    readAttachmentPart
        { Data := [1, 20, 6, 19] ++ lit "application/smil" ++ [0, 0x81, 0xEA] ++ lit "<smil>",
          Offset := 0 } =
      .ok { MediaType := lit "application/smil;charset=utf-8", Charset := lit "utf-8",
            Length := 19, Offset := 23, Data := lit "<smil>" }
        { Data := [1, 20, 6, 19] ++ lit "application/smil" ++ [0, 0x81, 0xEA] ++ lit "<smil>",
          Offset := 28 } .nil ∧
    ({ NewMRetrieveConf (lit "id") with
        Attachments :=
          [{ MediaType := lit "application/smil;charset=utf-8", Charset := lit "utf-8",
             Length := 19, Offset := 23, Data := lit "<smil>" },
           { MediaType := lit "image/jpeg", Data := [0xFF, 0xD8] }] } : MRetrieveConf).GetSmil =
      some (lit "<smil>") ∧
    ({ NewMRetrieveConf (lit "id") with
        Attachments :=
          [{ MediaType := lit "application/smil;charset=utf-8", Charset := lit "utf-8",
             Length := 19, Offset := 23, Data := lit "<smil>" },
           { MediaType := lit "image/jpeg", Data := [0xFF, 0xD8] }] } : MRetrieveConf).GetDataParts =
      [{ MediaType := lit "application/smil;charset=utf-8", Charset := lit "utf-8",
         Length := 19, Offset := 23, Data := lit "<smil>" },
       { MediaType := lit "image/jpeg", Data := [0xFF, 0xD8] }] := by
  refine ⟨by decide, by decide, by decide⟩

/-- C39: the list that `processAttachments(a)` returns is a permutation of `a`, of the
same length, and the attachments whose media type does not begin with `application/smil`
are in it in the order they have in `a`. -/
theorem processAttachments_perm (a : List Attachment) :
    (processAttachments a).1.Perm a ∧
    (processAttachments a).1.length = a.length ∧
    (processAttachments a).1.filter (fun x => !HasPrefix x.MediaType (lit "application/smil")) =
      a.filter (fun x => !HasPrefix x.MediaType (lit "application/smil")) := by
  have h : (processAttachments a).1 =
      (a.filter fun x => HasPrefix x.MediaType (lit "application/smil")).reverse ++
        a.filter (fun x => !HasPrefix x.MediaType (lit "application/smil")) := by
    unfold processAttachments
    rw [processAttachmentsLoop_eq]
    simp
  have hp : (processAttachments a).1.Perm a := by
    rw [h]
    exact ((List.reverse_perm _).append_right _).trans (List.filter_append_perm _ a)
  refine ⟨hp, hp.length_eq, ?_⟩
  rw [h, List.filter_append, List.filter_reverse, List.filter_filter, List.filter_filter]
  simp

/-! ## `Encode` returns no error -/

/-- The fields of a record are all written when each of them is. -/
theorem encodeFields_ok (wa : Encoder → List Attachment → WriteResult) (pdu : Struct)
    (l : List Field) (h : ∀ f ∈ l, ∀ enc, ∃ e, encodeField wa enc pdu f = .ok e) :
    ∀ enc, ∃ e, encodeFields wa enc pdu l = .ok e := by
  induction l with
  | nil => intro enc; exact ⟨enc, rfl⟩
  | cons f rest ih =>
    intro enc
    obtain ⟨e1, h1⟩ := h f (List.mem_cons_self f rest) enc
    obtain ⟨e2, h2⟩ := ih (fun g hg => h g (List.mem_cons_of_mem f hg)) e1
    exact ⟨e2, by rw [encodeFields, h1]; exact h2⟩

/-- `writeByteParam` returns nil. -/
theorem writeByteParam_ok (enc : Encoder) (param b : Nat) :
    ∃ e, enc.writeByteParam param b = .ok e := by
  simp [Encoder.writeByteParam, Encoder.setParam, Encoder.writeByte, Encoder.writeBytes,
    WriteResult.andThen]

/-- `writeStringParam` returns nil, for the empty string too. -/
theorem writeStringParam_ok (enc : Encoder) (param : Nat) (s : GoString) :
    ∃ e, enc.writeStringParam param s = .ok e := by
  by_cases hs : s = []
  · exact ⟨enc, by simp [Encoder.writeStringParam, hs]⟩
  · simp [Encoder.writeStringParam, hs, Encoder.setParam, Encoder.writeByte, Encoder.writeBytes,
      Encoder.writeString, WriteResult.andThen]

/-- The loop of the case `To` returns nil for every slice of strings. -/
theorem writeTo_ok (l : List GoString) : ∀ enc, ∃ e, writeTo enc l = .ok e := by
  induction l with
  | nil => intro enc; exact ⟨enc, rfl⟩
  | cons s rest ih =>
    intro enc
    obtain ⟨e1, h1⟩ := writeStringParam_ok enc HeaderTo s
    obtain ⟨e2, h2⟩ := ih e1
    exact ⟨e2, by rw [writeTo, h1]; exact h2⟩

/-- `writeLongInteger` returns nil for every `uint64`. -/
theorem writeLongInteger_ok (enc : Encoder) (i : Nat) (hi : i < 2 ^ 64) :
    ∃ e, enc.writeLongInteger i = .ok e := by
  have h := encodeLong_length_le i hi
  unfold Encoder.writeLongInteger
  simp only [shortLengthMax]
  rw [if_neg (by omega)]
  simp [Encoder.writeByte, Encoder.writeBytes, WriteResult.andThen]

/-- `writeContentType` returns nil for every media type and all parameters. -/
theorem writeContentType_ok (enc : Encoder) (media start ctype name : GoString) :
    ∃ e, enc.writeContentType media start ctype name = .ok e := by
  unfold Encoder.writeContentType
  split
  · unfold Encoder.writeMediaType
    cases h : encodeContentType media with
    | some mt =>
      have := encodeContentType_lt media mt h
      exact ⟨_, writeInteger_eq mt (by omega) enc⟩
    | none =>
      simp [Encoder.writeByte, Encoder.writeBytes, Encoder.writeString, WriteResult.andThen]
  · cases h : encodeContentType media with
    | some mt =>
      have := encodeContentType_lt media mt h
      simp only [writeLength_eq, WriteResult.andThen, writeInteger_eq mt (by omega)]
      simp [Encoder.writeBytes]
    | none =>
      simp only [writeLength_eq, WriteResult.andThen]
      simp [Encoder.writeBytes]

/-- `writeRelativeExpiry` returns nil. -/
theorem writeRelativeExpiry_ok (enc : Encoder) (expiry : Nat) :
    ∃ e, enc.writeRelativeExpiry expiry = .ok e := by
  simp [Encoder.writeRelativeExpiry, Encoder.setParam, Encoder.writeByte, Encoder.writeBytes,
    WriteResult.andThen]

/-- C40: on a writer that accepts every write, `Encode` returns no error (and does not
panic) for any m-send.req whose `Date` is a `uint64` and any m-notifyresp.ind, whatever the
values of the other fields, the media types and the attachments are. -/
theorem encode_returns_no_error (req : MSendReq) (resp : MNotifyRespInd) (enc : Encoder)
    (hDate : req.Date < 2 ^ 64) :
    (∃ e, enc.Encode req.reflect = .ok e) ∧ (∃ e, enc.Encode resp.reflect = .ok e) := by
  constructor
  · unfold Encoder.Encode
    refine encodeFields_ok _ _ _ ?_ enc
    intro f hf enc
    simp only [MSendReq.reflect, List.mem_cons, List.mem_singleton, List.not_mem_nil, or_false] at hf
    rcases hf with rfl | rfl | rfl | rfl | rfl | rfl | rfl | rfl | rfl | rfl | rfl | rfl | rfl |
      rfl | rfl | rfl | rfl | rfl | rfl | rfl | rfl
    · exact ⟨enc, rfl⟩
    · exact writeByteParam_ok enc _ _
    · exact writeStringParam_ok enc _ _
    · exact writeByteParam_ok enc _ _
    · by_cases h0 : req.Date > 0
      · obtain ⟨e, he⟩ := writeLongInteger_ok { w := enc.w ++ [0x85] } req.Date hDate
        refine ⟨e, ?_⟩
        simp [encodeField, Value.Uint, h0, Encoder.writeLongIntegerParam, Encoder.setParam,
          Encoder.writeByte, Encoder.writeBytes, WriteResult.andThen, HeaderDate]
        exact he
      · exact ⟨enc, by simp [encodeField, Value.Uint, h0]⟩
    · simp [encodeField, Encoder.writeFrom, Encoder.setParam, Encoder.writeByte,
        Encoder.writeBytes, WriteResult.andThen]
    · exact writeTo_ok _ enc
    · exact ⟨enc, rfl⟩
    · exact ⟨enc, rfl⟩
    · exact ⟨enc, rfl⟩
    · exact writeByteParam_ok enc _ _
    · by_cases h0 : req.Expiry > 0
      · obtain ⟨e, he⟩ := writeRelativeExpiry_ok enc req.Expiry
        exact ⟨e, by simp [encodeField, Value.Uint, h0]; exact he⟩
      · exact ⟨enc, by simp [encodeField, Value.Uint, h0]⟩
    · exact ⟨enc, rfl⟩
    · exact ⟨enc, rfl⟩
    · exact ⟨enc, rfl⟩
    · exact writeByteParam_ok enc _ _
    · exact writeByteParam_ok enc _ _
    · exact ⟨enc, rfl⟩
    · exact ⟨enc, rfl⟩
    · obtain ⟨e1, h1⟩ := writeContentType_ok { w := enc.w ++ [0x84] } req.ContentType
        req.ContentTypeStart req.ContentTypeType []
      refine ⟨{ w := e1.w ++ multipartBody req.Attachments }, ?_⟩
      have hf : encodeField Encoder.writeAttachments enc (MSendReq.reflect req)
          ⟨"ContentType", "", .string req.ContentType⟩ =
          ((enc.setParam HeaderContentType).andThen fun enc =>
            (enc.writeContentType req.ContentType req.ContentTypeStart req.ContentTypeType
              []).andThen fun enc => Encoder.writeAttachments enc req.Attachments) := rfl
      have hs : enc.setParam HeaderContentType = .ok { w := enc.w ++ [0x84] } := by
        simp [Encoder.setParam, Encoder.writeByte, Encoder.writeBytes, HeaderContentType]
      rw [hf, hs]
      simp only [WriteResult.andThen]
      rw [h1]
      exact writeAttachments_eq _ _
    · exact ⟨enc, rfl⟩
  · unfold Encoder.Encode
    refine encodeFields_ok _ _ _ ?_ enc
    intro f hf enc
    simp only [MNotifyRespInd.reflect, List.mem_cons, List.mem_singleton, List.not_mem_nil,
      or_false] at hf
    rcases hf with rfl | rfl | rfl | rfl | rfl | rfl
    · exact ⟨enc, rfl⟩
    · exact writeByteParam_ok enc _ _
    · exact writeStringParam_ok enc _ _
    · exact writeByteParam_ok enc _ _
    · exact writeByteParam_ok enc _ _
    · exact writeByteParam_ok enc _ _
/-- C40 at a send request with a text and an image part, a subject, a date and an expiry,
and at an m-notifyresp.ind. -/
theorem encode_returns_no_error_witness :
    (∃ e, NewEncoder.Encode
      (MSendReq.reflect
        { NewMSendReq [lit "+12345"]
            [{ MediaType := lit "text/x-unknown", Name := lit "a.txt", Data := lit "hi" },
             { MediaType := lit "image/jpeg", ContentID := lit "img", Data := [0xFF, 0xD8] }]
            true (lit "uuid") 1700000000 with Subject := lit "hello" }) = .ok e) ∧
    (∃ e, NewEncoder.Encode
      (MNotifyRespInd.reflect
        { Type_ := 0x83, TransactionID := lit "tid", Version := 0x91, Status := 129,
          ReportAllowed := 128 }) = .ok e) :=
  encode_returns_no_error _ _ NewEncoder (by decide)

/-! ## The cursor of `skipFieldValue` -/

/-- C38: in the message `8C 81 A2 1F 81 FF FF FF FF FF FF FF FF 74` (the message type of an
m-send.conf, then the unrecognized header `0x22` whose value is the length quote followed by
the uintvar of `2 ^ 64 - 12`), `skipFieldValue` entered with the cursor 2 on the header
returns without error with the cursor 1: the length becomes the `int` `-12`.  The turn of
the header loop of `Decode` that starts with the cursor 2 ends with the cursor 1, the loop
adds one, and the next turn starts with the cursor 2 again: whatever the number of turns
allowed, `Decode` has not returned after them. -/
theorem decode_skip_moves_back (fuel : Nat) :
    skipFieldValue
        { Data := [0x8C, 0x81, 0xA2, 0x1F, 0x81, 0xFF, 0xFF, 0xFF, 0xFF, 0xFF, 0xFF, 0xFF, 0xFF,
            0x74],
          Offset := 2 } =
      .ok ()
        { Data := [0x8C, 0x81, 0xA2, 0x1F, 0x81, 0xFF, 0xFF, 0xFF, 0xFF, 0xFF, 0xFF, 0xFF, 0xFF,
            0x74],
          Offset := 1 } .nil ∧
    decodeStep
        { Data := [0x8C, 0x81, 0xA2, 0x1F, 0x81, 0xFF, 0xFF, 0xFF, 0xFF, 0xFF, 0xFF, 0xFF, 0xFF,
            0x74],
          Offset := 2 } NewMSendConf.reflect =
      .next true
        { Data := [0x8C, 0x81, 0xA2, 0x1F, 0x81, 0xFF, 0xFF, 0xFF, 0xFF, 0xFF, 0xFF, 0xFF, 0xFF,
            0x74],
          Offset := 1 } NewMSendConf.reflect ∧
    Decode fuel
        (NewDecoder [0x8C, 0x81, 0xA2, 0x1F, 0x81, 0xFF, 0xFF, 0xFF, 0xFF, 0xFF, 0xFF, 0xFF,
          0xFF, 0x74])
        NewMSendConf.reflect = .outOfFuel := by
  generalize hD : [0x8C, 0x81, 0xA2, 0x1F, 0x81, 0xFF, 0xFF, 0xFF, 0xFF, 0xFF, 0xFF, 0xFF, 0xFF,
    0x74] = D
  have hskip : skipFieldValue { Data := D, Offset := 2 } =
      .ok () { Data := D, Offset := 1 } .nil := by subst hD; decide
  have hstep : decodeStep { Data := D, Offset := 2 } NewMSendConf.reflect =
      .next true { Data := D, Offset := 1 } NewMSendConf.reflect := by subst hD; decide
  have hfirst : decodeStep { Data := D, Offset := 0 } NewMSendConf.reflect =
      .next true { Data := D, Offset := 1 } NewMSendConf.reflect := by subst hD; decide
  have hlen : D.length = 14 := by subst hD; rfl
  have hloop : ∀ n, decodeLoop n { Data := D, Offset := 2 } NewMSendConf.reflect true =
      .outOfFuel := by
    intro n
    induction n with
    | zero => rfl
    | succ k ih =>
      rw [decodeLoop, if_pos ⟨by simp [hlen], rfl⟩, hstep]
      exact ih
  refine ⟨hskip, hstep, ?_⟩
  cases fuel with
  | zero => rfl
  | succ k =>
    unfold Decode NewDecoder
    rw [decodeLoop, if_pos ⟨by simp [hlen], rfl⟩, hfirst]
    exact hloop k

/-! ## The proxy of a context -/

/-- The function `last` finds nothing in a string without the octet. -/
theorem last_eq_none (s : List Nat) (b : Nat) (h : b ∉ s) : last s b = none := by
  induction s with
  | nil => rfl
  | cons c rest ih =>
    rw [List.mem_cons, not_or] at h
    rw [last, ih h.2]
    simp only
    rw [if_neg (fun e => h.1 e.symm)]

/-- The last colon of `h:ds` when `ds` has none. -/
theorem last_append_colon (h ds : List Nat) (hds : 58 ∉ ds) :
    last (h ++ 58 :: ds) 58 = some h.length := by
  induction h with
  | nil => simp [last, last_eq_none ds 58 hds]
  | cons c rest ih => simp [last, ih]

/-- `IndexByteString` finds nothing in a string without the octet. -/
theorem IndexByteString_eq_none (s : List Nat) (b : Nat) (h : b ∉ s) :
    IndexByteString s b = none := by
  induction s with
  | nil => rfl
  | cons c rest ih =>
    rw [List.mem_cons, not_or] at h
    rw [IndexByteString, if_neg (fun e => h.1 e.symm), ih h.2]
    rfl

/-- `SplitHostPort` returns an error for a string without a colon. -/
theorem SplitHostPort_no_colon (h : List Nat) (h58 : 58 ∉ h) : SplitHostPort h = none := by
  unfold SplitHostPort
  rw [last_eq_none h 58 h58]

/-- `SplitHostPort` on `h:ds` for a host without colon and brackets and a port of digits. -/
theorem SplitHostPort_host_port (h ds : List Nat) (h58 : 58 ∉ h) (h91 : 91 ∉ h)
    (h93 : 93 ∉ h) (hds : ∀ c ∈ ds, 48 ≤ c ∧ c ≤ 57) :
    SplitHostPort (h ++ 58 :: ds) = some (h, ds) := by
  have d58 : 58 ∉ ds := fun hm => by have := hds 58 hm; omega
  have d91 : 91 ∉ ds := fun hm => by have := hds 91 hm; omega
  have d93 : 93 ∉ ds := fun hm => by have := hds 93 hm; omega
  have hhead : (h ++ 58 :: ds).head? ≠ some 91 := by
    cases h with
    | nil => simp
    | cons a t =>
      simp only [List.cons_append, List.head?_cons, ne_eq, Option.some.injEq]
      intro e
      exact h91 (e ▸ List.mem_cons_self a t)
  have m91 : 91 ∉ h ++ 58 :: ds := by simp [h91, d91]
  have m93 : 93 ∉ h ++ 58 :: ds := by simp [h93, d93]
  unfold SplitHostPort
  rw [last_append_colon h ds d58]
  simp only [if_neg hhead, List.take_left', IndexByteString_eq_none h 58 h58, List.drop_zero,
    IndexByteString_eq_none _ 91 m91, IndexByteString_eq_none _ 93 m93]
  simp [IndexByteString_eq_none _ 91 m91, IndexByteString_eq_none _ 93 m93]

/-- The value read so far is at most the value of the whole numeral. -/
theorem le_foldl_decimal (ds : List Nat) :
    ∀ n : Nat, n ≤ ds.foldl (fun v c => 10 * v + (c - 48)) n := by
  induction ds with
  | nil => intro n; exact Nat.le_refl n
  | cons c rest ih =>
    intro n
    exact Nat.le_trans (by omega) (ih (10 * n + (c - 48)))

/-- The digit loop of `ParseUint` in base 10 on decimal digits whose value is a `uint64`. -/
theorem parseUintLoop_decimal (ds : List Nat) :
    ∀ n : Nat, (∀ c ∈ ds, 48 ≤ c ∧ c ≤ 57) →
      ds.foldl (fun v c => 10 * v + (c - 48)) n < 2 ^ 64 →
      parseUintLoop 10 true ((2 ^ 64 - 1) / 10 + 1) (2 ^ 64 - 1) ds n false =
        .done (ds.foldl (fun v c => 10 * v + (c - 48)) n) false := by
  induction ds with
  | nil => intro n _ _; rfl
  | cons c rest ih =>
    intro n hd hv
    have hc := hd c (List.mem_cons_self c rest)
    have hle := le_foldl_decimal rest (10 * n + (c - 48))
    rw [List.foldl_cons] at hv ⊢
    have hlt : 10 * n + (c - 48) < 2 ^ 64 := Nat.lt_of_le_of_lt hle hv
    rw [parseUintLoop, if_neg (by omega), if_pos hc]
    simp only
    rw [if_neg (by omega), if_neg (by norm_num at hlt ⊢; omega)]
    have e1 : n * 10 % 2 ^ 64 = n * 10 := Nat.mod_eq_of_lt (by omega)
    have e2 : (n * 10 + (c - 48)) % 2 ^ 64 = n * 10 + (c - 48) := Nat.mod_eq_of_lt (by omega)
    rw [e1, e2, if_neg (by norm_num at hlt ⊢; omega)]
    have e3 : n * 10 + (c - 48) = 10 * n + (c - 48) := by omega
    rw [e3]
    exact ih _ (fun x hx => hd x (List.mem_cons_of_mem c hx)) hv

/-- `ParseUint(s, 0, 64)` on a decimal numeral without leading zeros whose value is a
`uint64`: the value, and no error. -/
theorem ParseUint_decimal (ds : List Nat) (hdec : isDecimal ds)
    (hv : decimalValue ds < 2 ^ 64) : ParseUint ds 0 64 = (decimalValue ds, false) := by
  obtain ⟨hne, hd, hz⟩ := hdec
  by_cases h0 : ds.head? = some 48
  · rw [hz h0]; decide
  · have hloop := parseUintLoop_decimal ds 0 hd hv
    unfold ParseUint
    rw [if_neg hne]
    simp only [if_neg (show ¬ (2 ≤ 0 ∧ 0 ≤ 36) by omega), if_true, if_neg h0]
    simp only [show ((0 : Nat) == 0) = true from rfl, show ¬ (64 : Nat) = 0 by omega, if_false,
      show ¬ (64 : Nat) > 64 by omega, hloop]
    simp [decimalValue]

/-- A string without a colon does not begin with `http://`. -/
theorem not_hasPrefix_http (h : List Nat) (h58 : 58 ∉ h) :
    HasPrefix h (lit "http://") = false := by
  cases hp : HasPrefix h (lit "http://") with
  | false => rfl
  | true =>
    exfalso
    unfold HasPrefix at hp
    obtain ⟨t, rfl⟩ := List.isPrefixOf_iff_prefix.mp hp
    exact h58 (List.mem_append_left t (by decide))

/-- A host without a colon followed by a colon and digits does not begin with `http://`. -/
theorem not_hasPrefix_http_port (h ds : List Nat) (h58 : 58 ∉ h)
    (hds : ∀ c ∈ ds, 48 ≤ c ∧ c ≤ 57) : HasPrefix (h ++ 58 :: ds) (lit "http://") = false := by
  have hl : lit "http://" = [104, 116, 116, 112, 58, 47, 47] := by decide
  unfold HasPrefix
  rw [hl]
  rcases h with _ | ⟨a0, _ | ⟨a1, _ | ⟨a2, _ | ⟨a3, _ | ⟨a4, t⟩⟩⟩⟩⟩
  · simp [List.isPrefixOf]
  · simp [List.isPrefixOf]
  · simp [List.isPrefixOf]
  · simp [List.isPrefixOf]
  · rcases ds with _ | ⟨d0, ds⟩
    · simp [List.isPrefixOf]
    · have := hds d0 (List.mem_cons_self d0 ds)
      simp [List.isPrefixOf]
      intro _ _ _ _ e
      omega
  · simp only [List.mem_cons, not_or] at h58
    simp [List.isPrefixOf]
    intro _ _ _ _ e
    exact absurd e h58.2.2.2.2.1

/-- What `GetProxy` does with a proxy that is not empty. -/
theorem GetProxy_eq (c : OfonoContext) (p : List Nat) (hp : c.messageProxy = p) (hne : p ≠ []) :
    c.GetProxy =
      match SplitHostPort (if HasPrefix p (lit "http://") then p.drop 7 else p) with
      | none => .ok { Host := if HasPrefix p (lit "http://") then p.drop 7 else p, Port := 80 }
      | some (host, portString) =>
        match ParseUint portString 0 64 with
        | (port, true) => .error { Host := host, Port := port }
        | (port, false) => .ok { Host := host, Port := port } := by
  unfold OfonoContext.GetProxy
  rw [hp]
  simp only [if_neg hne]

/-- The text `http://` in front of a string is recognized and taken off. -/
theorem hasPrefix_http (s : List Nat) :
    HasPrefix (lit "http://" ++ s) (lit "http://") = true ∧ (lit "http://" ++ s).drop 7 = s := by
  have hl : lit "http://" = [104, 116, 116, 112, 58, 47, 47] := by decide
  rw [hl]
  exact ⟨by simp [HasPrefix, List.isPrefixOf], rfl⟩

/-- C33 as stated fails: the host `[a]` contains no colon, yet with the proxy `[a]:8080`
the result has the host `a`; with the port `18446744073709551616` (`2 ^ 64`) `GetProxy`
returns an error; with the empty host as the whole proxy the port is 0, not 80. -/
theorem getProxy_bracket_or_large_port :
    (58 ∉ lit "[a]" ∧ isDecimal (lit "8080") ∧ decimalValue (lit "8080") = 8080 ∧
      OfonoContext.GetProxy { Properties := [("MessageProxy", .str (lit "[a]:8080"))] } =
        .ok { Host := lit "a", Port := 8080 } ∧
      lit "a" ≠ lit "[a]") ∧
    (58 ∉ lit "h" ∧ isDecimal (lit "18446744073709551616") ∧
      OfonoContext.GetProxy
          { Properties := [("MessageProxy", .str (lit "h:18446744073709551616"))] } =
        .error { Host := lit "h", Port := 2 ^ 64 - 1 }) ∧
    (58 ∉ lit "" ∧
      OfonoContext.GetProxy { Properties := [("MessageProxy", .str (lit ""))] } =
        .ok { Host := [], Port := 0 }) := by
  refine ⟨⟨by decide, ?_, by decide, by decide, by decide⟩, ⟨by decide, ?_, by decide⟩,
    by decide, by decide⟩
  · unfold isDecimal; decide
  · unfold isDecimal; decide

/-- C33, amended: let the host `h` contain no colon.  With an empty proxy `GetProxy` returns
the empty host and the port 0.  With the proxy `h` (not empty) or `http://` + `h` it returns
the host `h` and the port 80.  When `h` contains no bracket either and `ds` is a port written
in decimal without leading zeros whose value is below `2 ^ 64`, with the proxy `h:ds` or
`http://` + `h:ds` it returns the host `h` and that value as the port.  No error is returned
in any of these cases. -/
theorem getProxy_host_port (c : OfonoContext) (h ds : List Nat) (h58 : 58 ∉ h) :
    (c.messageProxy = [] → c.GetProxy = .ok { Host := [], Port := 0 }) ∧
    (h ≠ [] → c.messageProxy = h → c.GetProxy = .ok { Host := h, Port := 80 }) ∧
    (c.messageProxy = lit "http://" ++ h → c.GetProxy = .ok { Host := h, Port := 80 }) ∧
    (91 ∉ h → 93 ∉ h → isDecimal ds → decimalValue ds < 2 ^ 64 →
      (c.messageProxy = h ++ 58 :: ds →
        c.GetProxy = .ok { Host := h, Port := decimalValue ds }) ∧
      (c.messageProxy = lit "http://" ++ (h ++ 58 :: ds) →
        c.GetProxy = .ok { Host := h, Port := decimalValue ds })) := by
  refine ⟨?_, ?_, ?_, ?_⟩
  · intro hp
    unfold OfonoContext.GetProxy
    rw [hp]
    rfl
  · intro hne hp
    rw [GetProxy_eq c h hp hne, not_hasPrefix_http h h58]
    simp only [Bool.false_eq_true, if_false, SplitHostPort_no_colon h h58]
  · intro hp
    rw [GetProxy_eq c _ hp (by rw [show lit "http://" = [104, 116, 116, 112, 58, 47, 47] by decide]; simp),
      (hasPrefix_http h).1]
    simp only [if_true, (hasPrefix_http h).2, SplitHostPort_no_colon h h58]
  · intro h91 h93 hdec hv
    have hsplit := SplitHostPort_host_port h ds h58 h91 h93 hdec.2.1
    have hparse := ParseUint_decimal ds hdec hv
    constructor
    · intro hp
      rw [GetProxy_eq c _ hp (by simp), not_hasPrefix_http_port h ds h58 hdec.2.1]
      simp only [Bool.false_eq_true, if_false, hsplit, hparse]
    · intro hp
      rw [GetProxy_eq c _ hp (by rw [show lit "http://" = [104, 116, 116, 112, 58, 47, 47] by decide]; simp),
        (hasPrefix_http _).1]
      simp only [if_true, (hasPrefix_http _).2, hsplit, hparse]

/-- C33, amended, at the host `10.0.0.1` and the port `8080`, for the four forms of the
proxy, and at the empty proxy. -/
theorem getProxy_host_port_witness :
    OfonoContext.GetProxy { Properties := [("MessageProxy", .str [])] } =
      .ok { Host := [], Port := 0 } ∧
    OfonoContext.GetProxy { Properties := [("MessageProxy", .str (lit "10.0.0.1"))] } =
      .ok { Host := lit "10.0.0.1", Port := 80 } ∧
    OfonoContext.GetProxy { Properties := [("MessageProxy", .str (lit "http://10.0.0.1"))] } =
      .ok { Host := lit "10.0.0.1", Port := 80 } ∧
    OfonoContext.GetProxy { Properties := [("MessageProxy", .str (lit "10.0.0.1:8080"))] } =
      .ok { Host := lit "10.0.0.1", Port := 8080 } ∧
    OfonoContext.GetProxy
        { Properties := [("MessageProxy", .str (lit "http://10.0.0.1:8080"))] } =
      .ok { Host := lit "10.0.0.1", Port := 8080 } :=
  have hdec : isDecimal (lit "8080") := by unfold isDecimal; decide
  ⟨(getProxy_host_port { Properties := [("MessageProxy", .str [])] } (lit "10.0.0.1")
      (lit "8080") (by decide)).1 (by decide),
    (getProxy_host_port { Properties := [("MessageProxy", .str (lit "10.0.0.1"))] }
      (lit "10.0.0.1") (lit "8080") (by decide)).2.1 (by decide) (by decide),
    (getProxy_host_port { Properties := [("MessageProxy", .str (lit "http://10.0.0.1"))] }
      (lit "10.0.0.1") (lit "8080") (by decide)).2.2.1 (by decide),
    ((getProxy_host_port { Properties := [("MessageProxy", .str (lit "10.0.0.1:8080"))] }
      (lit "10.0.0.1") (lit "8080") (by decide)).2.2.2 (by decide) (by decide) hdec
        (by decide)).1 (by decide),
    ((getProxy_host_port
      { Properties := [("MessageProxy", .str (lit "http://10.0.0.1:8080"))] }
      (lit "10.0.0.1") (lit "8080") (by decide)).2.2.2 (by decide) (by decide) hdec
        (by decide)).2 (by decide)⟩

/-! ## The contexts that `GetMMSContexts` returns -/

/-- The test of the loop of `GetMMSContexts` is the notion of a qualifying context. -/
theorem qualifies_eq (c : OfonoContext) :
    ((c.isTypeInternet && c.hasMessageCenter) || c.isTypeMMS) = qualifies c := by
  unfold qualifies
  exact Bool.or_comm _ _

/-- The flags of a context that carries boolean `Active` and `Preferred` properties. -/
theorem hasFlags_flags (c : OfonoContext) (h : hasFlags c) :
    (∃ a, c.isActive = some a) ∧ (∃ p, c.isPreferred = some p) := by
  obtain ⟨⟨a, ha⟩, ⟨p, hp⟩⟩ := h
  exact ⟨⟨a, by unfold OfonoContext.isActive; rw [ha]; rfl⟩,
    ⟨p, by unfold OfonoContext.isPreferred; rw [hp]; rfl⟩⟩

/-- What the loop of `GetMMSContexts` computes on contexts that carry their flags: just the
first qualifying context flagged `Preferred` when there is one; else the qualifying contexts
that match the preferred path or are active, last one first, in front of the list reached so
far, and the other qualifying contexts behind it. -/
theorem getMMSContextsLoop_eq (pc : GoString) (l : List OfonoContext)
    (hf : ∀ c ∈ l, hasFlags c) :
    ∀ acc : List OfonoContext,
      getMMSContextsLoop pc l acc =
        some
          (match l.find? (fun c => qualifies c && c.isPreferred == some true) with
            | some c => [c]
            | none =>
              (l.filter fun c =>
                  qualifies c && (c.ObjectPath == pc || c.isActive == some true)).reverse ++
                acc ++
                l.filter fun c =>
                  qualifies c && !(c.ObjectPath == pc || c.isActive == some true)) := by
  induction l with
  | nil => intro acc; simp [getMMSContextsLoop]
  | cons c rest ih =>
    intro acc
    have ih := ih (fun x hx => hf x (List.mem_cons_of_mem c hx))
    obtain ⟨⟨a, ha⟩, ⟨p, hp⟩⟩ := hasFlags_flags c (hf c (List.mem_cons_self c rest))
    rw [getMMSContextsLoop, qualifies_eq]
    cases hq : qualifies c with
    | false => simp [hq, ih]
    | true =>
      cases p with
      | true => simp [hq, hp]
      | false =>
        by_cases hpath : c.ObjectPath = pc
        · simp [hq, hp, hpath, ih]
        · cases a with
          | true => simp [hq, hp, hpath, ha, ih]
          | false => simp [hq, hp, hpath, ha, ih]

/-- `GetMMSContexts` when a qualifying context is flagged `Preferred`: the first such
context alone. -/
theorem GetMMSContexts_preferred (contexts : List OfonoContext) (pc : GoString)
    (hf : ∀ c ∈ contexts, hasFlags c) (c : OfonoContext)
    (hfind : contexts.find? (fun c => qualifies c && c.isPreferred == some true) = some c) :
    GetMMSContexts (some contexts) pc = .ok [c] := by
  unfold GetMMSContexts
  simp only [getMMSContextsLoop_eq pc contexts hf [], hfind]
  rfl

/-- `GetMMSContexts` when no qualifying context is flagged `Preferred`: the qualifying
contexts that match the preferred path or are active, last one first, then the other
qualifying contexts; an error with the empty list when there is none. -/
theorem GetMMSContexts_ranked (contexts : List OfonoContext) (pc : GoString)
    (hf : ∀ c ∈ contexts, hasFlags c)
    (hfind : contexts.find? (fun c => qualifies c && c.isPreferred == some true) = none) :
    GetMMSContexts (some contexts) pc =
      if (contexts.filter fun c => qualifies c) = [] then .error []
      else
        .ok
          ((contexts.filter fun c =>
              qualifies c && (c.ObjectPath == pc || c.isActive == some true)).reverse ++
            contexts.filter fun c =>
              qualifies c && !(c.ObjectPath == pc || c.isActive == some true)) := by
  unfold GetMMSContexts
  simp only [getMMSContextsLoop_eq pc contexts hf [], hfind, List.append_nil]
  by_cases hq : (contexts.filter fun c => qualifies c) = []
  · have h1 : (contexts.filter fun c =>
        qualifies c && (c.ObjectPath == pc || c.isActive == some true)) = [] := by
      rw [List.filter_eq_nil_iff] at hq ⊢
      intro a ha
      simp [hq a ha]
    have h2 : (contexts.filter fun c =>
        qualifies c && !(c.ObjectPath == pc || c.isActive == some true)) = [] := by
      rw [List.filter_eq_nil_iff] at hq ⊢
      intro a ha
      simp [hq a ha]
    rw [h1, h2, if_pos hq]
    rfl
  · rw [if_neg hq]
    have hne : ((contexts.filter fun c =>
          qualifies c && (c.ObjectPath == pc || c.isActive == some true)).reverse ++
        contexts.filter fun c =>
          qualifies c && !(c.ObjectPath == pc || c.isActive == some true)).length ≠ 0 := by
      intro h0
      apply hq
      rw [List.filter_eq_nil_iff]
      intro a ha hqa
      rw [List.length_eq_zero, List.append_eq_nil, List.reverse_eq_nil_iff,
        List.filter_eq_nil_iff, List.filter_eq_nil_iff] at h0
      have h1 := h0.1 a ha
      have h2 := h0.2 a ha
      rw [hqa, Bool.true_and] at h1 h2
      cases hb : (a.ObjectPath == pc || a.isActive == some true) with
      | true => exact h1 hb
      | false => rw [hb] at h2; exact h2 rfl
    rw [if_neg hne]

/-- C34: when every enumerated context carries boolean `Active` and `Preferred` properties,
`GetMMSContexts` does not panic; every context it returns is an enumerated context of type
mms, or of type internet with a non-empty `MessageCenter`; and it returns an error exactly
when no enumerated context is of that kind, with an empty list. -/
theorem getMMSContexts_qualifying (contexts : List OfonoContext) (pc : GoString)
    (hf : ∀ c ∈ contexts, hasFlags c) :
    GetMMSContexts (some contexts) pc ≠ .panic ∧
    (∀ l, GetMMSContexts (some contexts) pc = .ok l →
      ∀ c ∈ l, c ∈ contexts ∧
        (c.isTypeMMS = true ∨ (c.isTypeInternet = true ∧ c.hasMessageCenter = true))) ∧
    ((∃ l, GetMMSContexts (some contexts) pc = .error l) ↔
      ∀ c ∈ contexts,
        ¬ (c.isTypeMMS = true ∨ (c.isTypeInternet = true ∧ c.hasMessageCenter = true))) ∧
    (∀ l, GetMMSContexts (some contexts) pc = .error l → l = []) := by
  have hq : ∀ c : OfonoContext, qualifies c = true ↔
      (c.isTypeMMS = true ∨ (c.isTypeInternet = true ∧ c.hasMessageCenter = true)) := by
    intro c; simp [qualifies]
  cases hfind : contexts.find? (fun c => qualifies c && c.isPreferred == some true) with
  | some c0 =>
    rw [GetMMSContexts_preferred contexts pc hf c0 hfind]
    have hmem := List.mem_of_find?_eq_some hfind
    have hprop := List.find?_some hfind
    simp only [Bool.and_eq_true] at hprop
    refine ⟨by simp, ?_, ?_, by simp⟩
    · intro l hl c hc
      cases hl
      rw [List.mem_singleton] at hc
      subst hc
      exact ⟨hmem, (hq _).mp hprop.1⟩
    · constructor
      · rintro ⟨l, hl⟩; cases hl
      · intro hall
        exact absurd ((hq _).mp hprop.1) (hall c0 hmem)
  | none =>
    rw [GetMMSContexts_ranked contexts pc hf hfind]
    by_cases hnil : (contexts.filter fun c => qualifies c) = []
    · rw [if_pos hnil]
      refine ⟨by simp, by simp, ?_, by simp⟩
      constructor
      · intro _ c hc hqc
        rw [List.filter_eq_nil_iff] at hnil
        exact hnil c hc ((hq c).mpr hqc)
      · intro _; exact ⟨[], rfl⟩
    · rw [if_neg hnil]
      refine ⟨by simp, ?_, ?_, by simp⟩
      · intro l hl c hc
        cases hl
        rw [List.mem_append, List.mem_reverse, List.mem_filter, List.mem_filter] at hc
        rcases hc with ⟨hm, hp⟩ | ⟨hm, hp⟩
        · simp only [Bool.and_eq_true] at hp
          exact ⟨hm, (hq c).mp hp.1⟩
        · simp only [Bool.and_eq_true] at hp
          exact ⟨hm, (hq c).mp hp.1⟩
      · constructor
        · rintro ⟨l, hl⟩; cases hl
        · intro hall
          exfalso
          apply hnil
          rw [List.filter_eq_nil_iff]
          intro c hc hqc
          exact hall c hc ((hq c).mp hqc)

/-- C34 at an internet context with a message centre and an internet context without one:
the call does not panic, returns the first context, both of whose properties qualify it,
and returns no error. -/
theorem getMMSContexts_qualifying_witness :
    GetMMSContexts
        (some
          [{ ObjectPath := lit "/ril_0/context1",
             Properties := [("Type", .str (lit "internet")),
               ("MessageCenter", .str (lit "http://mmsc.example")), ("Active", .bool true),
               ("Preferred", .bool false)] },
           { ObjectPath := lit "/ril_0/context2",
             Properties := [("Type", .str (lit "internet")), ("Active", .bool false),
               ("Preferred", .bool false)] }])
        (lit "/ril_0/context2") ≠ .panic ∧
    ∀ c ∈ [({ ObjectPath := lit "/ril_0/context1",
              Properties := [("Type", .str (lit "internet")),
                ("MessageCenter", .str (lit "http://mmsc.example")), ("Active", .bool true),
                ("Preferred", .bool false)] } : OfonoContext)],
      c ∈ [({ ObjectPath := lit "/ril_0/context1",
              Properties := [("Type", .str (lit "internet")),
                ("MessageCenter", .str (lit "http://mmsc.example")), ("Active", .bool true),
                ("Preferred", .bool false)] } : OfonoContext),
           { ObjectPath := lit "/ril_0/context2",
             Properties := [("Type", .str (lit "internet")), ("Active", .bool false),
               ("Preferred", .bool false)] }] ∧
        (c.isTypeMMS = true ∨ (c.isTypeInternet = true ∧ c.hasMessageCenter = true)) :=
  have h := getMMSContexts_qualifying
    [{ ObjectPath := lit "/ril_0/context1",
       Properties := [("Type", .str (lit "internet")),
         ("MessageCenter", .str (lit "http://mmsc.example")), ("Active", .bool true),
         ("Preferred", .bool false)] },
     { ObjectPath := lit "/ril_0/context2",
       Properties := [("Type", .str (lit "internet")), ("Active", .bool false),
         ("Preferred", .bool false)] }]
    (lit "/ril_0/context2") (by decide)
  ⟨h.1, h.2.1 _ (by decide)⟩

/-- C35 as stated fails: of two enumerated contexts of type mms, the second flagged
`Preferred`, `GetMMSContexts` returns the second alone; the first qualifies and is not in
the list. -/
theorem getMMSContexts_preferred_alone :
    GetMMSContexts
        (some
          [{ ObjectPath := lit "/ril_0/context1",
             Properties := [("Type", .str (lit "mms")), ("Active", .bool false),
               ("Preferred", .bool false)] },
           { ObjectPath := lit "/ril_0/context2",
             Properties := [("Type", .str (lit "mms")), ("Active", .bool false),
               ("Preferred", .bool true)] }])
        (lit "/ril_0/context1") =
      .ok [{ ObjectPath := lit "/ril_0/context2",
             Properties := [("Type", .str (lit "mms")), ("Active", .bool false),
               ("Preferred", .bool true)] }] ∧
    qualifies
        { ObjectPath := lit "/ril_0/context1",
          Properties := [("Type", .str (lit "mms")), ("Active", .bool false),
            ("Preferred", .bool false)] } = true ∧
    ({ ObjectPath := lit "/ril_0/context1",
       Properties := [("Type", .str (lit "mms")), ("Active", .bool false),
         ("Preferred", .bool false)] } : OfonoContext) ∉
      [({ ObjectPath := lit "/ril_0/context2",
          Properties := [("Type", .str (lit "mms")), ("Active", .bool false),
            ("Preferred", .bool true)] } : OfonoContext)] := by
  refine ⟨by decide, by decide, by decide⟩

/-- C35, amended: let every enumerated context carry boolean `Active` and `Preferred`
properties.  When some qualifying context is flagged `Preferred`, `GetMMSContexts` returns
the first such context alone.  When none is and some context qualifies, the list it returns
contains every qualifying context exactly once (it is a permutation of the qualifying
contexts), ranked: first the contexts that match the caller's preferred path or are active,
then the rest. -/
theorem getMMSContexts_order (contexts : List OfonoContext) (pc : GoString)
    (hf : ∀ c ∈ contexts, hasFlags c) :
    (∀ c, contexts.find? (fun c => qualifies c && c.isPreferred == some true) = some c →
      GetMMSContexts (some contexts) pc = .ok [c]) ∧
    ((∀ c ∈ contexts, qualifies c = true → c.isPreferred ≠ some true) →
      (∃ c ∈ contexts, qualifies c = true) →
      ∃ a b, GetMMSContexts (some contexts) pc = .ok (a ++ b) ∧
        (a ++ b).Perm (contexts.filter fun c => qualifies c) ∧
        (∀ c ∈ a, c.ObjectPath = pc ∨ c.isActive = some true) ∧
        (∀ c ∈ b, ¬ (c.ObjectPath = pc ∨ c.isActive = some true))) := by
  refine ⟨fun c hc => GetMMSContexts_preferred contexts pc hf c hc, ?_⟩
  intro hnone hex
  have hfind : contexts.find? (fun c => qualifies c && c.isPreferred == some true) = none := by
    rw [List.find?_eq_none]
    intro c hc
    have := hnone c hc
    cases hq : qualifies c with
    | false => simp
    | true => simpa [hq] using this hq
  have hne : ¬ (contexts.filter fun c => qualifies c) = [] := by
    obtain ⟨c, hc, hq⟩ := hex
    intro h
    rw [List.filter_eq_nil_iff] at h
    exact h c hc hq
  refine ⟨_, _, by rw [GetMMSContexts_ranked contexts pc hf hfind, if_neg hne], ?_, ?_, ?_⟩
  · have e1 : (contexts.filter fun c =>
        qualifies c && (c.ObjectPath == pc || c.isActive == some true)) =
        (contexts.filter fun c => qualifies c).filter
          fun c => (c.ObjectPath == pc || c.isActive == some true) := by
      rw [List.filter_filter]
      congr 1
      funext c
      exact Bool.and_comm _ _
    have e2 : (contexts.filter fun c =>
        qualifies c && !(c.ObjectPath == pc || c.isActive == some true)) =
        (contexts.filter fun c => qualifies c).filter
          fun c => !(c.ObjectPath == pc || c.isActive == some true) := by
      rw [List.filter_filter]
      congr 1
      funext c
      exact Bool.and_comm _ _
    rw [e1, e2]
    exact ((List.reverse_perm _).append_right _).trans (List.filter_append_perm _ _)
  · intro c hc
    have h := (List.mem_filter.mp (List.mem_reverse.mp hc)).2
    simp only [Bool.and_eq_true, Bool.or_eq_true, beq_iff_eq] at h
    exact h.2
  · intro c hc
    have h := (List.mem_filter.mp hc).2
    simp only [Bool.and_eq_true, Bool.not_eq_true', Bool.or_eq_false_iff, beq_eq_false_iff_ne,
      ne_eq] at h
    intro hor
    rcases hor with h1 | h2
    · exact h.2.1 h1
    · exact h.2.2 h2

/-- C35, amended, at two qualifying contexts neither of which is flagged `Preferred`, the
second of them active. -/
theorem getMMSContexts_order_witness :
    ∃ a b,
      GetMMSContexts
          (some
            [{ ObjectPath := lit "/ril_0/context1",
               Properties := [("Type", .str (lit "mms")), ("Active", .bool false),
                 ("Preferred", .bool false)] },
             { ObjectPath := lit "/ril_0/context2",
               Properties := [("Type", .str (lit "mms")), ("Active", .bool true),
                 ("Preferred", .bool false)] }])
          (lit "/ril_0/context9") = .ok (a ++ b) ∧
      (a ++ b).Perm
        ([{ ObjectPath := lit "/ril_0/context1",
            Properties := [("Type", .str (lit "mms")), ("Active", .bool false),
              ("Preferred", .bool false)] },
          { ObjectPath := lit "/ril_0/context2",
            Properties := [("Type", .str (lit "mms")), ("Active", .bool true),
              ("Preferred", .bool false)] }].filter fun c => qualifies c) ∧
      (∀ c ∈ a, c.ObjectPath = lit "/ril_0/context9" ∨ c.isActive = some true) ∧
      (∀ c ∈ b, ¬ (c.ObjectPath = lit "/ril_0/context9" ∨ c.isActive = some true)) :=
  (getMMSContexts_order
    [{ ObjectPath := lit "/ril_0/context1",
       Properties := [("Type", .str (lit "mms")), ("Active", .bool false),
         ("Preferred", .bool false)] },
     { ObjectPath := lit "/ril_0/context2",
       Properties := [("Type", .str (lit "mms")), ("Active", .bool true),
         ("Preferred", .bool false)] }]
    (lit "/ril_0/context9") (by decide)).2 (by decide) (by decide)

end Mms
